import Mathlib

/-!
# StreamFlix (netflix-clone): storage adapter, API client, components, router

A shallow embedding of `js/services/storage.js`, `js/services/api.js`, of the card,
row, hero and search components, of the page modules, of `js/router.js` and of
the string, array and retry functions of `js/utils/helpers.js`.

Modelling conventions
* A JavaScript value that can come out of `JSON.parse` is a `Json`; `undefined`
  is `none : JsVal`.  Integers are kept as such (catalog identifiers are
  integers); the other numbers are kept by their decimal text.
* `localStorage` holds text.  A stored text is represented by what `JSON.parse`
  does with it (`Text`): it is the empty string, it makes `JSON.parse` throw, or
  it parses to a `Json` value.  `JSON.stringify v` is the text that parses back
  to `v`.
* `localStorage.setItem` may throw (quota); the store carries the predicate that
  says which writes it accepts.
* A JavaScript exception that reaches the caller is the `error` case of `Except`.
* `console.error` logging has no effect on any value and is left out.
* An asynchronous function is cut at its `await`: the part that runs at the call,
  and the part that runs when the awaited fetches have settled.  What happens in
  between is a sequence of events (`Event`).
* Module variables and the document are fields of one state record (`App`).
* A Number that is an integer is a `Nat` or an `Int`; the sums, products and
  remainders the code takes of such Numbers are exact.  The one division whose
  quotient need not be an integer, `minutes / 60`, is rounded to 53 significant
  binary digits, as the division of Numbers is.  A Number that need not be an
  integer (`maxRetries`, `delay`) is a rational; the product
  `delay * Math.pow(2, i)` is a `Duration`, which is infinite or NaN where the
  product of Numbers is.
* Where lengths and positions in a string matter (`truncate`), the string is the
  list of its UTF-16 code units.
* A loop that need not end takes a `fuel` argument and returns `none` when it
  runs out.
-/

namespace Streamflix

/-! ## Values -/

/-- JSON primitive values.  A number that is an integer is `num`; a finite number
that is not an integer is `real`, given by its canonical decimal text (the text
`String(x)` produces), so that two of them are equal exactly when their texts
are. -/
inductive Prim where
  | null
  | bool (b : Bool)
  | num (n : Int)
  | real (text : String)
  | str (s : String)
deriving DecidableEq, Repr

/-- Values produced by `JSON.parse`.  An object is its member list in text order;
when a name is repeated the last member wins, as in `JSON.parse`. -/
inductive Json where
  | prim (p : Prim)
  | arr (items : List Json)
  | obj (fields : List (String × Json))

/-- A JavaScript value as seen by the code: `none` is `undefined`. -/
abbrev JsVal := Option Json

/-- A plain object: its own enumerable properties. -/
abbrev Obj := List (String × Json)

/-- Exceptions that reach the caller. -/
inductive JsError where
  | typeError
  | rangeError
  | error (message : String)
deriving DecidableEq, Repr

/-- Own property read `o[key]` on a plain object (last member wins). -/
def getField : Obj → String → JsVal
  | [], _ => none
  | (k, v) :: rest, key =>
    match getField rest key with
    | some w => some w
    | none => if k = key then some v else none

/-- Property assignment `o[key] = v` as performed by object spread / literals:
an existing property keeps its position and takes the new value, a new property
is appended. -/
def setProp (o : Obj) (key : String) (v : Json) : Obj :=
  if o.any (fun kv => kv.1 == key) then
    o.map (fun kv => if kv.1 = key then (key, v) else kv)
  else o ++ [(key, v)]

/-- Property read `v.key` for a name that no built-in prototype defines (the code
reads `id` and `media_type`): reading from `null` throws a TypeError, an object
yields its own property, every other value yields `undefined`. -/
def getProp (v : Json) (key : String) : Except JsError JsVal :=
  match v with
  | .prim .null => .error .typeError
  | .obj fields => .ok (getField fields key)
  | _ => .ok none

/-- Strict equality `a === b` between a value `a` freshly produced by `JSON.parse`
and a value `b` held by the caller: primitives compare by value, `undefined`
equals `undefined`, and arrays and objects compare by reference, so a freshly
parsed one is never equal to anything the caller holds. -/
def strictEq (a b : JsVal) : Bool :=
  match a, b with
  | none, none => true
  | some (.prim p), some (.prim q) => decide (p = q)
  | _, _ => false

/-- `Array.prototype.some`: stops at the first element for which the callback
returns true; an exception thrown by the callback propagates. -/
def arraySome (f : Json → Except JsError Bool) : List Json → Except JsError Bool
  | [] => .ok false
  | x :: xs =>
    match f x with
    | .error e => .error e
    | .ok true => .ok true
    | .ok false => arraySome f xs

/-- `Array.prototype.filter`: calls the callback on every element in order. -/
def arrayFilter (f : Json → Except JsError Bool) : List Json → Except JsError (List Json)
  | [] => .ok []
  | x :: xs =>
    match f x with
    | .error e => .error e
    | .ok keep =>
      match arrayFilter f xs with
      | .error e => .error e
      | .ok rest => .ok (if keep then x :: rest else rest)

/-! ## localStorage -/

/-- A stored text, by what `JSON.parse` does with it. -/
inductive Text where
  | empty
  | malformed
  | json (v : Json)

/-- The browser key-value store: `cells key` is `none` when the key is absent
(`getItem` returns `null`); `accepts key text` says whether `setItem` succeeds. -/
structure Store where
  cells : String → Option Text
  accepts : String → Text → Bool

/-- Translation of `localStorage.getItem`. -/
def Store.getItem (st : Store) (key : String) : Option Text := st.cells key

/-- Translation of `localStorage.setItem`: throws when the write is not accepted. -/
def Store.setItem (st : Store) (key : String) (t : Text) : Except JsError Store :=
  if st.accepts key t then
    .ok { st with cells := fun k => if k = key then some t else st.cells k }
  else .error (.error "QuotaExceededError")

def STORAGE_KEYS.WATCHLIST : String := "streamflix_watchlist"
def STORAGE_KEYS.PREFERENCES : String := "streamflix_preferences"
def STORAGE_KEYS.SEARCH_HISTORY : String := "streamflix_search_history"

/-- Translation of `parseJSON(value, defaultValue)`: a falsy value (`null` or the
empty string) gives the default, a text on which `JSON.parse` throws gives the
default (the `catch` branch), any other text gives what it parses to. -/
def parseJSON (value : Option Text) (defaultValue : Json) : Json :=
  match value with
  | none => defaultValue
  | some .empty => defaultValue
  | some .malformed => defaultValue
  | some (.json v) => v

/-- Translation of `saveJSON(key, value)`: true and the updated store, or false
and the unchanged store when `setItem` throws. -/
def saveJSON (st : Store) (key : String) (value : Json) : Bool × Store :=
  match st.setItem key (.json value) with
  | .ok st' => (true, st')
  | .error _ => (false, st)

/-! ## Watchlist -/

def getWatchlist (st : Store) : Json :=
  parseJSON (st.getItem STORAGE_KEYS.WATCHLIST) (.arr [])

/-- The callback `i => i.id === id && i.media_type === mediaType`. -/
def sameEntry (id mediaType : JsVal) (i : Json) : Except JsError Bool :=
  match getProp i "id" with
  | .error e => .error e
  | .ok a =>
    if strictEq a id then
      match getProp i "media_type" with
      | .error e => .error e
      | .ok b => .ok (strictEq b mediaType)
    else .ok false

/-- The callback `item => !(item.id === id && item.media_type === mediaType)`. -/
def otherEntry (id mediaType : JsVal) (i : Json) : Except JsError Bool :=
  match sameEntry id mediaType i with
  | .error e => .error e
  | .ok b => .ok (!b)

/-- Translation of `addToWatchlist(item)`; `now` is `new Date().toISOString()`. -/
def addToWatchlist (st : Store) (item : Obj) (now : String) : Except JsError (Bool × Store) :=
  match getWatchlist st with
  | .arr watchlist =>
    match arraySome (sameEntry (getField item "id") (getField item "media_type")) watchlist with
    | .error e => .error e
    | .ok true => .ok (false, st)
    | .ok false =>
      let itemWithTimestamp := setProp item "addedAt" (.prim (.str now))
      .ok (saveJSON st STORAGE_KEYS.WATCHLIST (.arr (.obj itemWithTimestamp :: watchlist)))
  | _ => .error .typeError

/-- Translation of `removeFromWatchlist(id, mediaType)`. -/
def removeFromWatchlist (st : Store) (id mediaType : JsVal) : Except JsError (Bool × Store) :=
  match getWatchlist st with
  | .arr watchlist =>
    match arrayFilter (otherEntry id mediaType) watchlist with
    | .error e => .error e
    | .ok filtered => .ok (saveJSON st STORAGE_KEYS.WATCHLIST (.arr filtered))
  | _ => .error .typeError

/-- Translation of `isInWatchlist(id, mediaType)`. -/
def isInWatchlist (st : Store) (id mediaType : JsVal) : Except JsError Bool :=
  match getWatchlist st with
  | .arr watchlist => arraySome (sameEntry id mediaType) watchlist
  | _ => .error .typeError

/-- Translation of `toggleWatchlist(item)`. -/
def toggleWatchlist (st : Store) (item : Obj) (now : String) : Except JsError (Bool × Store) :=
  match isInWatchlist st (getField item "id") (getField item "media_type") with
  | .error e => .error e
  | .ok true =>
    match removeFromWatchlist st (getField item "id") (getField item "media_type") with
    | .error e => .error e
    | .ok r => .ok (false, r.2)
  | .ok false =>
    match addToWatchlist st item now with
    | .error e => .error e
    | .ok r => .ok (true, r.2)

/-- Number of UTF-16 code units of a string (`String.prototype.length`). -/
def utf16Length (s : String) : Nat :=
  s.data.foldl (fun n c => n + (if c.val < 0x10000 then 1 else 2)) 0

/-- Translation of `getWatchlistCount()`: the `length` property of whatever
`getWatchlist()` returned. -/
def getWatchlistCount (st : Store) : Except JsError JsVal :=
  match getWatchlist st with
  | .arr watchlist => .ok (some (.prim (.num watchlist.length)))
  | .prim .null => .error .typeError
  | .prim (.str s) => .ok (some (.prim (.num (utf16Length s))))
  | .prim _ => .ok none
  | .obj fields => .ok (getField fields "length")

/-- Translation of `clearWatchlist()`. -/
def clearWatchlist (st : Store) : Bool × Store :=
  saveJSON st STORAGE_KEYS.WATCHLIST (.arr [])

/-! ## Search history -/

def MAX_SEARCH_HISTORY : Nat := 10

/-- The code points that `String.prototype.trim` removes (WhiteSpace and
LineTerminator of the language standard). -/
def isJsWhiteSpace (c : Char) : Bool :=
  let n := c.toNat
  n == 0x9 || n == 0xA || n == 0xB || n == 0xC || n == 0xD || n == 0x20 || n == 0xA0 ||
  n == 0x1680 || (0x2000 ≤ n && n ≤ 0x200A) || n == 0x2028 || n == 0x2029 ||
  n == 0x202F || n == 0x205F || n == 0x3000 || n == 0xFEFF

/-- Translation of `String.prototype.trim`. -/
def jsTrim (s : String) : String :=
  String.mk ((s.data.dropWhile isJsWhiteSpace).reverse.dropWhile isJsWhiteSpace).reverse

/-- What `String.prototype.toLowerCase` does on text made of ASCII characters.  The
functions below take the lower-casing function as an argument, so that general
statements hold for the full Unicode mapping; this instance serves to evaluate
them on ASCII inputs. -/
def toLowerCaseAscii (s : String) : String := String.mk (s.data.map Char.toLower)

def getSearchHistory (st : Store) : Json :=
  parseJSON (st.getItem STORAGE_KEYS.SEARCH_HISTORY) (.arr [])

/-- The callback `q => q.toLowerCase() !== query.toLowerCase()`: an element that is
not a string has no `toLowerCase` method, so the call throws a TypeError. -/
def differsFromQuery (toLowerCase : String → String) (query : String) (q : Json) :
    Except JsError Bool :=
  match q with
  | .prim (.str s) => .ok (toLowerCase s != toLowerCase query)
  | _ => .error .typeError

/-- Translation of `addToSearchHistory(query)`; a missing query is `none`.  The
result is the store afterwards (the function returns nothing).  The test
`query.trim().length === 0` is a test for the empty string, so counting
characters instead of code units makes no difference. -/
def addToSearchHistory (toLowerCase : String → String) (st : Store) (query : Option String) :
    Except JsError Store :=
  match query with
  | none => .ok st
  | some query =>
    if query = "" || (jsTrim query).length == 0 then .ok st
    else
      match getSearchHistory st with
      | .arr history =>
        match arrayFilter (differsFromQuery toLowerCase query) history with
        | .error e => .error e
        | .ok filtered =>
          let limited := (Json.prim (.str (jsTrim query)) :: filtered).take MAX_SEARCH_HISTORY
          .ok (saveJSON st STORAGE_KEYS.SEARCH_HISTORY (.arr limited)).2
      | _ => .error .typeError

/-- Translation of `clearSearchHistory()`. -/
def clearSearchHistory (st : Store) : Bool × Store :=
  saveJSON st STORAGE_KEYS.SEARCH_HISTORY (.arr [])

/-- Successive `addToSearchHistory` calls, in order. -/
def addAllToSearchHistory (toLowerCase : String → String) (st : Store) :
    List (Option String) → Except JsError Store
  | [] => .ok st
  | q :: qs =>
    match addToSearchHistory toLowerCase st q with
    | .error e => .error e
    | .ok st' => addAllToSearchHistory toLowerCase st' qs

/-! ## Preferences -/

def DEFAULT_PREFERENCES : Obj :=
  [("theme", .prim (.str "dark")), ("autoplay", .prim (.bool true)),
   ("quality", .prim (.str "auto")), ("language", .prim (.str "en"))]

/-- The own enumerable properties that object spread copies out of a value: the
members of an object, the elements of an array under their indices, the
characters of a string under their indices, nothing for the other primitives.
Two things are simplified.  The members of an object are kept in the order in
which they are written, where JavaScript enumerates the keys that are array
indices first, in ascending order; and a string is taken apart by characters,
where JavaScript takes it apart by UTF-16 code units, so that a character
outside the Basic Multilingual Plane gives two properties there and one here.
The definition is that of JavaScript for objects without a key that is an array
index and for strings of the Basic Multilingual Plane. -/
def ownProps : Json → Obj
  | .obj fields => fields
  | .arr items => items.enum.map (fun p => (toString p.1, p.2))
  | .prim (.str s) => s.data.enum.map (fun p => (toString p.1, .prim (.str (String.singleton p.2))))
  | .prim _ => []

/-- Object spread into `target`: the properties of `source` are assigned in order. -/
def objectSpread (target source : Obj) : Obj :=
  source.foldl (fun acc kv => setProp acc kv.1 kv.2) target

/-- Translation of `getPreferences()`. -/
def getPreferences (st : Store) : Obj :=
  let saved := parseJSON (st.getItem STORAGE_KEYS.PREFERENCES) (.obj [])
  objectSpread (objectSpread [] DEFAULT_PREFERENCES) (ownProps saved)

/-! ## API client: image URLs -/

def BASE_URL : String := "https://api.themoviedb.org/3"

def IMAGE_BASE_URL : String := "https://image.tmdb.org/t/p"

/-- The table `IMAGE_SIZES`: asset kind, then size name, then size key. -/
def IMAGE_SIZES : List (String × List (String × String)) :=
  [("poster", [("small", "w185"), ("medium", "w342"), ("large", "w500"),
      ("original", "original")]),
   ("backdrop", [("small", "w300"), ("medium", "w780"), ("large", "w1280"),
      ("original", "original")]),
   ("profile", [("small", "w45"), ("medium", "w185"), ("large", "h632"),
      ("original", "original")])]

/-- The names of the properties of `Object.prototype`. -/
def objectPrototypeNames : List String :=
  ["constructor", "__defineGetter__", "__defineSetter__", "hasOwnProperty",
   "__lookupGetter__", "__lookupSetter__", "isPrototypeOf", "propertyIsEnumerable",
   "toString", "valueOf", "__proto__", "toLocaleString"]

/-- Whether a property read finds `name` on `Object.prototype`. -/
def isInheritedName (name : String) : Bool := objectPrototypeNames.contains name

/-- What the read `IMAGE_SIZES[type]` finds: one of the three inner tables, or,
through the prototype of the object literal, a built-in function (known by its
name) or `Object.prototype` itself, or nothing. -/
inductive Holder where
  | sizes (table : List (String × String))
  | builtinFunction (name : String)
  | objectPrototype
  | undefined

/-- What the second read, `?.[size]`, finds. -/
inductive Found where
  | undefined
  | null
  | text (s : String)
  | number (n : Nat)
  | builtinFunction (name : String)
  | objectPrototype

/-- What the script engine decides about built-in functions: the text that string
conversion gives for the built-in function of a given name (the language
standard fixes its shape, not its blanks and line breaks), and what a read
`f[property]` on the built-in function named `name` finds for a property other
than `name` and `length` (the static methods of `Object` and the properties of
`Function.prototype` differ between editions of the standard, and the read of
`caller` or `arguments` may throw). -/
structure Engine where
  nativeText : String → String
  functionProperty : String → String → Except JsError Found

/-- The built-in function that `Object.prototype` holds under a name other than
`__proto__`, by its own name: `constructor` is the function `Object`. -/
def prototypeFunctionName (name : String) : String :=
  if name = "constructor" then "Object" else name

/-- The property `length` of the built-in functions of `Object.prototype` and of
`Object`: the number of their parameters. -/
def builtinLength (name : String) : Nat :=
  if name = "__defineGetter__" ∨ name = "__defineSetter__" then 2
  else if name = "toString" ∨ name = "valueOf" ∨ name = "toLocaleString" then 0
  else 1

/-- The read `IMAGE_SIZES[type]` on the object literal: an own entry of the table;
else what the prototype chain holds (for `__proto__` the prototype itself, for
the other names of `Object.prototype` a built-in function); else `undefined`. -/
def readImageSizes (type : String) : Holder :=
  match IMAGE_SIZES.lookup type with
  | some table => .sizes table
  | none =>
    if type = "__proto__" then .objectPrototype
    else if isInheritedName type then .builtinFunction (prototypeFunctionName type)
    else .undefined

/-- The read `holder?.[size]`.  On an inner table: an own entry, else what the
prototype chain holds.  On `Object.prototype`: its own properties, of which
`__proto__` reads as `null` there.  On a built-in function: its `name`, its
`length`, and for the rest what the engine says.  On `undefined` the optional
chaining gives `undefined`. -/
def readSize (engine : Engine) (holder : Holder) (size : String) : Except JsError Found :=
  match holder with
  | .sizes table =>
    match table.lookup size with
    | some key => .ok (.text key)
    | none =>
      if size = "__proto__" then .ok .objectPrototype
      else if isInheritedName size then .ok (.builtinFunction (prototypeFunctionName size))
      else .ok .undefined
  | .objectPrototype =>
    if size = "__proto__" then .ok .null
    else if isInheritedName size then .ok (.builtinFunction (prototypeFunctionName size))
    else .ok .undefined
  | .builtinFunction name =>
    if size = "name" then .ok (.text name)
    else if size = "length" then .ok (.number (builtinLength name))
    else engine.functionProperty name size
  | .undefined => .ok .undefined

/-- Truthiness of what a read found. -/
def Found.truthy : Found → Bool
  | .undefined => false
  | .null => false
  | .text s => s != ""
  | .number n => n != 0
  | .builtinFunction _ => true
  | .objectPrototype => true

/-- String conversion, as in a template literal, of what a read found. -/
def Found.toText (engine : Engine) : Found → String
  | .undefined => "undefined"
  | .null => "null"
  | .text s => s
  | .number n => toString n
  | .builtinFunction name => engine.nativeText name
  | .objectPrototype => "[object Object]"

/-- Translation of `getImageUrl(path, size = 'original', type = 'poster')`.  A
missing `path` (`null` or `undefined`) is `none`; an omitted `size` or `type` is
`none` and takes its default; the result `none` is `null`.  The function throws
only when a read on a built-in function does. -/
def getImageUrl (engine : Engine) (path size type : Option String) :
    Except JsError (Option String) :=
  let size := size.getD "original"
  let type := type.getD "poster"
  match path with
  | none => .ok none
  | some path =>
    if path = "" then .ok none
    else
      match readSize engine (readImageSizes type) size with
      | .error e => .error e
      | .ok found =>
        let sizeKey := if found.truthy then found.toText engine else size
        .ok (some (IMAGE_BASE_URL ++ "/" ++ sizeKey ++ path))

/-! ## API client: requests -/

/-- A primitive argument as a JavaScript caller passes it: `none` is `undefined`. -/
abbrev Arg := Option Prim

/-- String conversion of a primitive, as in a template literal or in
`URLSearchParams.append`.  An integer is printed by its decimal digits, which is
what JavaScript does for an integer Number of magnitude below 10^21; from 10^21
on JavaScript prints an exponent form (`1e+21`), which is not modelled. -/
def jsToString : Arg → String
  | none => "undefined"
  | some .null => "null"
  | some (.bool true) => "true"
  | some (.bool false) => "false"
  | some (.num n) => toString n
  | some (.real text) => text
  | some (.str s) => s

/-- Truthiness of a primitive. -/
def truthy : Arg → Bool
  | none => false
  | some .null => false
  | some (.bool b) => b
  | some (.num n) => n != 0
  | some (.real _) => true
  | some (.str s) => s != ""

/-- A GET request: the URL before the query string, and the query parameters. -/
structure Request where
  url : String
  query : List (String × String)
deriving DecidableEq, Repr

/-- What `fetch` resolves to: the status line and what `response.json()` gives. -/
structure Response where
  ok : Bool
  status : Nat
  statusText : String
  json : Except JsError Json

/-- The network: a request is rejected (no connection) or answered. -/
abbrev Network := Request → Except JsError Response

/-- The outcome of an asynchronous fetch function: the requests it issued, in
order, and the value its promise resolves to or the error it rejects with. -/
abbrev Fetched := List Request × Except JsError Json

def PLACEHOLDER_API_KEY : String := "YOUR_TMDB_API_KEY_HERE"

def API_KEY_ERROR : String :=
  "API key not configured. Please get a free API key from https://www.themoviedb.org/settings/api"

def ENDPOINTS.trending : String := "/trending/all/week"
def ENDPOINTS.popularMovies : String := "/movie/popular"
def ENDPOINTS.topRatedMovies : String := "/movie/top_rated"
def ENDPOINTS.upcomingMovies : String := "/movie/upcoming"
def ENDPOINTS.nowPlayingMovies : String := "/movie/now_playing"
def ENDPOINTS.popularTV : String := "/tv/popular"
def ENDPOINTS.topRatedTV : String := "/tv/top_rated"
def ENDPOINTS.movieDetails (id : Arg) : String := "/movie/" ++ jsToString id
def ENDPOINTS.tvDetails (id : Arg) : String := "/tv/" ++ jsToString id
def ENDPOINTS.movieCredits (id : Arg) : String := "/movie/" ++ jsToString id ++ "/credits"
def ENDPOINTS.tvCredits (id : Arg) : String := "/tv/" ++ jsToString id ++ "/credits"
def ENDPOINTS.search : String := "/search/multi"
def ENDPOINTS.discover : String := "/discover/movie"
def ENDPOINTS.genres : String := "/genre/movie/list"

/-- The query parameters appended after `api_key`: those whose value is neither
`null` nor `undefined`, converted to strings. -/
def appendedParams (params : List (String × Arg)) : List (String × String) :=
  params.filterMap (fun kv =>
    match kv.2 with
    | none => none
    | some .null => none
    | some p => some (kv.1, jsToString (some p)))

/-- Translation of `fetchFromAPI(endpoint, params)`; `apiKey` is the constant
`API_KEY` of the module and `net` is the network that `fetch` talks to. -/
def fetchFromAPI (apiKey : String) (net : Network) (endpoint : String)
    (params : List (String × Arg)) : Fetched :=
  if apiKey = "" || apiKey = PLACEHOLDER_API_KEY then
    ([], .error (.error API_KEY_ERROR))
  else
    let request : Request :=
      { url := BASE_URL ++ endpoint, query := ("api_key", apiKey) :: appendedParams params }
    match net request with
    | .error e => ([request], .error e)
    | .ok response =>
      if !response.ok then
        ([request], .error (.error
          ("API Error: " ++ toString response.status ++ " " ++ response.statusText)))
      else ([request], response.json)

/-- The default `page = 1` of the paged functions. -/
def pageOrDefault (page : Arg) : Arg :=
  match page with
  | none => some (.num 1)
  | some p => some p

def getTrending (apiKey : String) (net : Network) (page : Arg) : Fetched :=
  fetchFromAPI apiKey net ENDPOINTS.trending [("page", pageOrDefault page)]

def getPopularMovies (apiKey : String) (net : Network) (page : Arg) : Fetched :=
  fetchFromAPI apiKey net ENDPOINTS.popularMovies [("page", pageOrDefault page)]

def getTopRatedMovies (apiKey : String) (net : Network) (page : Arg) : Fetched :=
  fetchFromAPI apiKey net ENDPOINTS.topRatedMovies [("page", pageOrDefault page)]

def getUpcomingMovies (apiKey : String) (net : Network) (page : Arg) : Fetched :=
  fetchFromAPI apiKey net ENDPOINTS.upcomingMovies [("page", pageOrDefault page)]

def getNowPlayingMovies (apiKey : String) (net : Network) (page : Arg) : Fetched :=
  fetchFromAPI apiKey net ENDPOINTS.nowPlayingMovies [("page", pageOrDefault page)]

def getPopularTV (apiKey : String) (net : Network) (page : Arg) : Fetched :=
  fetchFromAPI apiKey net ENDPOINTS.popularTV [("page", pageOrDefault page)]

def getTopRatedTV (apiKey : String) (net : Network) (page : Arg) : Fetched :=
  fetchFromAPI apiKey net ENDPOINTS.topRatedTV [("page", pageOrDefault page)]

def getMovieDetails (apiKey : String) (net : Network) (id : Arg) : Fetched :=
  fetchFromAPI apiKey net (ENDPOINTS.movieDetails id)
    [("append_to_response", some (.str "videos,credits,similar"))]

def getTVDetails (apiKey : String) (net : Network) (id : Arg) : Fetched :=
  fetchFromAPI apiKey net (ENDPOINTS.tvDetails id)
    [("append_to_response", some (.str "videos,credits,similar"))]

def getMovieCredits (apiKey : String) (net : Network) (id : Arg) : Fetched :=
  fetchFromAPI apiKey net (ENDPOINTS.movieCredits id) []

def getTVCredits (apiKey : String) (net : Network) (id : Arg) : Fetched :=
  fetchFromAPI apiKey net (ENDPOINTS.tvCredits id) []

/-- Translation of `search(query, page = 1)`; a missing query is `none`.  The early
return resolves to the object with the single property `results`, an empty array. -/
def search (apiKey : String) (net : Network) (query : Option String) (page : Arg) : Fetched :=
  match query with
  | none => ([], .ok (.obj [("results", .arr [])]))
  | some query =>
    if query = "" || (jsTrim query).length == 0 then
      ([], .ok (.obj [("results", .arr [])]))
    else
      fetchFromAPI apiKey net ENDPOINTS.search
        [("query", some (.str (jsTrim query))), ("page", pageOrDefault page)]

def getGenres (apiKey : String) (net : Network) : Fetched :=
  fetchFromAPI apiKey net ENDPOINTS.genres []

/-- The `options` object of `discoverMovies`; an absent property is `none`. -/
structure DiscoverOptions where
  page : Arg
  sortBy : Arg
  withGenres : Arg
  year : Arg
  minRating : Arg

/-- Translation of `discoverMovies(options = {})`: the destructuring defaults apply
to absent properties, and a filter is sent only when its value is truthy. -/
def discoverMovies (apiKey : String) (net : Network) (options : Option DiscoverOptions) :
    Fetched :=
  let options := options.getD
    { page := none, sortBy := none, withGenres := none, year := none, minRating := none }
  let page := pageOrDefault options.page
  let sortBy : Arg :=
    match options.sortBy with
    | none => some (.str "popularity.desc")
    | some p => some p
  let withGenres : Arg := match options.withGenres with
    | none => some .null
    | some p => some p
  let year : Arg := match options.year with
    | none => some .null
    | some p => some p
  let minRating : Arg := match options.minRating with
    | none => some .null
    | some p => some p
  let params : List (String × Arg) :=
    [("page", page), ("sort_by", sortBy)]
      ++ (if truthy withGenres then [("with_genres", withGenres)] else [])
      ++ (if truthy year then [("year", year)] else [])
      ++ (if truthy minRating then [("vote_average.gte", minRating)] else [])
  fetchFromAPI apiKey net ENDPOINTS.discover params

/-- Translation of `getContentDetails(id, mediaType)`. -/
def getContentDetails (apiKey : String) (net : Network) (id mediaType : Arg) : Fetched :=
  if mediaType = some (.str "movie") then getMovieDetails apiKey net id
  else if mediaType = some (.str "tv") then getTVDetails apiKey net id
  else ([], .error (.error "Invalid media type"))

/-! ## API client: formatting a runtime -/

/-- The number of binary digits of `n` (0 for 0), found by halving; `fuel` bounds
the number of halvings. -/
def bitLengthAux : Nat → Nat → Nat
  | 0, _ => 0
  | fuel + 1, n => if n = 0 then 0 else bitLengthAux fuel (n / 2) + 1

/-- The number of binary digits of `n`: the least `b` with `n < 2 ^ b`. -/
def bitLength (n : Nat) : Nat := bitLengthAux n n

/-- Whether the non-negative integer `n` is a Number value: a finite binary64
number has at most 53 significant binary digits, so the digits of `n` below its
leading 53 are zeros, and it is below 2^1024, so `n` has at most 1024 digits. -/
def isNumberValue (n : Nat) : Bool :=
  decide (bitLength n ≤ 1024) && n % 2 ^ (bitLength n - 53) == 0

/-- The integer nearest to the exact quotient `n / d`, the even one of the two when
it lies half way between them. -/
def roundHalfEven (n d : Nat) : Nat :=
  if 2 * (n % d) < d then n / d
  else if d < 2 * (n % d) then n / d + 1
  else if (n / d) % 2 = 0 then n / d
  else n / d + 1

/-- Translation of `Math.floor(a / b)` for Numbers `a` and `b` that are positive
integers.  The division gives the Number nearest to the exact quotient (round to
nearest, ties to even): with `e` the binary exponent of the exact quotient
(`2^e ≤ a / b < 2^(e+1)`), that Number is `mantissa * 2^(e - 52)`, where
`mantissa` is the exact quotient divided by `2^(e - 52)` and rounded to an
integer.  `Math.floor` is then taken of that Number.  For `b ≤ a` the exponent is
that of the integer part of the quotient; for `a < b` it is `-k` for the least
`k` with `b ≤ a * 2^k`. -/
def floorOfQuotient (a b : Nat) : Nat :=
  if b ≤ a then
    let e := bitLength (a / b) - 1
    if e ≤ 52 then roundHalfEven (a * 2 ^ (52 - e)) b / 2 ^ (52 - e)
    else roundHalfEven a (b * 2 ^ (e - 52)) * 2 ^ (e - 52)
  else
    let k := bitLength ((b - 1) / a)
    roundHalfEven (a * 2 ^ (52 + k)) b / 2 ^ (52 + k)

/-- String conversion of a Number that is a non-negative integer, as in a template
literal: below 2^53 it is the decimal numeral of the integer.  Larger Numbers,
which are printed from their shortest round-trip digits, are outside the model
(`none`). -/
def integerToString (n : Nat) : Option String :=
  if n < 2 ^ 53 then some (toString n) else none

/-- Translation of `formatRuntime(minutes)` for a runtime that is missing (`none`:
`undefined` or `null`) or a Number that is a non-negative integer.  The remainder
`minutes % 60` is exact.  The result `none` stands for an input or an output
outside the model: an integer that is not a Number value, or hours that
`integerToString` does not cover. -/
def formatRuntime (minutes : Option Nat) : Option String :=
  match minutes with
  | none => some "N/A"
  | some m =>
    if m = 0 then some "N/A"
    else if !isNumberValue m then none
    else
      let hours := floorOfQuotient m 60
      let mins := m % 60
      if hours > 0 then
        match integerToString hours, integerToString mins with
        | some h, some r => some (h ++ "h " ++ r ++ "m")
        | _, _ => none
      else
        match integerToString mins with
        | some r => some (r ++ "m")
        | none => none

/-! ## Dates -/

def msPerDay : Int := 86400000

/-- DayFromYear of the language standard: the day number of 1 January of year `y`,
counted from 1 January 1970.  The divisions round down. -/
def dayFromYear (y : Int) : Int :=
  365 * (y - 1970) + (y - 1969) / 4 - (y - 1901) / 100 + (y - 1601) / 400

/-- The year that contains day number `day`: the largest `y` with
`dayFromYear y ≤ day`.  A year has 365 or 366 days, so that year lies between
the two bounds that are searched. -/
def yearFromDay (day : Int) : Int :=
  let lo := 1970 + min (day / 365) (day / 366) - 1
  let hi := 1970 + max (day / 365) (day / 366) + 1
  ((List.range (hi - lo + 1).toNat).map (fun i => lo + (i : Int))).foldl
    (fun best y => if dayFromYear y ≤ day then y else best) lo

/-- YearFromTime of the language standard, on a time value in milliseconds. -/
def yearFromTime (t : Int) : Int := yearFromDay (t / msPerDay)

/-- Whether year `y` has 366 days. -/
def inLeapYear (y : Int) : Bool := dayFromYear (y + 1) - dayFromYear y == 366

/-- Number of days of month `m` (1 to 12) of year `y`. -/
def daysInMonth (y : Int) (m : Nat) : Nat :=
  if m = 2 then (if inLeapYear y then 29 else 28)
  else if m = 4 ∨ m = 6 ∨ m = 9 ∨ m = 11 then 30
  else 31

/-- Number of days of year `y` that precede month `m` (1 to 12). -/
def daysBeforeMonth (y : Int) (m : Nat) : Nat :=
  ((List.range (m - 1)).map (fun i => daysInMonth y (i + 1))).sum

/-- The time value of midnight UTC that starts the given calendar date. -/
def utcMidnight (y : Int) (m d : Nat) : Int :=
  (dayFromYear y + (daysBeforeMonth y m : Int) + ((d : Int) - 1)) * msPerDay

/-- The value of a decimal digit, if the character is one. -/
def digitValue (c : Char) : Option Nat :=
  if c.isDigit then some (c.toNat - 48) else none

/-- What `new Date(s)` holds for a text `s` of the date-only form YYYY-MM-DD that
names a calendar date: the standard reads this form as midnight UTC.  The
result `none` stands for a text outside that form, which this instance does not
cover (the functions below take the parsing function as an argument). -/
def parseDateOnly (s : String) : Option Int :=
  match s.data with
  | [y1, y2, y3, y4, '-', m1, m2, '-', d1, d2] =>
    match digitValue y1, digitValue y2, digitValue y3, digitValue y4,
          digitValue m1, digitValue m2, digitValue d1, digitValue d2 with
    | some a, some b, some c, some e, some f, some g, some h, some i =>
      let y : Int := ((1000 * a + 100 * b + 10 * c + e : Nat) : Int)
      let m := 10 * f + g
      let d := 10 * h + i
      if 1 ≤ m ∧ m ≤ 12 ∧ 1 ≤ d ∧ d ≤ daysInMonth y m then some (utcMidnight y m d)
      else none
    | _, _, _, _, _, _, _, _ => none
  | _ => none

/-- What `getYear` returns: the text N/A, a year, or NaN. -/
inductive YearResult where
  | notAvailable
  | year (y : Int)
  | notANumber
deriving DecidableEq, Repr

/-- Translation of `getYear(dateString)`; a missing date is `none`.  `parseDate`
is the time value `new Date(dateString)` holds (`none` for an invalid date) and
`localOffset t` is the offset of local time from UTC at time `t`, in
milliseconds: `getFullYear` reads the year in local time. -/
def getYear (parseDate : String → Option Int) (localOffset : Int → Int)
    (dateString : Option String) : YearResult :=
  match dateString with
  | none => .notAvailable
  | some s =>
    if s = "" then .notAvailable
    else
      match parseDate s with
      | none => .notANumber
      | some t => .year (yearFromTime (t + localOffset t))

/-! ## Catalog items and cards -/

/-- A property that is a string, `null` or absent. -/
def isTextOrMissing : JsVal → Bool
  | none => true
  | some (.prim .null) => true
  | some (.prim (.str _)) => true
  | some _ => false

/-- A property that is a number, `null` or absent. -/
def isNumberOrMissing : JsVal → Bool
  | none => true
  | some (.prim .null) => true
  | some (.prim (.num _)) => true
  | some (.prim (.real _)) => true
  | some _ => false

/-- The typing of a catalog payload item that the components rely on: `title`,
`name` and `overview` are text and `vote_average` is a number (each may be
`null` or absent).  With these types `truncate` and `toFixed` are applied to
values that have them, and the only call in `createMovieCard` and
`updateHeroContent` that can throw is `isInWatchlist`. -/
def isCatalogItem (o : Obj) : Bool :=
  isTextOrMissing (getField o "title") && isTextOrMissing (getField o "name") &&
  isTextOrMissing (getField o "overview") && isNumberOrMissing (getField o "vote_average")

/-- A catalog item: an object that passes `isCatalogItem`. -/
abbrev CatalogItem := { o : Obj // isCatalogItem o = true }

/-- A card element.  A movie card is determined by the item it was built from, by
the watchlist membership read at creation, and by the time zone (for the year it
prints); the markup itself is not part of the model. -/
inductive Card where
  | movie (item : CatalogItem) (inWatchlist : Bool)
  | skeleton

/-- The item a card was built from, if it is a movie card. -/
def Card.item? : Card → Option CatalogItem
  | .movie item _ => some item
  | .skeleton => none

/-- Translation of `createMovieCard(item)`. -/
def createMovieCard (st : Store) (item : CatalogItem) : Except JsError Card :=
  match isInWatchlist st (getField item.1 "id") (getField item.1 "media_type") with
  | .error e => .error e
  | .ok inWatchlist => .ok (.movie item inWatchlist)

/-- Translation of `createSkeletonCard()`. -/
def createSkeletonCard : Card := .skeleton

/-- Translation of `createSkeletonCards(count = 10)`; an omitted count is `none`.
`Array.from` creates an array of the given length and throws a RangeError when
the length is not below 2^32. -/
def createSkeletonCards (count : Option Nat) : Except JsError (List Card) :=
  let count := count.getD 10
  if count < 2 ^ 32 then .ok (List.replicate count createSkeletonCard)
  else .error .rangeError

/-- The cards that `items.forEach(item => track.appendChild(createMovieCard(item)))`
appends, in order; the first exception ends the loop and propagates. -/
def createCards (st : Store) : List CatalogItem → Except JsError (List Card)
  | [] => .ok []
  | item :: items =>
    match createMovieCard st item with
    | .error e => .error e
    | .ok card =>
      match createCards st items with
      | .error e => .error e
      | .ok cards => .ok (card :: cards)

/-- A movie row element: its title, whether it shows the View All link, and the
cards of its track. -/
structure Row where
  title : String
  showViewAll : Bool
  track : List Card

/-- Translation of `createMovieRow(title, items, showViewAll = false)`. -/
def createMovieRow (st : Store) (title : String) (items : List CatalogItem)
    (showViewAll : Bool) : Except JsError Row :=
  match createCards st items with
  | .error e => .error e
  | .ok cards => .ok { title := title, showViewAll := showViewAll, track := cards }

/-! ## The document and the module state of the pages -/

/-- The values of the table `routes`, and what a read of `routes[path]` can find
besides them: a property that every object inherits from `Object.prototype`. -/
inductive Handler where
  | renderHome
  | renderMovies
  | renderSeries
  | renderWatchlist
  | inherited (name : String)
deriving DecidableEq, Repr

/-- The read `routes[path]` on the object literal `routes`: one of the four own
entries, else an inherited property (a function or, for `__proto__`, an object:
all truthy), else `undefined`. -/
def routes (path : String) : Option Handler :=
  if path = "/" then some .renderHome
  else if path = "/movies" then some .renderMovies
  else if path = "/series" then some .renderSeries
  else if path = "/watchlist" then some .renderWatchlist
  else if isInheritedName path then some (.inherited path)
  else none

/-- A child of the container element, by what produced it. -/
inductive Node where
  | pageHeader (title : String)
  | hero (items : List CatalogItem)
  | movieRow (row : Row)
  | apiKeyPanel
  | errorPanel (error : JsError)
  | watchlistPage (stored : Json)

/-- A `renderPage` activation suspended at `await handler(app)`: the page that is
waiting and what its fetches settle to, in call order. -/
structure Pending where
  handler : Handler
  outcomes : List (Except JsError Json)

/-- The state the pages act on: the store, the variable `currentRoute` of the
router, the URL fragment, the element with id `app` (whether the document has
one, and its children), the variables `currentIndex`, `rotationTimer` and
`heroItems` of the hero module (`currentIndex` is `none` when it is NaN), the
interval timers that are active, the suspended renders, and two logs: the
requests sent and the calls of `renderPage`. -/
structure App where
  store : Store
  currentRoute : String
  locationHash : String
  appPresent : Bool
  container : List Node
  currentIndex : Option Nat
  rotationTimer : Option Nat
  heroItems : List CatalogItem
  lastTimer : Nat
  intervals : List Nat
  pending : List Pending
  requests : List Request
  rendered : List Handler

/-! ## Hero banner -/

/-- Translation of `stopRotation()`; a timer handle is truthy when it is not 0. -/
def stopRotation (a : App) : App :=
  match a.rotationTimer with
  | none => a
  | some id =>
    if id = 0 then a
    else { a with intervals := a.intervals.erase id, rotationTimer := none }

/-- Translation of `startRotation()`: `setInterval` hands out a fresh positive
handle and the timer becomes active. -/
def startRotation (a : App) : App :=
  let a := stopRotation a
  { a with lastTimer := a.lastTimer + 1,
           intervals := (a.lastTimer + 1) :: a.intervals,
           rotationTimer := some (a.lastTimer + 1) }

/-- Translation of `destroyHero()`. -/
def destroyHero (a : App) : App :=
  { stopRotation a with heroItems := [], currentIndex := some 0 }

/-- Translation of `updateHeroContent(index)`, as far as it can throw: for an
index that names an item the membership is read from the store.  What it writes
into the hero element is not part of the model. -/
def updateHeroContent (a : App) (index : Option Nat) : Except JsError Unit :=
  match index with
  | none => .ok ()
  | some i =>
    match a.heroItems.get? i with
    | none => .ok ()
    | some item =>
      match isInWatchlist a.store (getField item.1 "id") (getField item.1 "media_type") with
      | .error e => .error e
      | .ok _ => .ok ()

/-- Translation of `goToSlide(index)`; the index NaN is `none`, and every
comparison with NaN is false. -/
def goToSlide (index : Option Nat) (a : App) : App × Except JsError Unit :=
  let skip : Bool :=
    match index with
    | none => false
    | some i => a.currentIndex == some i || i ≥ a.heroItems.length
  if skip then (a, .ok ())
  else
    let a := { a with currentIndex := index }
    match updateHeroContent a index with
    | .error e => (a, .error e)
    | .ok _ =>
      match a.rotationTimer with
      | none => (a, .ok ())
      | some id => if id = 0 then (a, .ok ()) else (startRotation (stopRotation a), .ok ())

/-- Translation of `nextSlide()`: the remainder by zero is NaN. -/
def nextSlide (a : App) : App × Except JsError Unit :=
  let nextIndex : Option Nat :=
    match a.currentIndex with
    | none => none
    | some c => if a.heroItems.length = 0 then none else some ((c + 1) % a.heroItems.length)
  goToSlide nextIndex a

/-- Translation of `createHero(items)`: the element it returns, or the exception
that `updateHeroContent(0)` raised before the rotation was started. -/
def createHero (items : List CatalogItem) (a : App) : App × Except JsError Node :=
  let a := { a with heroItems := items.take 5, currentIndex := some 0 }
  match updateHeroContent a (some 0) with
  | .error e => (a, .error e)
  | .ok _ => (startRotation a, .ok (.hero (items.take 5)))

/-- One firing of the interval the hero module holds in `rotationTimer`: the
callback `nextSlide` runs (an exception it raises is not caught by anyone); no
callback runs when the module holds no active timer. -/
def rotationTick (a : App) : App :=
  match a.rotationTimer with
  | none => a
  | some id => if a.intervals.contains id then (nextSlide a).1 else a

/-- The state after `k` firings of the rotation timer. -/
def rotationTicks : Nat → App → App
  | 0, a => a
  | k + 1, a => rotationTicks k (rotationTick a)

/-! ## Page modules -/

/-- Translation of `s.includes(sub)`. -/
def includes (s sub : String) : Bool :=
  s.data.tails.any (fun t => sub.data.isPrefixOf t)

/-- The test `error.message && error.message.includes('API key')`.  The message of
a TypeError or RangeError raised by the engine is engine text that does not
speak of an API key. -/
def mentionsApiKey : JsError → Bool
  | .error message => message != "" && includes message "API key"
  | _ => false

/-- The rejection `Promise.all` reports: that of the fetch that fails first.
`order` lists the fetches (by position) in the order in which they settle; a
fetch it does not list settles after the listed ones, in call order. -/
def firstRejection (order : List Nat) (outcomes : List (Except JsError Json)) :
    Option JsError :=
  match order.findSome? (fun i =>
      match outcomes.get? i with
      | some (.error e) => some e
      | _ => none) with
  | some e => some e
  | none => outcomes.findSome? (fun o =>
      match o with
      | .error e => some e
      | .ok _ => none)

/-- Translation of `await Promise.all([...])` on fetches with the given outcomes. -/
def promiseAll (order : List Nat) (outcomes : List (Except JsError Json)) :
    Except JsError (List Json) :=
  match firstRejection order outcomes with
  | some e => .error e
  | none => .ok (outcomes.filterMap (fun o =>
      match o with
      | .ok v => some v
      | .error _ => none))

/-- The items a list endpoint answered with, read as `data.results || []`, for a
body of the shape of such an answer: an object whose `results` is an array of
catalog items, or is `null` or absent.  A body of another shape is outside the
model (`none`). -/
def listPayload (data : Json) : Option (List CatalogItem) :=
  match data with
  | .obj fields =>
    match getField fields "results" with
    | none => some []
    | some (.prim .null) => some []
    | some (.arr items) =>
      items.mapM (fun item =>
        match item with
        | .obj o => if h : isCatalogItem o = true then some ⟨o, h⟩ else none
        | _ => none)
    | some _ => none
  | _ => none

/-- The loop `rows.forEach(...)` of the page modules: a row is created and
appended for each non-empty item list; the first exception ends the loop. -/
def appendRows (rows : List (String × List CatalogItem)) (a : App) : App × Except JsError Unit :=
  match rows with
  | [] => (a, .ok ())
  | (title, items) :: rest =>
    if items.length > 0 then
      match createMovieRow a.store title items true with
      | .error e => (a, .error e)
      | .ok row => appendRows rest { a with container := a.container ++ [.movieRow row] }
    else appendRows rest a

/-- The requests a list of fetch calls sends, and what the calls settle to. -/
def issue (fetches : List Fetched) (a : App) : App × List (Except JsError Json) :=
  ({ a with requests := a.requests ++ (fetches.map Prod.fst).flatten }, fetches.map Prod.snd)

/-- The fetches `renderHome` passes to `Promise.all`, in call order. -/
def renderHome.fetches (apiKey : String) (net : Network) : List Fetched :=
  [getTrending apiKey net (some (.num 1)), getPopularMovies apiKey net (some (.num 1)),
   getTopRatedMovies apiKey net (some (.num 1)), getNowPlayingMovies apiKey net (some (.num 1)),
   getPopularTV apiKey net (some (.num 1)), getTopRatedTV apiKey net (some (.num 1))]

/-- The part of `renderHome(container)` that runs before `await Promise.all`. -/
def renderHome.start (apiKey : String) (net : Network) (a : App) :
    App × List (Except JsError Json) :=
  issue (renderHome.fetches apiKey net) (destroyHero a)

/-- The `catch` block of `renderHome`. -/
def renderHome.onError (e : JsError) (a : App) : App × Except JsError Unit :=
  if mentionsApiKey e then ({ a with container := [.apiKeyPanel] }, .ok ())
  else (a, .error e)

/-- The part of `renderHome(container)` that runs after `await Promise.all`. -/
def renderHome.resume (order : List Nat) (outcomes : List (Except JsError Json)) (a : App) :
    Option (App × Except JsError Unit) :=
  match promiseAll order outcomes with
  | .error e => some (renderHome.onError e a)
  | .ok datas =>
    match datas.mapM listPayload with
    | some [trending, popularMovies, topRatedMovies, nowPlaying, popularTV, topRatedTV] =>
      let withHero : App × Except JsError Unit :=
        if trending.length > 0 then
          match createHero trending a with
          | (a, .error e) => (a, .error e)
          | (a, .ok hero) => ({ a with container := a.container ++ [hero] }, .ok ())
        else (a, .ok ())
      match withHero with
      | (a, .error e) => some (renderHome.onError e a)
      | (a, .ok _) =>
        match appendRows [("Now Playing in Theaters", nowPlaying),
            ("Popular Movies", popularMovies), ("Top Rated Movies", topRatedMovies),
            ("Popular TV Shows", popularTV), ("Top Rated TV Shows", topRatedTV)] a with
        | (a, .error e) => some (renderHome.onError e a)
        | (a, .ok _) => some (a, .ok ())
    | _ => none

/-- The fetches `renderMovies` passes to `Promise.all`, in call order. -/
def renderMovies.fetches (apiKey : String) (net : Network) : List Fetched :=
  [getNowPlayingMovies apiKey net (some (.num 1)), getPopularMovies apiKey net (some (.num 1)),
   getTopRatedMovies apiKey net (some (.num 1)), getUpcomingMovies apiKey net (some (.num 1))]

/-- The part of `renderMovies(container)` that runs before `await Promise.all`. -/
def renderMovies.start (apiKey : String) (net : Network) (a : App) :
    App × List (Except JsError Json) :=
  issue (renderMovies.fetches apiKey net)
    { a with container := a.container ++ [.pageHeader "Movies"] }

/-- The part of `renderMovies(container)` that runs after `await Promise.all`; the
`catch` block rethrows. -/
def renderMovies.resume (order : List Nat) (outcomes : List (Except JsError Json)) (a : App) :
    Option (App × Except JsError Unit) :=
  match promiseAll order outcomes with
  | .error e => some (a, .error e)
  | .ok datas =>
    match datas.mapM listPayload with
    | some [nowPlaying, popular, topRated, upcoming] =>
      some (appendRows [("Now Playing in Theaters", nowPlaying), ("Popular Movies", popular),
        ("Top Rated Movies", topRated), ("Coming Soon", upcoming)] a)
    | _ => none

/-- The fetches `renderSeries` passes to `Promise.all`, in call order. -/
def renderSeries.fetches (apiKey : String) (net : Network) : List Fetched :=
  [getPopularTV apiKey net (some (.num 1)), getTopRatedTV apiKey net (some (.num 1))]

/-- The part of `renderSeries(container)` that runs before `await Promise.all`. -/
def renderSeries.start (apiKey : String) (net : Network) (a : App) :
    App × List (Except JsError Json) :=
  issue (renderSeries.fetches apiKey net)
    { a with container := a.container ++ [.pageHeader "TV Series"] }

/-- The part of `renderSeries(container)` that runs after `await Promise.all`; the
`catch` block rethrows. -/
def renderSeries.resume (order : List Nat) (outcomes : List (Except JsError Json)) (a : App) :
    Option (App × Except JsError Unit) :=
  match promiseAll order outcomes with
  | .error e => some (a, .error e)
  | .ok datas =>
    match datas.mapM listPayload with
    | some [popular, topRated] =>
      some (appendRows [("Popular TV Shows", popular), ("Top Rated TV Shows", topRated)] a)
    | _ => none

/-- A page module run from its call to the settling of its promise, for fetches
that settle in the given order. -/
def renderHome (apiKey : String) (net : Network) (order : List Nat) (a : App) :
    Option (App × Except JsError Unit) :=
  renderHome.resume order (renderHome.start apiKey net a).2 (renderHome.start apiKey net a).1

def renderMovies (apiKey : String) (net : Network) (order : List Nat) (a : App) :
    Option (App × Except JsError Unit) :=
  renderMovies.resume order (renderMovies.start apiKey net a).2 (renderMovies.start apiKey net a).1

def renderSeries (apiKey : String) (net : Network) (order : List Nat) (a : App) :
    Option (App × Except JsError Unit) :=
  renderSeries.resume order (renderSeries.start apiKey net a).2 (renderSeries.start apiKey net a).1

/-! ## Router -/

/-- Translation of `getCurrentRoute()`. -/
def getCurrentRoute (a : App) : String := a.currentRoute

/-- Translation of `renderPage(handler)` up to the point where it is suspended or
done.  A page module that fetches is left suspended at its `await`.
`renderWatchlist` awaits nothing, so the page (or the error panel of the `catch`
block, if it throws) is in place before any other event: the node
`watchlistPage` stands for what it leaves for the stored watchlist.  An inherited
property called as a function returns for `constructor` and `toString` and throws
a TypeError for the others. -/
def renderPage (apiKey : String) (net : Network) (handler : Handler) (a : App) : App :=
  let a := { a with rendered := a.rendered ++ [handler] }
  if a.appPresent then
    let a := { a with container := [] }
    match handler with
    | .renderHome =>
      let r := renderHome.start apiKey net a
      { r.1 with pending := r.1.pending ++ [{ handler := handler, outcomes := r.2 }] }
    | .renderMovies =>
      let r := renderMovies.start apiKey net a
      { r.1 with pending := r.1.pending ++ [{ handler := handler, outcomes := r.2 }] }
    | .renderSeries =>
      let r := renderSeries.start apiKey net a
      { r.1 with pending := r.1.pending ++ [{ handler := handler, outcomes := r.2 }] }
    | .renderWatchlist => { a with container := [.watchlistPage (getWatchlist a.store)] }
    | .inherited name =>
      if name = "constructor" ∨ name = "toString" then a
      else { a with container := [.errorPanel .typeError] }
  else a

/-- Translation of `navigateTo(path, addToHistory = true)`.  `fuel` bounds the depth
of the calls of `navigateTo` by itself; the result is `none` when it runs out.
The highlighting of the navigation link and the scroll to the top touch nothing
the model holds. -/
def navigateTo (apiKey : String) (net : Network) :
    Nat → String → Bool → App → Option App
  | 0, _, _, _ => none
  | fuel + 1, path, addToHistory, a =>
    let path := if path = "" then "/" else path
    match routes path with
    | none => navigateTo apiKey net fuel "/" true a
    | some handler =>
      some (renderPage apiKey net handler
        { a with currentRoute := path,
                 locationHash := if addToHistory then path else a.locationHash })

/-- The fetches of the suspended render number `k` settle, in the given order, and
the render runs to its end: the page module resumes, and `renderPage` replaces
the content of the container by the error panel if the module rejects.  The
result is `none` when there is no such render or a body is outside the model. -/
def settle (k : Nat) (order : List Nat) (a : App) : Option App :=
  match a.pending.get? k with
  | none => none
  | some p =>
    let a := { a with pending := a.pending.eraseIdx k }
    let resumed : Option (App × Except JsError Unit) :=
      match p.handler with
      | .renderHome => renderHome.resume order p.outcomes a
      | .renderMovies => renderMovies.resume order p.outcomes a
      | .renderSeries => renderSeries.resume order p.outcomes a
      | _ => none
    match resumed with
    | none => none
    | some (a, .ok _) => some a
    | some (a, .error e) => some { a with container := [.errorPanel e] }

/-- The events the model follows: a call of `navigateTo`, the settling of the
fetches of a suspended render, the firing of an interval timer. -/
inductive Event where
  | navigate (path : String) (addToHistory : Bool)
  | settle (k : Nat) (order : List Nat)
  | fire (interval : Nat)

/-- The state after one event. -/
def step (apiKey : String) (net : Network) (a : App) : Event → Option App
  | .navigate path addToHistory => navigateTo apiKey net 2 path addToHistory a
  | .settle k order => settle k order a
  | .fire interval => some (if a.intervals.contains interval then (nextSlide a).1 else a)

/-- The state after a sequence of events. -/
def run (apiKey : String) (net : Network) : App → List Event → Option App
  | a, [] => some a
  | a, e :: es =>
    match step apiKey net a e with
    | none => none
    | some a' => run apiKey net a' es

/-- The two calls of the round trip: `addToWatchlist(item)` and then
`removeFromWatchlist(item.id, item.media_type)`; the result is the final store. -/
def addThenRemove (st : Store) (item : Obj) (now : String) : Except JsError Store :=
  match addToWatchlist st item now with
  | .error e => .error e
  | .ok r =>
    match removeFromWatchlist r.2 (getField item "id") (getField item "media_type") with
    | .error e => .error e
    | .ok r' => .ok r'.2

/-- A call of one of the mutating watchlist operations. -/
inductive WatchlistCall where
  | add (item : Obj) (now : String)
  | remove (id mediaType : JsVal)
  | toggle (item : Obj) (now : String)
  | clear

/-- The store after one call. -/
def WatchlistCall.run (st : Store) : WatchlistCall → Except JsError Store
  | .add item now =>
    match addToWatchlist st item now with
    | .error e => .error e
    | .ok r => .ok r.2
  | .remove id mediaType =>
    match removeFromWatchlist st id mediaType with
    | .error e => .error e
    | .ok r => .ok r.2
  | .toggle item now =>
    match toggleWatchlist st item now with
    | .error e => .error e
    | .ok r => .ok r.2
  | .clear => .ok (clearWatchlist st).2

/-- The store after a sequence of calls, executed in order. -/
def runCalls (st : Store) : List WatchlistCall → Except JsError Store
  | [] => .ok st
  | c :: cs =>
    match c.run st with
    | .error e => .error e
    | .ok st' => runCalls st' cs

/-! ## Search panel -/

/-- A result element of the search panel.  It is determined by the item it was
built from; the markup itself is not part of the model. -/
structure SearchResult where
  item : CatalogItem

/-- Translation of `createSearchResultItem(item)`.  On a catalog item none of the
calls it makes (`getYear`, `formatRating`, `getImageUrl`, `truncate`) throws. -/
def createSearchResultItem (item : CatalogItem) : SearchResult := { item := item }

/-- What the element `searchResults` holds: one of the messages the code writes
as its `innerHTML`, or the result elements appended to it after it was emptied. -/
inductive PanelContent where
  | message (text : String)
  | results (elements : List SearchResult)

/-- The element `searchResults`: whether it carries the class `active`, and its
content. -/
structure SearchPanel where
  active : Bool
  content : PanelContent

/-- The test `item.media_type !== 'person'` of the filter of `handleSearch`,
negated. -/
def isPerson (item : CatalogItem) : Bool :=
  strictEq (getField item.1 "media_type") (some (.prim (.str "person")))

/-- Translation of `renderSearchResults(results)`; `panel` is the module variable
`searchResults` (`none` is `null`). -/
def renderSearchResults (results : List CatalogItem) (panel : Option SearchPanel) :
    Option SearchPanel :=
  match panel with
  | none => none
  | some p => some { p with content := .results (results.map createSearchResultItem) }

/-- The part of `handleSearch(query)` that runs before `await searchAPI(query, 1)`:
nothing happens without the panel; otherwise the panel shows the loading message
and the search is issued. -/
def handleSearch.start (apiKey : String) (net : Network) (query : String)
    (panel : Option SearchPanel) : Option SearchPanel × Option Fetched :=
  match panel with
  | none => (none, none)
  | some _ =>
    (some { active := true, content := .message "Searching..." },
     some (search apiKey net (some query) (some (.num 1))))

/-- The part of `handleSearch(query)` that runs once the search has settled, on the
panel as it is then.  A body outside the shape `listPayload` reads is outside the
model (`none`). -/
def handleSearch.resume (outcome : Except JsError Json) (panel : SearchPanel) :
    Option (Option SearchPanel) :=
  match outcome with
  | .error _ => some (some { panel with content := .message "Search failed. Please try again." })
  | .ok data =>
    match listPayload data with
    | none => none
    | some results =>
      if results.length = 0 then
        some (some { panel with content := .message "No results found" })
      else
        let filtered := (results.filter (fun item => !isPerson item)).take 8
        some (renderSearchResults filtered (some panel))

/-- Translation of `handleSearch(query)` from its call to the settling of its
promise, when nothing else touches the panel in between: the panel afterwards
and the requests sent. -/
def handleSearch (apiKey : String) (net : Network) (query : String)
    (panel : Option SearchPanel) : Option (Option SearchPanel × List Request) :=
  match handleSearch.start apiKey net query panel with
  | (some p, some fetched) =>
    match handleSearch.resume fetched.2 p with
    | none => none
    | some p' => some (p', fetched.1)
  | (p, _) => some (p, [])

/-! ## Utility functions: arrays -/

/-- Translation of `array.slice(start, end)` for indices that are non-negative
integers: the elements from position `start` up to, not including, position
`stop`.  The array itself is only read. -/
def slice {α : Type} (array : List α) (start stop : Nat) : List α :=
  (array.drop start).take (stop - start)

/-- The `for` loop of `chunk`, from the test `i < array.length` on; `chunks` is the
array built so far.  `fuel` bounds the number of times the test is made; the
result is `none` when it runs out.  The sum `i + size` is exact while it is
below 2^53, and an array has fewer than 2^32 elements: a sum that is not exact
is far beyond the length, where neither `slice` nor the test tells it from the
exact one. -/
def chunkLoop {α : Type} (array : List α) (size : Nat) :
    Nat → Nat → List (List α) → Option (List (List α))
  | 0, _, _ => none
  | fuel + 1, i, chunks =>
    if i < array.length then
      chunkLoop array size fuel (i + size) (chunks ++ [slice array i (i + size)])
    else some chunks

/-- Translation of `chunk(array, size)` for a size that is a non-negative integer.
The result is the array as it is after the call, and the array of chunks that is
returned. -/
def chunk {α : Type} (fuel : Nat) (array : List α) (size : Nat) :
    Option (List α × List (List α)) :=
  match chunkLoop array size fuel 0 [] with
  | none => none
  | some chunks => some (array, chunks)

/-! ## Utility functions: strings -/

/-- A JavaScript string as `length` and `substring` see it: the sequence of its
UTF-16 code units. -/
abbrev CodeUnits := List Nat

/-- The code units of a text: one per character of the Basic Multilingual Plane,
a surrogate pair for any other character. -/
def toCodeUnits (s : String) : CodeUnits :=
  s.data.flatMap (fun c =>
    if c.toNat < 0x10000 then [c.toNat]
    else [0xD800 + (c.toNat - 0x10000) / 0x400, 0xDC00 + (c.toNat - 0x10000) % 0x400])

/-- Whether a code unit is one that `String.prototype.trim` removes (they all lie
in the Basic Multilingual Plane; a surrogate is none of them). -/
def isWhiteSpaceUnit (u : Nat) : Bool := isJsWhiteSpace (Char.ofNat u)

/-- Translation of `String.prototype.trim` on code units. -/
def trimUnits (s : CodeUnits) : CodeUnits :=
  ((s.dropWhile isWhiteSpaceUnit).reverse.dropWhile isWhiteSpaceUnit).reverse

/-- Translation of `s.substring(start, end)` for indices that are non-negative
integers: the two are swapped when the first is the larger, and both are capped
by the length. -/
def substring (s : CodeUnits) (start stop : Nat) : CodeUnits :=
  (s.drop (min start stop)).take (max start stop - min start stop)

/-- Translation of `truncate(text, maxLength = 100, suffix = '...')` for a text that
is a string or missing (`none`, returned as it came), a maximal length that is a
non-negative integer and a suffix that is a string; an omitted argument is
`none` and takes its default. -/
def truncate (text : Option CodeUnits) (maxLength : Option Nat) (suffix : Option CodeUnits) :
    Option CodeUnits :=
  let maxLength := maxLength.getD 100
  let suffix := suffix.getD (toCodeUnits "...")
  match text with
  | none => none
  | some t =>
    if t = [] ∨ t.length ≤ maxLength then some t
    else some (trimUnits (substring t 0 maxLength) ++ suffix)

/-! ## Utility functions: unique -/

/-- A JavaScript value as a `Set` tells it from another: `undefined`, a primitive,
or an object, which is known by its identity only. -/
inductive Value where
  | undefined
  | prim (p : Prim)
  | object (identity : Nat)
deriving DecidableEq, Repr

/-- The comparison SameValueZero that `Set` uses: primitives by value, objects by
identity.  (NaN, which it equates with itself, is not among the values of the
model.) -/
def sameValueZero (a b : Value) : Bool := decide (a = b)

/-- Translation of `Set.prototype.has`; a set is the list of its elements in
insertion order. -/
def setHas (seen : List Value) (value : Value) : Bool := seen.any (sameValueZero value)

/-- Translation of `Set.prototype.add`: an element already present is not added
again. -/
def setAdd (seen : List Value) (value : Value) : List Value :=
  if setHas seen value then seen else seen ++ [value]

/-- Translation of `[...new Set(array)]`: the elements are added in order, and the
spread lists the set in insertion order. -/
def newSet (array : List Value) : List Value := array.foldl setAdd []

/-- The `array.filter(...)` of `unique` on the elements that remain, with the set
`seen` as it is when they are reached.  `read item name` is the property read
`item[key]`: what it gives depends on the objects the caller holds, and it throws
on `undefined` and `null`. -/
def uniqueFilter (read : Value → String → Except JsError Value) (name : String) :
    List Value → List Value → Except JsError (List Value)
  | _, [] => .ok []
  | seen, item :: rest =>
    match read item name with
    | .error e => .error e
    | .ok value =>
      if setHas seen value then uniqueFilter read name seen rest
      else
        match uniqueFilter read name (setAdd seen value) rest with
        | .error e => .error e
        | .ok kept => .ok (item :: kept)

/-- Translation of `unique(array, key = null)` for a key that is a primitive or
omitted (`none`).  The test `!key` sends every falsy key to the branch without
key; a truthy key is used as the property name `String(key)`. -/
def unique (read : Value → String → Except JsError Value) (array : List Value) (key : Arg) :
    Except JsError (List Value) :=
  if !truthy key then .ok (newSet array)
  else uniqueFilter read (jsToString key) [] array

/-! ## Utility functions: retry -/

/-- A Number as `sleep` receives it: a finite one, given as the rational it is,
one of the two infinities, or NaN. -/
inductive Duration where
  | finite (ms : ℚ)
  | infinity
  | negativeInfinity
  | notANumber
deriving DecidableEq

/-- Translation of `delay * Math.pow(2, i)` for a finite Number `delay` and an index
`i` that is a non-negative integer.  `Math.pow(2, i)` is the Number 2^i up to
i = 1023 and Infinity from i = 1024 on.  The product of a Number and a power of
two is exact while its magnitude stays below 2^1024 and is infinite from there
on; the product of 0 and Infinity is NaN. -/
def backoffDelay (delay : ℚ) (i : Nat) : Duration :=
  if i ≤ 1023 then
    if |delay| * 2 ^ i < 2 ^ 1024 then .finite (delay * 2 ^ i)
    else if 0 < delay then .infinity
    else .negativeInfinity
  else if delay = 0 then .notANumber
  else if 0 < delay then .infinity
  else .negativeInfinity

/-- What `retry` does that its caller can observe besides its result: a call of
`fn`, and a wait, which is the awaited call `sleep(ms)` with the number of
milliseconds it is given. -/
inductive RetryEvent where
  | call
  | sleep (ms : Duration)
deriving DecidableEq

/-- The `for` loop of `retry`, from the test `i < maxRetries` on.  `fn` is called
on the state of the world `s` and leaves a state and an outcome (the promise it
returns is awaited, so a rejection and an exception thrown at the call are both
the `error` case).  `maxRetries` and `delay` are finite Numbers, not necessarily
integers, given as the rationals they are; `maxRetries` is at most 2^53 (`retry`
sees to it), so that the index `i` and its successor are exact and the
comparison of `i` with `maxRetries - 1` comes out as it does for the exact
difference.  The result is the state
afterwards, the calls and waits made so far in order, and what the promise of
`retry` settles to: `ok none` is `undefined`, which the function returns when
the loop ends.  `fuel` bounds the number of times the test is made; the result
is `none` when it runs out. -/
def retryLoop {σ ε α : Type} (fn : σ → σ × Except ε α) (maxRetries delay : ℚ) :
    Nat → Nat → σ → List RetryEvent → Option (σ × List RetryEvent × Except ε (Option α))
  | 0, _, _, _ => none
  | fuel + 1, i, s, trace =>
    if (i : ℚ) < maxRetries then
      match fn s with
      | (s', .ok value) => some (s', trace ++ [.call], .ok (some value))
      | (s', .error error) =>
        if (i : ℚ) = maxRetries - 1 then some (s', trace ++ [.call], .error error)
        else
          retryLoop fn maxRetries delay fuel (i + 1) s'
            (trace ++ [.call, .sleep (backoffDelay delay i)])
    else some (s, trace, .ok none)

/-- Translation of `retry(fn, maxRetries = 3, delay = 1000)`; an omitted argument
is `none` and takes its default.  Above 2^53 an index that is a Number stops
growing (2^53 + 1 is not a Number) and `maxRetries - 1` need not be exact: a
`maxRetries` above 2^53 is outside the model, and the result is `none`. -/
def retry {σ ε α : Type} (fuel : Nat) (fn : σ → σ × Except ε α) (maxRetries delay : Option ℚ)
    (s : σ) : Option (σ × List RetryEvent × Except ε (Option α)) :=
  if maxRetries.getD 3 ≤ 2 ^ 53 then
    retryLoop fn (maxRetries.getD 3) (delay.getD 1000) fuel 0 s []
  else none

/-- The state after, and the outcome of, the call number `k` (counted from 0) when
`fn` is called again and again from the state `s`. -/
def nthCall {σ ε α : Type} (fn : σ → σ × Except ε α) : Nat → σ → σ × Except ε α
  | 0, s => fn s
  | k + 1, s => nthCall fn k (fn s).1

/-- The calls and waits of `retry` when `k` attempts fail and one more attempt
ends the loop: each failed attempt number `i` (counted from 0) is followed by
the wait `backoffDelay delay i`, and the last attempt by none. -/
def retryTrace (delay : ℚ) (k : Nat) : List RetryEvent :=
  (List.range k).flatMap (fun i => [.call, .sleep (backoffDelay delay i)]) ++ [.call]

/-- The calls and waits of exponential backoff with `k` failed attempts: each
failed attempt number `i` (counted from 0) is followed by a wait of
`delay * 2^i` milliseconds, and the attempt after the last wait is followed by
none. -/
def backoffTrace (delay : ℚ) (k : Nat) : List RetryEvent :=
  (List.range k).flatMap (fun i => [.call, .sleep (.finite (delay * 2 ^ i))]) ++ [.call]

/-- The number of calls of `fn` in a list of calls and waits. -/
def countCalls (trace : List RetryEvent) : Nat := trace.count .call

/-! ## Well-formed inputs -/

/-- A primitive JavaScript value: `undefined` or a JSON primitive. -/
def isPrimitive : JsVal → Bool
  | none => true
  | some (.prim _) => true
  | some _ => false

/-- A Media Item: its external identifier `id` and its kind `media_type` are
primitive values (a number and a string in catalog payloads, `undefined` when
the payload omits the property); the other properties are arbitrary. -/
def isMediaItem (item : Obj) : Bool :=
  isPrimitive (getField item "id") && isPrimitive (getField item "media_type")

/-- The pair a watchlist entry is identified by. -/
def entryKey (e : Obj) : JsVal × JsVal := (getField e "id", getField e "media_type")

/-- The store accepts every write. -/
def WritesSucceed (st : Store) : Prop := ∀ key t, st.accepts key t = true

/-- The store holds the watchlist `es` (a list of entry objects). -/
def HoldsWatchlist (st : Store) (es : List Obj) : Prop :=
  getWatchlist st = .arr (es.map .obj)

/-- Pure reading of the callback on an entry object. -/
def entryMatches (id mediaType : JsVal) (e : Obj) : Bool :=
  strictEq (getField e "id") id && strictEq (getField e "media_type") mediaType

/-- The store holds the search history `h` (a list of strings). -/
def HoldsHistory (st : Store) (h : List String) : Prop :=
  getSearchHistory st = .arr (h.map (fun q => .prim (.str q)))

/-- The watchlist read by the code is an array without a `null` element. -/
def ReadsEntries (st : Store) : Prop :=
  ∃ xs, getWatchlist st = .arr xs ∧ ∀ x ∈ xs, x ≠ .prim .null

/-- The state of a hero that rotates over the first five of `items` and shows
slide `c`: the module holds these items and this index, and the timer it holds
is active. -/
def HeroRotating (items : List CatalogItem) (b : App) (c : Nat) : Prop :=
  b.heroItems = items.take 5 ∧ b.currentIndex = some c ∧ c < (items.take 5).length ∧
  ∃ id, id ≠ 0 ∧ b.rotationTimer = some id ∧ id ∈ b.intervals

/-- A short description of a child of the container: which kind of node it is and
the title it carries. -/
def Node.label : Node → String
  | .pageHeader title => "header: " ++ title
  | .hero _ => "hero"
  | .movieRow row => "row: " ++ row.title
  | .apiKeyPanel => "api key panel"
  | .errorPanel _ => "error panel"
  | .watchlistPage _ => "watchlist page"

/-- No two entries carry the same (id, media_type) pair. -/
def DuplicateFree (es : List Obj) : Prop :=
  es.Pairwise (fun a b => entryKey a ≠ entryKey b)

/-- A call whose item argument, if any, is a Media Item. -/
def WatchlistCall.wellFormed : WatchlistCall → Bool
  | .add item _ => isMediaItem item
  | .toggle item _ => isMediaItem item
  | _ => true

/-- The invariant: the store holds a duplicate-free watchlist. -/
def UniqueWatchlist (st : Store) : Prop :=
  ∃ es, HoldsWatchlist st es ∧ DuplicateFree es

/-! ## Sample data -/

/-- A store with no key set, accepting every write. -/
def emptyStore : Store := { cells := fun _ => none, accepts := fun _ _ => true }

/-- A store with no key set whose every write fails (quota exhausted). -/
def fullStore : Store := { cells := fun _ => none, accepts := fun _ _ => false }

/-- A store accepting every write that holds the given JSON value as watchlist. -/
def storeWithWatchlist (v : Json) : Store :=
  { cells := fun k => if k = STORAGE_KEYS.WATCHLIST then some (.json v) else none,
    accepts := fun _ _ => true }

/-- The catalog item with identifier 550 and kind movie. -/
def sampleItem : Obj :=
  [("id", .prim (.num 550)), ("media_type", .prim (.str "movie")),
   ("title", .prim (.str "Fight Club"))]

def sampleNow : String := "2024-01-01T00:00:00.000Z"

/-- The sample item as a stored entry. -/
def sampleEntry : Obj :=
  [("id", .prim (.num 550)), ("media_type", .prim (.str "movie")),
   ("title", .prim (.str "Fight Club")), ("addedAt", .prim (.str "2023-12-31T00:00:00.000Z"))]

/-- A store accepting every write except that of an empty list. -/
def refusingStore : Store :=
  { cells := fun _ => none,
    accepts := fun _ t => match t with
      | .json (.arr []) => false
      | _ => true }

/-- A sample run: add twice, toggle twice, remove, clear, add. -/
def sampleCalls : List WatchlistCall :=
  [.add sampleItem sampleNow, .add sampleItem sampleNow, .toggle sampleItem sampleNow,
   .toggle sampleItem sampleNow, .remove (getField sampleItem "id") none, .clear,
   .add sampleItem sampleNow]

/-- A store accepting every write that holds the given JSON value as search history. -/
def storeWithHistory (v : Json) : Store :=
  { cells := fun k => if k = STORAGE_KEYS.SEARCH_HISTORY then some (.json v) else none,
    accepts := fun _ _ => true }

/-- A store accepting every write that holds the given text under every key. -/
def storeWithText (t : Text) : Store :=
  { cells := fun _ => some t, accepts := fun _ _ => true }

/-- A store accepting every write that holds the given JSON value as preferences. -/
def storeWithPreferences (v : Json) : Store :=
  { cells := fun k => if k = STORAGE_KEYS.PREFERENCES then some (.json v) else none,
    accepts := fun _ _ => true }

/-- Stored preferences that override the theme and add a key of their own. -/
def samplePreferences : Obj :=
  [("theme", .prim (.str "light")), ("volume", .prim (.num 7))]

/-- A network that answers every request with status 200 and an empty result list. -/
def sampleNetwork : Network :=
  fun _ => .ok { ok := true, status := 200, statusText := "OK",
                 json := .ok (.obj [("results", .arr [])]) }

/-- The outcome of a fetch that fails on the missing credential before any request. -/
def configurationFailure : Fetched := ([], .error (.error API_KEY_ERROR))

/-- A network that answers every request with status 404. -/
def notFoundNetwork : Network :=
  fun _ => .ok { ok := false, status := 404, statusText := "Not Found",
                 json := .ok (.obj [("status_code", .prim (.num 34))]) }

/-- The local time offset of a zone five hours behind UTC (New York in winter). -/
def fiveHoursBehind : Int → Int := fun _ => -18000000

/-- The local time offset of UTC itself. -/
def utcZone : Int → Int := fun _ => 0

/-- The sample item as a catalog item. -/
def sampleCatalogItem : CatalogItem := ⟨sampleItem, by decide⟩

/-- A second catalog item, a series. -/
def otherCatalogItem : CatalogItem :=
  ⟨[("id", .prim (.num 1399)), ("media_type", .prim (.str "tv")),
    ("name", .prim (.str "Game of Thrones")), ("vote_average", .prim (.real "8.4"))],
   by decide⟩

/-- The state of a freshly loaded document that has the element with id `app`. -/
def initialApp (st : Store) : App :=
  { store := st, currentRoute := "/", locationHash := "", appPresent := true,
    container := [], currentIndex := some 0, rotationTimer := none, heroItems := [],
    lastTimer := 0, intervals := [], pending := [], requests := [], rendered := [] }

/-- A network that answers every request with status 200 and a list of two items. -/
def catalogNetwork : Network :=
  fun _ => .ok { ok := true, status := 200, statusText := "OK",
                 json := .ok (.obj [("page", .prim (.num 1)),
                   ("results", .arr [.obj sampleItem, .obj otherCatalogItem.1])]) }


/-- A person entry of a multi-type search answer. -/
def samplePerson : CatalogItem :=
  ⟨[("id", .prim (.num 287)), ("media_type", .prim (.str "person")),
    ("name", .prim (.str "Brad Pitt"))], by decide⟩

/-- A network that answers every request with status 200 and a list that holds a
person between two catalog items. -/
def searchNetwork : Network :=
  fun _ => .ok { ok := true, status := 200, statusText := "OK",
                 json := .ok (.obj [("page", .prim (.num 1)),
                   ("results", .arr [.obj sampleItem, .obj samplePerson.1,
                     .obj otherCatalogItem.1])]) }

/-- The search panel before any search: hidden and empty. -/
def hiddenPanel : SearchPanel := { active := false, content := .results [] }

/-- Property reads on sample values: `undefined` and `null` throw, every object is
a pair whose first component, the property 0, is the number 1 and whose second
component, the property 1, is the identity of the object. -/
def pairRead : Value → String → Except JsError Value
  | .undefined, _ => .error .typeError
  | .prim .null, _ => .error .typeError
  | .object identity, name =>
    if name = "0" then .ok (.prim (.num 1))
    else if name = "1" then .ok (.prim (.num identity))
    else .ok .undefined
  | .prim _, _ => .ok .undefined

/-- The second component of a sample pair, as `pairRead` gives it. -/
def pairSecond : Value → Value
  | .object identity => .prim (.num identity)
  | _ => .undefined

/-- A function that fails at every call; the state counts its calls. -/
def alwaysFails : Nat → Nat × Except String Unit :=
  fun calls => (calls + 1, .error "unreachable")

/-- A function that fails at its first two calls and then succeeds; the state
counts its calls. -/
def succeedsThird : Nat → Nat × Except String String :=
  fun calls => (calls + 1, if calls < 2 then .error "unreachable" else .ok "done")

/-- The text of a built-in function as the V8 engine (Chrome, Node.js) prints it. -/
def v8NativeText (name : String) : String :=
  "function " ++ name ++ "() \x7b [native code] \x7d"
/-! # Theorems -/

/-! ## Basic facts -/

theorem strictEq_eq_true_iff {a b : JsVal} (hb : isPrimitive b = true) :
    strictEq a b = true ↔ a = b := by
  cases b with
  | none => cases a with
    | none => simp [strictEq]
    | some x => cases x <;> simp [strictEq]
  | some y =>
    cases y with
    | prim q =>
      cases a with
      | none => simp [strictEq]
      | some x => cases x <;> simp [strictEq]
    | arr _ => simp [isPrimitive] at hb
    | obj _ => simp [isPrimitive] at hb

theorem entryMatches_iff {item e : Obj} (h : isMediaItem item = true) :
    entryMatches (getField item "id") (getField item "media_type") e = true
      ↔ entryKey e = entryKey item := by
  simp only [isMediaItem, Bool.and_eq_true] at h
  simp [entryMatches, entryKey, strictEq_eq_true_iff h.1, strictEq_eq_true_iff h.2]

theorem sameEntry_obj (id mt : JsVal) (e : Obj) :
    sameEntry id mt (.obj e) = .ok (entryMatches id mt e) := by
  simp only [sameEntry, getProp, entryMatches]
  cases strictEq (getField e "id") id <;> simp

theorem otherEntry_obj (id mt : JsVal) (e : Obj) :
    otherEntry id mt (.obj e) = .ok (!entryMatches id mt e) := by
  simp [otherEntry, sameEntry_obj]

theorem arraySome_objs (id mt : JsVal) (es : List Obj) :
    arraySome (sameEntry id mt) (es.map .obj) = .ok (es.any (entryMatches id mt)) := by
  induction es with
  | nil => rfl
  | cons e es ih =>
    simp only [List.map_cons, arraySome, sameEntry_obj, List.any_cons]
    cases entryMatches id mt e <;> simp [ih]

theorem arrayFilter_objs (id mt : JsVal) (es : List Obj) :
    arrayFilter (otherEntry id mt) (es.map .obj)
      = .ok ((es.filter (fun e => !entryMatches id mt e)).map .obj) := by
  induction es with
  | nil => rfl
  | cons e es ih =>
    simp only [List.map_cons, arrayFilter, otherEntry_obj, ih, List.filter_cons]
    cases entryMatches id mt e <;> simp

theorem getField_map_ne (o : Obj) (key k : String) (v : Json) (h : k ≠ key) :
    getField (o.map (fun kv => if kv.1 = key then (key, v) else kv)) k = getField o k := by
  induction o with
  | nil => rfl
  | cons kv o ih =>
    obtain ⟨k1, v1⟩ := kv
    by_cases h1 : k1 = key
    · have hd : (if (k1, v1).1 = key then (key, v) else (k1, v1)) = (key, v) := by simp [h1]
      have hk : ¬ key = k := fun e => h e.symm
      have hk1 : ¬ k1 = k := fun e => h (e.symm.trans h1)
      rw [List.map_cons, hd, getField, getField, ih]
      simp [hk, hk1]
    · have hd : (if (k1, v1).1 = key then (key, v) else (k1, v1)) = (k1, v1) := by simp [h1]
      rw [List.map_cons, hd, getField, getField, ih]

theorem getField_append_ne (o : Obj) (key k : String) (v : Json) (h : k ≠ key) :
    getField (o ++ [(key, v)]) k = getField o k := by
  induction o with
  | nil => simp [getField, Ne.symm h]
  | cons kv o ih =>
    obtain ⟨k1, v1⟩ := kv
    rw [List.cons_append]
    simp only [getField]
    rw [ih]

theorem getField_setProp_ne (o : Obj) (key k : String) (v : Json) (h : k ≠ key) :
    getField (setProp o key v) k = getField o k := by
  unfold setProp
  split
  · exact getField_map_ne o key k v h
  · exact getField_append_ne o key k v h

theorem entryKey_setProp_addedAt (item : Obj) (v : Json) :
    entryKey (setProp item "addedAt" v) = entryKey item := by
  simp [entryKey, getField_setProp_ne]

theorem getWatchlist_saveJSON (st : Store) (v : Json)
    (h : st.accepts STORAGE_KEYS.WATCHLIST (.json v) = true) :
    saveJSON st STORAGE_KEYS.WATCHLIST v
      = (true, { st with cells := fun k =>
          if k = STORAGE_KEYS.WATCHLIST then some (.json v) else st.cells k }) := by
  simp [saveJSON, Store.setItem, h]

theorem saveJSON_rejected (st : Store) (key : String) (v : Json)
    (h : st.accepts key (.json v) = false) : saveJSON st key v = (false, st) := by
  simp [saveJSON, Store.setItem, h]

theorem holdsWatchlist_saveJSON (st : Store) (es : List Obj)
    (h : st.accepts STORAGE_KEYS.WATCHLIST (.json (.arr (es.map .obj))) = true) :
    (saveJSON st STORAGE_KEYS.WATCHLIST (.arr (es.map .obj))).1 = true ∧
    HoldsWatchlist (saveJSON st STORAGE_KEYS.WATCHLIST (.arr (es.map .obj))).2 es := by
  rw [getWatchlist_saveJSON st _ h]
  simp [HoldsWatchlist, getWatchlist, Store.getItem, parseJSON]

theorem saveJSON_accepts (st : Store) (key : String) (v : Json) :
    (saveJSON st key v).2.accepts = st.accepts := by
  by_cases h : st.accepts key (.json v) = true <;> simp [saveJSON, Store.setItem, h]

theorem isInWatchlist_eq {st : Store} {es : List Obj} (hst : HoldsWatchlist st es)
    (id mt : JsVal) : isInWatchlist st id mt = .ok (es.any (entryMatches id mt)) := by
  unfold isInWatchlist
  rw [hst]
  exact arraySome_objs id mt es

theorem removeFromWatchlist_eq {st : Store} {es : List Obj} (hst : HoldsWatchlist st es)
    (id mt : JsVal) :
    removeFromWatchlist st id mt = .ok (saveJSON st STORAGE_KEYS.WATCHLIST
      (.arr ((es.filter (fun e => !entryMatches id mt e)).map .obj))) := by
  unfold removeFromWatchlist
  rw [hst]
  simp only [arrayFilter_objs]

theorem addToWatchlist_eq {st : Store} {es : List Obj} (hst : HoldsWatchlist st es)
    (item : Obj) (now : String) :
    addToWatchlist st item now =
      if es.any (entryMatches (getField item "id") (getField item "media_type")) then
        .ok (false, st)
      else .ok (saveJSON st STORAGE_KEYS.WATCHLIST
        (.arr ((setProp item "addedAt" (.prim (.str now)) :: es).map .obj))) := by
  unfold addToWatchlist
  rw [hst]
  simp only [arraySome_objs]
  cases es.any (entryMatches (getField item "id") (getField item "media_type")) <;> simp

theorem any_entryMatches_iff {item : Obj} (h : isMediaItem item = true) (es : List Obj) :
    es.any (entryMatches (getField item "id") (getField item "media_type")) = true
      ↔ ∃ e ∈ es, entryKey e = entryKey item := by
  simp only [List.any_eq_true, entryMatches_iff h]

theorem any_filter_not (p : Obj → Bool) (es : List Obj) :
    (es.filter (fun e => !p e)).any p = false := by
  induction es with
  | nil => rfl
  | cons e es ih =>
    rw [List.filter_cons]
    cases hp : p e <;> simp [hp, ih]

/-! ## Watchlist: toggle -/

/-- C1: on a store that holds a watchlist and whose writes succeed, toggleWatchlist
of a media item returns false exactly when an entry with the pair
(item.id, item.media_type) was present and true exactly when it was absent, and
isInWatchlist for that pair, asked right after, returns the value that
toggleWatchlist returned (and returned the opposite value right before). -/
theorem toggleWatchlist_reports_membership (st : Store) (es : List Obj) (item : Obj)
    (now : String) (hst : HoldsWatchlist st es) (hw : WritesSucceed st)
    (hitem : isMediaItem item = true) :
    ∃ added st',
      toggleWatchlist st item now = .ok (added, st') ∧
      (added = false ↔ ∃ e ∈ es, entryKey e = entryKey item) ∧
      (added = true ↔ ¬ ∃ e ∈ es, entryKey e = entryKey item) ∧
      isInWatchlist st (getField item "id") (getField item "media_type") = .ok (!added) ∧
      isInWatchlist st' (getField item "id") (getField item "media_type") = .ok added := by
  have hpres := any_entryMatches_iff hitem es
  cases hany : es.any (entryMatches (getField item "id") (getField item "media_type")) with
  | true =>
    have hex : ∃ e ∈ es, entryKey e = entryKey item := hpres.mp hany
    have hacc := hw STORAGE_KEYS.WATCHLIST (.json (.arr ((es.filter (fun e =>
      !entryMatches (getField item "id") (getField item "media_type") e)).map .obj)))
    refine ⟨false, (saveJSON st STORAGE_KEYS.WATCHLIST (.arr ((es.filter (fun e =>
      !entryMatches (getField item "id") (getField item "media_type") e)).map .obj))).2,
      ?_, ?_, ?_, ?_, ?_⟩
    · simp only [toggleWatchlist, isInWatchlist_eq hst, hany, removeFromWatchlist_eq hst]
    · simp [hex]
    · simp [hex]
    · simp [isInWatchlist_eq hst, hany]
    · rw [isInWatchlist_eq (holdsWatchlist_saveJSON st _ hacc).2, any_filter_not]
  | false =>
    have hex : ¬ ∃ e ∈ es, entryKey e = entryKey item := by
      intro h
      rw [hpres.mpr h] at hany
      cases hany
    have hacc := hw STORAGE_KEYS.WATCHLIST (.json (.arr
      ((setProp item "addedAt" (.prim (.str now)) :: es).map .obj)))
    refine ⟨true, (saveJSON st STORAGE_KEYS.WATCHLIST (.arr
      ((setProp item "addedAt" (.prim (.str now)) :: es).map .obj))).2, ?_, ?_, ?_, ?_, ?_⟩
    · simp only [toggleWatchlist, isInWatchlist_eq hst, hany, addToWatchlist_eq hst]
      simp
    · simp [hex]
    · simp [hex]
    · simp [isInWatchlist_eq hst, hany]
    · rw [isInWatchlist_eq (holdsWatchlist_saveJSON st _ hacc).2]
      have hm : entryMatches (getField item "id") (getField item "media_type")
          (setProp item "addedAt" (.prim (.str now))) = true :=
        (entryMatches_iff hitem).mpr (entryKey_setProp_addedAt item _)
      simp [hm]

/-- Witness for C1: toggling the sample item on the empty store. -/
theorem toggleWatchlist_reports_membership_witness :
    ∃ added st',
      toggleWatchlist emptyStore sampleItem sampleNow = .ok (added, st') ∧
      (added = false ↔ ∃ e ∈ ([] : List Obj), entryKey e = entryKey sampleItem) ∧
      (added = true ↔ ¬ ∃ e ∈ ([] : List Obj), entryKey e = entryKey sampleItem) ∧
      isInWatchlist emptyStore (getField sampleItem "id") (getField sampleItem "media_type")
        = .ok (!added) ∧
      isInWatchlist st' (getField sampleItem "id") (getField sampleItem "media_type")
        = .ok added :=
  toggleWatchlist_reports_membership emptyStore [] sampleItem sampleNow rfl
    (fun _ _ => rfl) (by decide)

/-! ## Watchlist: add then remove -/

theorem filter_not_matches_of_absent {item : Obj} (hitem : isMediaItem item = true)
    (es : List Obj) (habs : ¬ ∃ e ∈ es, entryKey e = entryKey item) :
    es.filter (fun e => !entryMatches (getField item "id") (getField item "media_type") e)
      = es := by
  rw [List.filter_eq_self]
  intro e he
  cases hm : entryMatches (getField item "id") (getField item "media_type") e with
  | false => rfl
  | true => exact absurd ⟨e, he, (entryMatches_iff hitem).mp hm⟩ habs

/-- C2 (amended): when the stored watchlist has no entry with the item's
(id, media_type) pair and the writes of the store succeed, addToWatchlist(item)
followed by removeFromWatchlist(item.id, item.media_type) returns normally and
leaves getWatchlist() exactly as it was before the two calls. -/
theorem addThenRemove_restores (st : Store) (es : List Obj) (item : Obj) (now : String)
    (hst : HoldsWatchlist st es) (hw : WritesSucceed st) (hitem : isMediaItem item = true)
    (habs : ¬ ∃ e ∈ es, entryKey e = entryKey item) :
    ∃ st', addThenRemove st item now = .ok st' ∧ getWatchlist st' = getWatchlist st := by
  have hany : es.any (entryMatches (getField item "id") (getField item "media_type")) = false := by
    cases h : es.any (entryMatches (getField item "id") (getField item "media_type")) with
    | false => rfl
    | true => exact absurd ((any_entryMatches_iff hitem es).mp h) habs
  have hm : entryMatches (getField item "id") (getField item "media_type")
      (setProp item "addedAt" (.prim (.str now))) = true :=
    (entryMatches_iff hitem).mpr (entryKey_setProp_addedAt item _)
  have hacc1 := hw STORAGE_KEYS.WATCHLIST (.json (.arr
    ((setProp item "addedAt" (.prim (.str now)) :: es).map .obj)))
  have h1 := holdsWatchlist_saveJSON st _ hacc1
  have hfilter : (setProp item "addedAt" (.prim (.str now)) :: es).filter
      (fun e => !entryMatches (getField item "id") (getField item "media_type") e) = es := by
    rw [List.filter_cons]
    simp only [hm, Bool.not_true, Bool.false_eq_true, if_false]
    exact filter_not_matches_of_absent hitem es habs
  have hacc2 : (saveJSON st STORAGE_KEYS.WATCHLIST (.arr
      ((setProp item "addedAt" (.prim (.str now)) :: es).map .obj))).2.accepts
      STORAGE_KEYS.WATCHLIST (.json (.arr (es.map .obj))) = true := by
    rw [saveJSON_accepts]
    exact hw _ _
  have h2 := holdsWatchlist_saveJSON _ es hacc2
  refine ⟨(saveJSON (saveJSON st STORAGE_KEYS.WATCHLIST (.arr
      ((setProp item "addedAt" (.prim (.str now)) :: es).map .obj))).2
      STORAGE_KEYS.WATCHLIST (.arr (es.map .obj))).2, ?_, ?_⟩
  · simp only [addThenRemove, addToWatchlist_eq hst, hany, Bool.false_eq_true, if_false,
      removeFromWatchlist_eq h1.2, hfilter]
  · rw [h2.2, hst]

/-- Witness for C2 (amended): the sample item on the empty store. -/
theorem addThenRemove_restores_witness :
    ∃ st', addThenRemove emptyStore sampleItem sampleNow = .ok st' ∧
      getWatchlist st' = getWatchlist emptyStore :=
  addThenRemove_restores emptyStore [] sampleItem sampleNow rfl (fun _ _ => rfl)
    (by decide) (by simp)

/-- C2 as stated fails.  First input: the watchlist already holds an entry with the
item's pair; addToWatchlist changes nothing, removeFromWatchlist deletes the entry,
and the watchlist that held one entry ends up empty.  Second input: the item is
absent but the store refuses the second write; the added entry stays. -/
theorem addThenRemove_counterexample :
    (getWatchlist (storeWithWatchlist (.arr [.obj sampleEntry])) = .arr [.obj sampleEntry] ∧
      ∃ st', addThenRemove (storeWithWatchlist (.arr [.obj sampleEntry])) sampleItem sampleNow
          = .ok st' ∧
        getWatchlist st' = .arr [] ∧
        getWatchlist st' ≠ getWatchlist (storeWithWatchlist (.arr [.obj sampleEntry]))) ∧
    (getWatchlist refusingStore = .arr [] ∧
      ∃ st', addThenRemove refusingStore sampleItem sampleNow = .ok st' ∧
        getWatchlist st'
          = .arr [.obj (setProp sampleItem "addedAt" (.prim (.str sampleNow)))] ∧
        getWatchlist st' ≠ getWatchlist refusingStore) := by
  refine ⟨⟨rfl, _, rfl, rfl, ?_⟩, ⟨rfl, _, rfl, rfl, ?_⟩⟩
  · intro h
    have h' : Json.arr [] = Json.arr [.obj sampleEntry] := h
    simp at h'
  · intro h
    have h' : Json.arr [.obj (setProp sampleItem "addedAt" (.prim (.str sampleNow)))]
        = Json.arr [] := h
    simp at h'

/-! ## Watchlist: uniqueness invariant -/

theorem saveJSON_unchanged_or_holds (st : Store) (es : List Obj) :
    (saveJSON st STORAGE_KEYS.WATCHLIST (.arr (es.map .obj))).2 = st ∨
    HoldsWatchlist (saveJSON st STORAGE_KEYS.WATCHLIST (.arr (es.map .obj))).2 es := by
  cases h : st.accepts STORAGE_KEYS.WATCHLIST (.json (.arr (es.map .obj))) with
  | false => left; rw [saveJSON_rejected st _ _ h]
  | true => right; exact (holdsWatchlist_saveJSON st es h).2

theorem uniqueWatchlist_saveJSON {st : Store} (hinv : UniqueWatchlist st) (es : List Obj)
    (hdf : DuplicateFree es) :
    UniqueWatchlist (saveJSON st STORAGE_KEYS.WATCHLIST (.arr (es.map .obj))).2 := by
  rcases saveJSON_unchanged_or_holds st es with h | h
  · rw [h]; exact hinv
  · exact ⟨es, h, hdf⟩

theorem addToWatchlist_unique {st : Store} (hinv : UniqueWatchlist st) {item : Obj}
    (hitem : isMediaItem item = true) (now : String) :
    ∃ r, addToWatchlist st item now = .ok r ∧ UniqueWatchlist r.2 := by
  obtain ⟨es, hst, hdf⟩ := hinv
  rw [addToWatchlist_eq hst]
  cases hany : es.any (entryMatches (getField item "id") (getField item "media_type")) with
  | true => exact ⟨(false, st), by simp, es, hst, hdf⟩
  | false =>
    refine ⟨_, by simp; rfl, ?_⟩
    apply uniqueWatchlist_saveJSON ⟨es, hst, hdf⟩
      (setProp item "addedAt" (.prim (.str now)) :: es)
    refine List.Pairwise.cons ?_ hdf
    intro e he heq
    have hex : ∃ e ∈ es, entryKey e = entryKey item :=
      ⟨e, he, by rw [← heq, entryKey_setProp_addedAt]⟩
    rw [(any_entryMatches_iff hitem es).mpr hex] at hany
    cases hany

theorem removeFromWatchlist_unique {st : Store} (hinv : UniqueWatchlist st)
    (id mt : JsVal) :
    ∃ r, removeFromWatchlist st id mt = .ok r ∧ UniqueWatchlist r.2 := by
  obtain ⟨es, hst, hdf⟩ := hinv
  rw [removeFromWatchlist_eq hst]
  refine ⟨_, rfl, ?_⟩
  apply uniqueWatchlist_saveJSON ⟨es, hst, hdf⟩
    (es.filter (fun e => !entryMatches id mt e))
  exact List.Pairwise.sublist (List.filter_sublist es) hdf

theorem toggleWatchlist_unique {st : Store} (hinv : UniqueWatchlist st) {item : Obj}
    (hitem : isMediaItem item = true) (now : String) :
    ∃ r, toggleWatchlist st item now = .ok r ∧ UniqueWatchlist r.2 := by
  obtain ⟨es, hst, hdf⟩ := hinv
  unfold toggleWatchlist
  rw [isInWatchlist_eq hst]
  cases es.any (entryMatches (getField item "id") (getField item "media_type")) with
  | true =>
    obtain ⟨r, hr, hu⟩ := removeFromWatchlist_unique ⟨es, hst, hdf⟩
      (getField item "id") (getField item "media_type")
    exact ⟨(false, r.2), by simp [hr], hu⟩
  | false =>
    obtain ⟨r, hr, hu⟩ := addToWatchlist_unique ⟨es, hst, hdf⟩ hitem now
    exact ⟨(true, r.2), by simp [hr], hu⟩

theorem clearWatchlist_unique {st : Store} (hinv : UniqueWatchlist st) :
    UniqueWatchlist (clearWatchlist st).2 :=
  uniqueWatchlist_saveJSON hinv [] List.Pairwise.nil

theorem run_unique {st : Store} (hinv : UniqueWatchlist st) (c : WatchlistCall)
    (hc : c.wellFormed = true) : ∃ st', c.run st = .ok st' ∧ UniqueWatchlist st' := by
  cases c with
  | add item now =>
    obtain ⟨r, hr, hu⟩ := addToWatchlist_unique hinv hc now
    exact ⟨r.2, by simp [WatchlistCall.run, hr], hu⟩
  | remove id mt =>
    obtain ⟨r, hr, hu⟩ := removeFromWatchlist_unique hinv id mt
    exact ⟨r.2, by simp [WatchlistCall.run, hr], hu⟩
  | toggle item now =>
    obtain ⟨r, hr, hu⟩ := toggleWatchlist_unique hinv hc now
    exact ⟨r.2, by simp [WatchlistCall.run, hr], hu⟩
  | clear => exact ⟨_, rfl, clearWatchlist_unique hinv⟩

theorem runCalls_unique (calls : List WatchlistCall) :
    ∀ {st : Store}, UniqueWatchlist st → (∀ c ∈ calls, c.wellFormed = true) →
      ∃ st', runCalls st calls = .ok st' ∧ UniqueWatchlist st' := by
  induction calls with
  | nil => intro st hinv _; exact ⟨st, rfl, hinv⟩
  | cons c cs ih =>
    intro st hinv hwf
    obtain ⟨st1, h1, hu1⟩ := run_unique hinv c (hwf c (List.mem_cons_self c cs))
    obtain ⟨st2, h2, hu2⟩ := ih hu1 (fun d hd => hwf d (List.mem_cons_of_mem c hd))
    exact ⟨st2, by simp [runCalls, h1, h2], hu2⟩

/-- C3: starting from a store that holds a duplicate-free watchlist (the empty one
included), every finite sequence of addToWatchlist, removeFromWatchlist,
toggleWatchlist and clearWatchlist calls on media items runs to completion, and
afterwards getWatchlist() is a list of entries no two of which have the same
(id, media_type) pair; this holds whether or not the individual writes succeed. -/
theorem watchlist_stays_duplicateFree (st : Store) (es : List Obj)
    (calls : List WatchlistCall) (hst : HoldsWatchlist st es) (hdf : DuplicateFree es)
    (hwf : ∀ c ∈ calls, c.wellFormed = true) :
    ∃ (st' : Store) (es' : List Obj), runCalls st calls = .ok st' ∧
      getWatchlist st' = .arr (es'.map .obj) ∧
      es'.Pairwise (fun a b => entryKey a ≠ entryKey b) := by
  obtain ⟨st', hrun, es', hst', hdf'⟩ := runCalls_unique calls ⟨es, hst, hdf⟩ hwf
  exact ⟨st', es', hrun, hst', hdf'⟩

/-- Witness for C3: a run from the empty store that adds the sample item twice,
toggles it, removes it and clears the list. -/
theorem watchlist_stays_duplicateFree_witness :
    ∃ (st' : Store) (es' : List Obj),
      runCalls emptyStore sampleCalls = .ok st' ∧
      getWatchlist st' = .arr (es'.map .obj) ∧
      es'.Pairwise (fun a b => entryKey a ≠ entryKey b) :=
  watchlist_stays_duplicateFree emptyStore [] sampleCalls rfl List.Pairwise.nil (by decide)

/-! ## Search history -/

theorem arrayFilter_strings (toLowerCase : String → String) (query : String)
    (h : List String) :
    arrayFilter (differsFromQuery toLowerCase query) (h.map (fun q => .prim (.str q)))
      = .ok ((h.filter (fun e => toLowerCase e != toLowerCase query)).map
          (fun q => .prim (.str q))) := by
  induction h with
  | nil => rfl
  | cons e h ih =>
    simp only [List.map_cons, arrayFilter, differsFromQuery, ih, List.filter_cons]
    cases (toLowerCase e != toLowerCase query) <;> simp

theorem getSearchHistory_saveJSON (st : Store) (v : Json)
    (h : st.accepts STORAGE_KEYS.SEARCH_HISTORY (.json v) = true) :
    getSearchHistory (saveJSON st STORAGE_KEYS.SEARCH_HISTORY v).2 = v := by
  simp [saveJSON, Store.setItem, h, getSearchHistory, Store.getItem, parseJSON]

theorem jsTrim_ne_empty {q : String} (h : jsTrim q ≠ "") :
    (q = "" || (jsTrim q).length == 0) = false := by
  have h1 : q ≠ "" := by
    intro hq
    apply h
    rw [hq]
    decide
  have h2 : (jsTrim q).length ≠ 0 := by
    intro hl
    apply h
    cases hs : jsTrim q with
    | mk cs =>
      rw [hs] at hl
      cases cs with
      | nil => rfl
      | cons c cs => simp [String.length] at hl
  simp [h1, h2]

theorem jsTrim_eq_empty {q : String} (h : jsTrim q = "") :
    (q = "" || (jsTrim q).length == 0) = true := by
  simp [h]

theorem addToSearchHistory_eq (toLowerCase : String → String) {st : Store} {h : List String}
    (hst : HoldsHistory st h) {q : String} (hq : jsTrim q ≠ "") :
    addToSearchHistory toLowerCase st (some q)
      = .ok (saveJSON st STORAGE_KEYS.SEARCH_HISTORY (.arr
          (((jsTrim q :: h.filter (fun e => toLowerCase e != toLowerCase q)).take
            MAX_SEARCH_HISTORY).map (fun q => .prim (.str q))))).2 := by
  unfold addToSearchHistory
  simp only [jsTrim_ne_empty hq, Bool.false_eq_true, if_false]
  rw [hst]
  simp only [arrayFilter_strings, List.map_take, List.map_cons]

/-- C5 (amended): on a store that holds the history h and whose writes succeed,
addToSearchHistory(q) for a query q that is not blank leaves as getSearchHistory()
the first 10 elements of the list whose head is q trimmed and whose tail is the
entries of h that differ from q when both are lower-cased, in their previous
order; for a blank query and for a missing query the store is left untouched. -/
theorem addToSearchHistory_most_recent_first (toLowerCase : String → String) (st : Store)
    (h : List String) (q : String) (hst : HoldsHistory st h) (hw : WritesSucceed st) :
    (jsTrim q ≠ "" →
      ∃ st', addToSearchHistory toLowerCase st (some q) = .ok st' ∧
        getSearchHistory st' = .arr
          (((jsTrim q :: h.filter (fun e => toLowerCase e ≠ toLowerCase q)).take 10).map
            (fun e => .prim (.str e)))) ∧
    (jsTrim q = "" → addToSearchHistory toLowerCase st (some q) = .ok st) ∧
    addToSearchHistory toLowerCase st none = .ok st := by
  refine ⟨fun hq => ?_, fun hq => ?_, rfl⟩
  · refine ⟨_, addToSearchHistory_eq toLowerCase hst hq, ?_⟩
    rw [getSearchHistory_saveJSON st _ (hw _ _)]
    have hf : h.filter (fun e => toLowerCase e != toLowerCase q)
        = h.filter (fun e => decide (toLowerCase e ≠ toLowerCase q)) := by
      congr 1
      funext e
      by_cases he : toLowerCase e = toLowerCase q <;> simp [he]
    rw [hf]
    rfl
  · unfold addToSearchHistory
    simp [jsTrim_eq_empty hq]

/-- Witness for C5 (amended): the query Dune on a history that already holds it in
lower case; the old entry is dropped and the query comes first. -/
theorem addToSearchHistory_most_recent_first_witness :
    ∃ st', addToSearchHistory toLowerCaseAscii
        (storeWithHistory (.arr [.prim (.str "alien"), .prim (.str "dune")]))
        (some "Dune") = .ok st' ∧
      getSearchHistory st' = .arr
        (((jsTrim "Dune" :: ["alien", "dune"].filter
            (fun e => toLowerCaseAscii e ≠ toLowerCaseAscii "Dune")).take 10).map
          (fun e => .prim (.str e))) :=
  (addToSearchHistory_most_recent_first toLowerCaseAscii
    (storeWithHistory (.arr [.prim (.str "alien"), .prim (.str "dune")]))
    ["alien", "dune"] "Dune" rfl (fun _ _ => rfl)).1 (by decide)

/-- C5 as stated fails on a store that refuses writes: addToSearchHistory catches
the failed write and the history stays empty instead of holding the query. -/
theorem addToSearchHistory_counterexample :
    getSearchHistory fullStore = .arr [] ∧
    jsTrim "dune" ≠ "" ∧
    ∃ st', addToSearchHistory toLowerCaseAscii fullStore (some "dune") = .ok st' ∧
      getSearchHistory st' = .arr [] ∧
      getSearchHistory st' ≠ .arr
        (((jsTrim "dune" :: ([] : List String).filter
            (fun e => toLowerCaseAscii e ≠ toLowerCaseAscii "dune")).take 10).map
          (fun e => .prim (.str e))) := by
  refine ⟨rfl, by decide, _, rfl, rfl, ?_⟩
  intro h
  have h' : Json.arr [] = Json.arr [.prim (.str (jsTrim "dune"))] := h
  simp at h'

/-- The part of C4 that holds: after any sequence of addToSearchHistory calls from a
store that holds a history of at most 10 strings, getSearchHistory() is a list
of at most 10 strings. -/
theorem searchHistory_capped (toLowerCase : String → String) (queries : List (Option String)) :
    ∀ (st : Store) (h : List String), HoldsHistory st h → h.length ≤ MAX_SEARCH_HISTORY →
      ∃ st' h', addAllToSearchHistory toLowerCase st queries = .ok st' ∧
        HoldsHistory st' h' ∧ h'.length ≤ MAX_SEARCH_HISTORY := by
  induction queries with
  | nil => intro st h hst hl; exact ⟨st, h, rfl, hst, hl⟩
  | cons q qs ih =>
    intro st h hst hl
    have step : ∃ st1 h1, addToSearchHistory toLowerCase st q = .ok st1 ∧
        HoldsHistory st1 h1 ∧ h1.length ≤ MAX_SEARCH_HISTORY := by
      cases q with
      | none => exact ⟨st, h, rfl, hst, hl⟩
      | some q =>
        by_cases hq : jsTrim q = ""
        · exact ⟨st, h, by unfold addToSearchHistory; simp [jsTrim_eq_empty hq], hst, hl⟩
        · rw [addToSearchHistory_eq toLowerCase hst hq]
          cases hacc : st.accepts STORAGE_KEYS.SEARCH_HISTORY (.json (.arr
              (((jsTrim q :: h.filter (fun e => toLowerCase e != toLowerCase q)).take
                MAX_SEARCH_HISTORY).map (fun q => .prim (.str q))))) with
          | false =>
            rw [saveJSON_rejected st _ _ hacc]
            exact ⟨st, h, rfl, hst, hl⟩
          | true =>
            exact ⟨_, (jsTrim q :: h.filter (fun e => toLowerCase e != toLowerCase q)).take
              MAX_SEARCH_HISTORY, rfl, getSearchHistory_saveJSON st _ hacc,
              List.length_take_le _ _⟩
    obtain ⟨st1, h1, hs1, hh1, hl1⟩ := step
    obtain ⟨st2, h2, hs2, hh2, hl2⟩ := ih st1 h1 hh1 hl1
    exact ⟨st2, h2, by simp [addAllToSearchHistory, hs1, hs2], hh2, hl2⟩

/-- C4, evaluated at the failing input: from the empty history, adding the query abc
and then the same query with a leading blank leaves two equal entries, because
the stored entry is compared with the untrimmed query while the trimmed query is
what gets stored. -/
theorem searchHistory_duplicate_after_padded_query :
    getSearchHistory emptyStore = .arr [] ∧
    ∃ st', addAllToSearchHistory toLowerCaseAscii emptyStore [some "abc", some " abc"]
        = .ok st' ∧
      getSearchHistory st' = .arr [.prim (.str "abc"), .prim (.str "abc")] :=
  ⟨rfl, _, rfl, rfl⟩

/-! ## Reads of unparseable text -/

/-- C6: when the text stored under a key is not valid JSON (it makes JSON.parse
throw, or it is the empty string), getWatchlist() and getSearchHistory() return
the empty list and getPreferences() returns exactly the default preferences
(theme dark, autoplay true, quality auto, language en); the three reads are
total functions, so none of them raises. -/
theorem reads_default_on_invalid_json (st : Store) :
    (st.getItem STORAGE_KEYS.WATCHLIST = some .malformed ∨
        st.getItem STORAGE_KEYS.WATCHLIST = some .empty → getWatchlist st = .arr []) ∧
    (st.getItem STORAGE_KEYS.SEARCH_HISTORY = some .malformed ∨
        st.getItem STORAGE_KEYS.SEARCH_HISTORY = some .empty → getSearchHistory st = .arr []) ∧
    (st.getItem STORAGE_KEYS.PREFERENCES = some .malformed ∨
        st.getItem STORAGE_KEYS.PREFERENCES = some .empty →
      getPreferences st = DEFAULT_PREFERENCES ∧
      getPreferences st =
        [("theme", .prim (.str "dark")), ("autoplay", .prim (.bool true)),
         ("quality", .prim (.str "auto")), ("language", .prim (.str "en"))]) := by
  refine ⟨?_, ?_, ?_⟩
  · rintro (h | h) <;> simp [getWatchlist, h, parseJSON]
  · rintro (h | h) <;> simp [getSearchHistory, h, parseJSON]
  · rintro (h | h)
    · have hp : getPreferences st = DEFAULT_PREFERENCES := by
        simp only [getPreferences, h, parseJSON]
        rfl
      exact ⟨hp, hp⟩
    · have hp : getPreferences st = DEFAULT_PREFERENCES := by
        simp only [getPreferences, h, parseJSON]
        rfl
      exact ⟨hp, hp⟩

/-- Witness for C6: a store whose every key holds unparseable text. -/
theorem reads_default_on_invalid_json_witness :
    getWatchlist (storeWithText .malformed) = .arr [] ∧
    getSearchHistory (storeWithText .malformed) = .arr [] ∧
    getPreferences (storeWithText .malformed) = DEFAULT_PREFERENCES :=
  ⟨(reads_default_on_invalid_json (storeWithText .malformed)).1 (Or.inl rfl),
   (reads_default_on_invalid_json (storeWithText .malformed)).2.1 (Or.inl rfl),
   ((reads_default_on_invalid_json (storeWithText .malformed)).2.2 (Or.inl rfl)).1⟩

/-! ## Watchlist operations on arbitrary stored text -/

theorem sameEntry_ok_aux (a c id mt : JsVal) :
    ∃ b, (if strictEq a id = true then (Except.ok (strictEq c mt) : Except JsError Bool)
      else .ok false) = .ok b := by
  by_cases h : strictEq a id = true <;> simp [h]

theorem sameEntry_ok_of_ne_null (id mt : JsVal) {x : Json} (hx : x ≠ .prim .null) :
    ∃ b, sameEntry id mt x = .ok b := by
  cases x with
  | prim p =>
    cases p with
    | null => exact absurd rfl hx
    | bool b => exact sameEntry_ok_aux none none id mt
    | num n => exact sameEntry_ok_aux none none id mt
    | real x => exact sameEntry_ok_aux none none id mt
    | str s => exact sameEntry_ok_aux none none id mt
  | arr xs => exact sameEntry_ok_aux none none id mt
  | obj fields =>
    exact sameEntry_ok_aux (getField fields "id") (getField fields "media_type") id mt

theorem arraySome_ok (id mt : JsVal) (xs : List Json) (hxs : ∀ x ∈ xs, x ≠ .prim .null) :
    ∃ b, arraySome (sameEntry id mt) xs = .ok b := by
  induction xs with
  | nil => exact ⟨false, rfl⟩
  | cons x xs ih =>
    obtain ⟨b, hb⟩ := sameEntry_ok_of_ne_null id mt (hxs x (List.mem_cons_self x xs))
    obtain ⟨c, hc⟩ := ih (fun y hy => hxs y (List.mem_cons_of_mem x hy))
    cases b with
    | true => exact ⟨true, by simp [arraySome, hb]⟩
    | false => exact ⟨c, by simp [arraySome, hb, hc]⟩

theorem arrayFilter_ok (id mt : JsVal) (xs : List Json) (hxs : ∀ x ∈ xs, x ≠ .prim .null) :
    ∃ ys, arrayFilter (otherEntry id mt) xs = .ok ys ∧ ∀ y ∈ ys, y ≠ .prim .null := by
  induction xs with
  | nil => exact ⟨[], rfl, by simp⟩
  | cons x xs ih =>
    obtain ⟨b, hb⟩ := sameEntry_ok_of_ne_null id mt (hxs x (List.mem_cons_self x xs))
    obtain ⟨ys, hys, hn⟩ := ih (fun y hy => hxs y (List.mem_cons_of_mem x hy))
    refine ⟨if (!b) = true then x :: ys else ys, by simp [arrayFilter, otherEntry, hb, hys], ?_⟩
    intro y hy
    cases b with
    | true => exact hn y (by simpa using hy)
    | false =>
      have hy' : y = x ∨ y ∈ ys := by simpa using hy
      rcases hy' with h | h
      · rw [h]; exact hxs x (List.mem_cons_self x xs)
      · exact hn y h

theorem readsEntries_of_text {st : Store}
    (h : st.getItem STORAGE_KEYS.WATCHLIST = none ∨
      st.getItem STORAGE_KEYS.WATCHLIST = some .empty ∨
      st.getItem STORAGE_KEYS.WATCHLIST = some .malformed ∨
      ∃ xs, st.getItem STORAGE_KEYS.WATCHLIST = some (.json (.arr xs)) ∧
        ∀ x ∈ xs, x ≠ .prim .null) : ReadsEntries st := by
  rcases h with h | h | h | ⟨xs, h, hxs⟩
  · exact ⟨[], by simp [getWatchlist, h, parseJSON], by simp⟩
  · exact ⟨[], by simp [getWatchlist, h, parseJSON], by simp⟩
  · exact ⟨[], by simp [getWatchlist, h, parseJSON], by simp⟩
  · exact ⟨xs, by simp [getWatchlist, h, parseJSON], hxs⟩

theorem isInWatchlist_ok {st : Store} (h : ReadsEntries st) (id mt : JsVal) :
    ∃ b, isInWatchlist st id mt = .ok b := by
  obtain ⟨xs, hxs, hn⟩ := h
  unfold isInWatchlist
  rw [hxs]
  exact arraySome_ok id mt xs hn

theorem addToWatchlist_ok {st : Store} (h : ReadsEntries st) (item : Obj) (now : String) :
    ∃ r, addToWatchlist st item now = .ok r := by
  obtain ⟨xs, hxs, hn⟩ := h
  unfold addToWatchlist
  rw [hxs]
  obtain ⟨b, hb⟩ := arraySome_ok (getField item "id") (getField item "media_type") xs hn
  cases b with
  | true => exact ⟨(false, st), by simp [hb]⟩
  | false =>
    exact ⟨saveJSON st STORAGE_KEYS.WATCHLIST
      (.arr (.obj (setProp item "addedAt" (.prim (.str now))) :: xs)), by simp only [hb]⟩

theorem removeFromWatchlist_ok {st : Store} (h : ReadsEntries st) (id mt : JsVal) :
    ∃ r, removeFromWatchlist st id mt = .ok r := by
  obtain ⟨xs, hxs, hn⟩ := h
  unfold removeFromWatchlist
  rw [hxs]
  obtain ⟨ys, hys, _⟩ := arrayFilter_ok id mt xs hn
  exact ⟨saveJSON st STORAGE_KEYS.WATCHLIST (.arr ys), by simp only [hys]⟩

theorem toggleWatchlist_ok {st : Store} (h : ReadsEntries st) (item : Obj) (now : String) :
    ∃ r, toggleWatchlist st item now = .ok r := by
  obtain ⟨b, hb⟩ := isInWatchlist_ok h (getField item "id") (getField item "media_type")
  unfold toggleWatchlist
  rw [hb]
  cases b with
  | true =>
    obtain ⟨r, hr⟩ := removeFromWatchlist_ok h (getField item "id") (getField item "media_type")
    exact ⟨(false, r.2), by simp [hr]⟩
  | false =>
    obtain ⟨r, hr⟩ := addToWatchlist_ok h item now
    exact ⟨(true, r.2), by simp [hr]⟩

/-- C7 (amended): when the watchlist key is absent, or its text is empty or not
valid JSON, or its text is a JSON array none of whose elements is null, then
getWatchlist returns a list and getWatchlistCount, isInWatchlist, addToWatchlist,
removeFromWatchlist and toggleWatchlist (for every argument object and pair)
complete without raising; getWatchlistCount returns the length of that list. -/
theorem watchlist_operations_complete (st : Store) (item : Obj) (now : String)
    (id mediaType : JsVal)
    (h : st.getItem STORAGE_KEYS.WATCHLIST = none ∨
      st.getItem STORAGE_KEYS.WATCHLIST = some .empty ∨
      st.getItem STORAGE_KEYS.WATCHLIST = some .malformed ∨
      ∃ xs, st.getItem STORAGE_KEYS.WATCHLIST = some (.json (.arr xs)) ∧
        ∀ x ∈ xs, x ≠ .prim .null) :
    (∃ xs, getWatchlist st = .arr xs ∧
      getWatchlistCount st = .ok (some (.prim (.num xs.length)))) ∧
    (∃ b, isInWatchlist st id mediaType = .ok b) ∧
    (∃ r, addToWatchlist st item now = .ok r) ∧
    (∃ r, removeFromWatchlist st id mediaType = .ok r) ∧
    (∃ r, toggleWatchlist st item now = .ok r) := by
  have hr := readsEntries_of_text h
  refine ⟨?_, isInWatchlist_ok hr id mediaType, addToWatchlist_ok hr item now,
    removeFromWatchlist_ok hr id mediaType, toggleWatchlist_ok hr item now⟩
  obtain ⟨xs, hxs, _⟩ := hr
  exact ⟨xs, hxs, by simp [getWatchlistCount, hxs]⟩

/-- Witness for C7 (amended): a store whose watchlist text is not valid JSON. -/
theorem watchlist_operations_complete_witness :
    (∃ xs, getWatchlist (storeWithText .malformed) = .arr xs ∧
      getWatchlistCount (storeWithText .malformed) = .ok (some (.prim (.num xs.length)))) ∧
    (∃ b, isInWatchlist (storeWithText .malformed) none none = .ok b) ∧
    (∃ r, addToWatchlist (storeWithText .malformed) sampleItem sampleNow = .ok r) ∧
    (∃ r, removeFromWatchlist (storeWithText .malformed) none none = .ok r) ∧
    (∃ r, toggleWatchlist (storeWithText .malformed) sampleItem sampleNow = .ok r) :=
  watchlist_operations_complete (storeWithText .malformed) sampleItem sampleNow none none
    (Or.inr (Or.inr (Or.inl rfl)))

/-- C7 as stated fails on valid JSON that is not a list of entries.  With the text
null stored, getWatchlist returns null, not a list, and getWatchlistCount,
isInWatchlist, addToWatchlist, removeFromWatchlist and toggleWatchlist raise a
TypeError.  With the one-element array holding null stored, the callback reads a
property of null and isInWatchlist and toggleWatchlist raise a TypeError. -/
theorem watchlist_operations_counterexample :
    (getWatchlist (storeWithWatchlist (.prim .null)) = .prim .null ∧
      getWatchlistCount (storeWithWatchlist (.prim .null)) = .error .typeError ∧
      isInWatchlist (storeWithWatchlist (.prim .null)) (getField sampleItem "id")
        (getField sampleItem "media_type") = .error .typeError ∧
      addToWatchlist (storeWithWatchlist (.prim .null)) sampleItem sampleNow
        = .error .typeError ∧
      removeFromWatchlist (storeWithWatchlist (.prim .null)) (getField sampleItem "id")
        (getField sampleItem "media_type") = .error .typeError ∧
      toggleWatchlist (storeWithWatchlist (.prim .null)) sampleItem sampleNow
        = .error .typeError) ∧
    (getWatchlist (storeWithWatchlist (.arr [.prim .null])) = .arr [.prim .null] ∧
      isInWatchlist (storeWithWatchlist (.arr [.prim .null])) (getField sampleItem "id")
        (getField sampleItem "media_type") = .error .typeError ∧
      toggleWatchlist (storeWithWatchlist (.arr [.prim .null])) sampleItem sampleNow
        = .error .typeError) :=
  ⟨⟨rfl, rfl, rfl, rfl, rfl, rfl⟩, ⟨rfl, rfl, rfl⟩⟩

/-! ## Preferences -/

theorem getField_cons_of_tail {rest : Obj} {key : String} {w : Json}
    (h : getField rest key = some w) (kv : String × Json) :
    getField (kv :: rest) key = some w := by
  obtain ⟨k, v⟩ := kv
  simp [getField, h]

theorem getField_cons_of_tail_none {rest : Obj} {key : String}
    (h : getField rest key = none) (k : String) (v : Json) :
    getField ((k, v) :: rest) key = if k = key then some v else none := by
  simp [getField, h]

theorem getField_eq_none_of_not_any (o : Obj) (key : String)
    (h : o.any (fun kv => kv.1 == key) = false) : getField o key = none := by
  induction o with
  | nil => rfl
  | cons kv o ih =>
    obtain ⟨k, v⟩ := kv
    simp only [List.any_cons, Bool.or_eq_false_iff, beq_eq_false_iff_ne, ne_eq] at h
    rw [getField_cons_of_tail_none (ih h.2)]
    simp [h.1]

theorem map_eq_self_of_not_any (o : Obj) (key : String) (v : Json)
    (h : o.any (fun kv => kv.1 == key) = false) :
    o.map (fun kv => if kv.1 = key then (key, v) else kv) = o := by
  induction o with
  | nil => rfl
  | cons kv o ih =>
    simp only [List.any_cons, Bool.or_eq_false_iff, beq_eq_false_iff_ne, ne_eq] at h
    rw [List.map_cons, ih h.2]
    simp [h.1]

theorem getField_map_eq (o : Obj) (key : String) (v : Json)
    (h : o.any (fun kv => kv.1 == key) = true) :
    getField (o.map (fun kv => if kv.1 = key then (key, v) else kv)) key = some v := by
  induction o with
  | nil => simp at h
  | cons kv o ih =>
    rw [List.map_cons]
    cases hrest : o.any (fun kv => kv.1 == key) with
    | true => exact getField_cons_of_tail (ih hrest) _
    | false =>
      have hk : kv.1 = key := by
        simp only [List.any_cons, hrest, Bool.or_false, beq_iff_eq] at h
        exact h
      rw [map_eq_self_of_not_any o key v hrest]
      have hd : (if kv.1 = key then (key, v) else kv) = (key, v) := by simp [hk]
      rw [hd, getField_cons_of_tail_none (getField_eq_none_of_not_any o key hrest)]
      simp

theorem getField_append_eq (o : Obj) (key : String) (v : Json) :
    getField (o ++ [(key, v)]) key = some v := by
  induction o with
  | nil => simp [getField]
  | cons kv o ih =>
    rw [List.cons_append]
    exact getField_cons_of_tail ih kv

theorem getField_setProp_eq (o : Obj) (key : String) (v : Json) :
    getField (setProp o key v) key = some v := by
  unfold setProp
  split
  · next h => exact getField_map_eq o key v h
  · exact getField_append_eq o key v

theorem getField_objectSpread (source : Obj) :
    ∀ (target : Obj) (key : String),
      getField (objectSpread target source) key =
        match getField source key with
        | some v => some v
        | none => getField target key := by
  induction source with
  | nil => intro target key; rfl
  | cons kv source ih =>
    intro target key
    obtain ⟨k, v⟩ := kv
    have hstep : objectSpread target ((k, v) :: source)
        = objectSpread (setProp target k v) source := rfl
    rw [hstep, ih]
    cases hrest : getField source key with
    | some w => rw [getField_cons_of_tail hrest]
    | none =>
      rw [getField_cons_of_tail_none hrest]
      by_cases hk : k = key
      · subst hk
        simp [getField_setProp_eq]
      · have hne : key ≠ k := fun e => hk e.symm
        simp [hk, getField_setProp_ne _ _ _ _ hne]

/-- C8: for every stored preferences object s, every key of getPreferences() maps
to the value s gives it when s has that key and otherwise to its default, where
the defaults are theme dark, autoplay true, quality auto and language en (a key
that neither has is undefined); with nothing stored the result is the defaults. -/
theorem getPreferences_merges_defaults (st : Store) :
    (∀ s : Obj, st.getItem STORAGE_KEYS.PREFERENCES = some (.json (.obj s)) →
      ∀ key, getField (getPreferences st) key =
        match getField s key with
        | some v => some v
        | none =>
          getField [("theme", .prim (.str "dark")), ("autoplay", .prim (.bool true)),
            ("quality", .prim (.str "auto")), ("language", .prim (.str "en"))] key) ∧
    (st.getItem STORAGE_KEYS.PREFERENCES = none →
      getPreferences st =
        [("theme", .prim (.str "dark")), ("autoplay", .prim (.bool true)),
         ("quality", .prim (.str "auto")), ("language", .prim (.str "en"))]) := by
  constructor
  · intro s hs key
    have hp : getPreferences st = objectSpread DEFAULT_PREFERENCES s := by
      simp only [getPreferences, hs, parseJSON, ownProps]
      rfl
    rw [hp, getField_objectSpread]
    rfl
  · intro hs
    simp only [getPreferences, hs, parseJSON, ownProps]
    rfl

/-- Witness for C8: stored preferences that set the theme to light and add a volume;
the theme is the stored one, the language is the default, the volume is kept. -/
theorem getPreferences_merges_defaults_witness :
    getField (getPreferences (storeWithPreferences (.obj samplePreferences))) "theme"
      = some (.prim (.str "light")) ∧
    getField (getPreferences (storeWithPreferences (.obj samplePreferences))) "language"
      = some (.prim (.str "en")) ∧
    getField (getPreferences (storeWithPreferences (.obj samplePreferences))) "volume"
      = some (.prim (.num 7)) ∧
    getPreferences emptyStore = DEFAULT_PREFERENCES :=
  ⟨(getPreferences_merges_defaults (storeWithPreferences (.obj samplePreferences))).1
      samplePreferences rfl "theme",
   (getPreferences_merges_defaults (storeWithPreferences (.obj samplePreferences))).1
      samplePreferences rfl "language",
   (getPreferences_merges_defaults (storeWithPreferences (.obj samplePreferences))).1
      samplePreferences rfl "volume",
   (getPreferences_merges_defaults emptyStore).2 rfl⟩

/-! ## API client -/

theorem lookup_cons_eq {β : Type} (k a : String) (b : β) (rest : List (String × β)) :
    List.lookup k ((a, b) :: rest) = if k = a then some b else List.lookup k rest := by
  by_cases h : k = a
  · subst h; simp [List.lookup]
  · have : (k == a) = false := by simpa using h
    simp [List.lookup, this, h]

theorem image_base_slash : IMAGE_BASE_URL ++ "/" = "https://image.tmdb.org/t/p/" := by decide

theorem lookup_four (size a b c d : String) :
    List.lookup size [("small", a), ("medium", b), ("large", c), ("original", d)] =
      if size = "small" then some a else if size = "medium" then some b
      else if size = "large" then some c else if size = "original" then some d
      else none := by
  rw [lookup_cons_eq, lookup_cons_eq, lookup_cons_eq, lookup_cons_eq]
  rfl

theorem ne_proto_of_not_inherited {name : String} (h : isInheritedName name = false) :
    name ≠ "__proto__" := by
  intro hp
  rw [hp] at h
  revert h
  decide

/-- The read of a type that is neither in the table nor a name of Object.prototype
finds nothing. -/
theorem readImageSizes_unknown (type : String) (h1 : type ≠ "poster")
    (h2 : type ≠ "backdrop") (h3 : type ≠ "profile") (htype : isInheritedName type = false) :
    readImageSizes type = .undefined := by
  have hl : IMAGE_SIZES.lookup type = none := by
    unfold IMAGE_SIZES
    rw [lookup_cons_eq, lookup_cons_eq, lookup_cons_eq, if_neg h1, if_neg h2, if_neg h3]
    rfl
  simp only [readImageSizes, hl, ne_proto_of_not_inherited htype, htype, if_false,
    Bool.false_eq_true]

/-- A read on an inner table with a size name that Object.prototype does not define
finds the own entry or nothing. -/
theorem readSize_sizes (engine : Engine) (table : List (String × String)) (size : String)
    (hsize : isInheritedName size = false) :
    readSize engine (.sizes table) size =
      match table.lookup size with
      | some key => .ok (.text key)
      | none => .ok .undefined := by
  cases h : table.lookup size with
  | some key => simp only [readSize, h]
  | none => simp only [readSize, h, ne_proto_of_not_inherited hsize, hsize, if_false,
      Bool.false_eq_true]

/-- The size key that an inner table with four entries, none of them empty, gives
for a size name that Object.prototype does not define. -/
theorem sizeKey_of_table (engine : Engine) (a b c d size : String)
    (hsize : isInheritedName size = false)
    (ha : a ≠ "") (hb : b ≠ "") (hc : c ≠ "") (hd : d ≠ "") :
    (match readSize engine
        (.sizes [("small", a), ("medium", b), ("large", c), ("original", d)]) size with
      | .error e => Except.error e
      | .ok found =>
        Except.ok (if found.truthy then found.toText engine else size)) =
      .ok (if size = "small" then a else if size = "medium" then b
        else if size = "large" then c else if size = "original" then d else size) := by
  rw [readSize_sizes engine _ size hsize, lookup_four]
  by_cases h1 : size = "small"
  · simp [h1, Found.truthy, Found.toText, ha]
  · by_cases h2 : size = "medium"
    · simp [h2, Found.truthy, Found.toText, hb]
    · by_cases h3 : size = "large"
      · simp [h3, Found.truthy, Found.toText, hc]
      · by_cases h4 : size = "original"
        · simp [h4, Found.truthy, Found.toText, hd]
        · simp [h1, h2, h3, h4, Found.truthy]

/-- The result of getImageUrl on a path that is not empty, from the size key. -/
theorem getImageUrl_of_sizeKey (engine : Engine) (path size type sizeKey : String)
    (hpath : path ≠ "")
    (hkey : (match readSize engine (readImageSizes type) size with
      | .error e => Except.error e
      | .ok found => Except.ok (if found.truthy then found.toText engine else size))
        = .ok sizeKey) :
    getImageUrl engine (some path) (some size) (some type)
      = .ok (some ("https://image.tmdb.org/t/p/" ++ sizeKey ++ path)) := by
  simp only [getImageUrl, Option.getD_some, hpath, if_false, image_base_slash]
  cases hr : readSize engine (readImageSizes type) size with
  | error e => simp [hr] at hkey
  | ok found =>
    simp only [hr, Except.ok.injEq] at hkey
    simp only [hkey]

/-- C9, as it holds: getImageUrl returns null when the path is missing or empty,
whatever the size and the type.  Otherwise, for a type that is not the name of a
property of Object.prototype and, when the type is poster, backdrop or profile,
a size that is not such a name either, it returns the text
https://image.tmdb.org/t/p/ followed by the size key and the path, where the size
key is the entry of IMAGE_SIZES for the given type and size when the table has
one (spelled out below) and the size argument itself otherwise.  The result is
the same in every engine, so it is a function of the three arguments alone;
omitted size and type stand for original and poster. -/
theorem getImageUrl_formats (engine : Engine) (path size type : String) (hpath : path ≠ "")
    (htype : isInheritedName type = false)
    (hsize : isInheritedName size = false ∨
      (type ≠ "poster" ∧ type ≠ "backdrop" ∧ type ≠ "profile")) :
    getImageUrl engine none (some size) (some type) = .ok none ∧
    getImageUrl engine (some "") (some size) (some type) = .ok none ∧
    getImageUrl engine (some path) (some size) (some type) =
      .ok (some ("https://image.tmdb.org/t/p/" ++
        (if type = "poster" then
          (if size = "small" then "w185" else if size = "medium" then "w342"
           else if size = "large" then "w500" else if size = "original" then "original"
           else size)
        else if type = "backdrop" then
          (if size = "small" then "w300" else if size = "medium" then "w780"
           else if size = "large" then "w1280" else if size = "original" then "original"
           else size)
        else if type = "profile" then
          (if size = "small" then "w45" else if size = "medium" then "w185"
           else if size = "large" then "h632" else if size = "original" then "original"
           else size)
        else size) ++ path)) ∧
    getImageUrl engine (some path) none none
      = getImageUrl engine (some path) (some "original") (some "poster") := by
  refine ⟨rfl, by simp [getImageUrl], ?_, rfl⟩
  apply getImageUrl_of_sizeKey engine path size type _ hpath
  by_cases h1 : type = "poster"
  · have hs : isInheritedName size = false := by
      rcases hsize with h | h
      · exact h
      · exact absurd h1 h.1
    subst h1
    simp only [if_true]
    exact sizeKey_of_table engine "w185" "w342" "w500" "original" size hs
      (by decide) (by decide) (by decide) (by decide)
  · by_cases h2 : type = "backdrop"
    · have hs : isInheritedName size = false := by
        rcases hsize with h | h
        · exact h
        · exact absurd h2 h.2.1
      subst h2
      simp only [if_neg h1, if_true]
      exact sizeKey_of_table engine "w300" "w780" "w1280" "original" size hs
        (by decide) (by decide) (by decide) (by decide)
    · by_cases h3 : type = "profile"
      · have hs : isInheritedName size = false := by
          rcases hsize with h | h
          · exact h
          · exact absurd h3 h.2.2
        subst h3
        simp only [if_neg h1, if_neg h2, if_true]
        exact sizeKey_of_table engine "w45" "w185" "h632" "original" size hs
          (by decide) (by decide) (by decide) (by decide)
      · simp only [if_neg h1, if_neg h2, if_neg h3, readImageSizes_unknown type h1 h2 h3 htype,
          readSize, Found.truthy, Bool.false_eq_true, if_false]

/-- Witness for C9: a poster path at medium size, and a size and a type that the
table does not have. -/
theorem getImageUrl_formats_witness :
    (∀ engine, getImageUrl engine (some "/abc.jpg") (some "medium") (some "poster")
      = .ok (some "https://image.tmdb.org/t/p/w342/abc.jpg")) ∧
    (∀ engine, getImageUrl engine (some "/abc.jpg") (some "w92") (some "logo")
      = .ok (some "https://image.tmdb.org/t/p/w92/abc.jpg")) :=
  ⟨fun engine => ((getImageUrl_formats engine "/abc.jpg" "medium" "poster" (by decide)
      (by decide) (Or.inl (by decide))).2.2.1).trans rfl,
   fun engine => ((getImageUrl_formats engine "/abc.jpg" "w92" "logo" (by decide)
      (by decide) (Or.inl (by decide))).2.2.1).trans rfl⟩

/-- C9, the counterexamples.  The size constructor is not an entry of the poster
table, yet the read finds the function Object, which every object inherits: the
URL holds the text of that function (here as V8 prints it) in the place of the
size.  The size __proto__ finds Object.prototype itself, and the URL holds
[object Object] in every engine.  With the type constructor the first read finds
the function Object, and its property name, the text Object, takes the place of
the size name in every engine.  The claim gives the raw size in all three
cases, no such entries being in the table. -/
theorem getImageUrl_counterexample :
    (∀ functionProperty,
      getImageUrl { nativeText := v8NativeText, functionProperty := functionProperty }
        (some "/a.jpg") (some "constructor") (some "poster")
        = .ok (some "https://image.tmdb.org/t/p/function Object() \x7b [native code] \x7d/a.jpg")) ∧
    (∀ engine, getImageUrl engine (some "/a.jpg") (some "__proto__") (some "poster")
      = .ok (some "https://image.tmdb.org/t/p/[object Object]/a.jpg")) ∧
    (∀ engine, getImageUrl engine (some "/a.jpg") (some "name") (some "constructor")
      = .ok (some "https://image.tmdb.org/t/p/Object/a.jpg")) ∧
    IMAGE_SIZES.lookup "constructor" = none ∧
    (∀ table, IMAGE_SIZES.lookup "poster" = some table →
      table.lookup "constructor" = none ∧ table.lookup "__proto__" = none) :=
  ⟨fun _ => rfl, fun _ => rfl, fun _ => rfl, by decide, by
    intro table h
    have h' : table = [("small", "w185"), ("medium", "w342"), ("large", "w500"),
        ("original", "original")] := by
      have h2 : IMAGE_SIZES.lookup "poster" = some [("small", "w185"), ("medium", "w342"),
          ("large", "w500"), ("original", "original")] := by decide
      rw [h2] at h
      exact (Option.some.inj h).symm
    rw [h']
    exact ⟨by decide, by decide⟩⟩

theorem fetchFromAPI_unconfigured {apiKey : String}
    (hkey : apiKey = "" ∨ apiKey = "YOUR_TMDB_API_KEY_HERE") (net : Network)
    (endpoint : String) (params : List (String × Arg)) :
    fetchFromAPI apiKey net endpoint params = configurationFailure := by
  rcases hkey with h | h <;> subst h <;> rfl

/-- C10 (amended): when the configured credential is empty or is the placeholder
YOUR_TMDB_API_KEY_HERE, no fetch function issues a network request, and each
fails with the API key not configured error for every argument, with two
exceptions: search with a missing or blank query resolves to an empty result
list, and getContentDetails with a media type other than movie and tv fails
with Invalid media type. -/
theorem fetch_without_credential (apiKey : String) (net : Network)
    (hkey : apiKey = "" ∨ apiKey = "YOUR_TMDB_API_KEY_HERE") :
    configurationFailure = ([], .error (.error
      "API key not configured. Please get a free API key from https://www.themoviedb.org/settings/api")) ∧
    (∀ page, getTrending apiKey net page = configurationFailure) ∧
    (∀ page, getPopularMovies apiKey net page = configurationFailure) ∧
    (∀ page, getTopRatedMovies apiKey net page = configurationFailure) ∧
    (∀ page, getUpcomingMovies apiKey net page = configurationFailure) ∧
    (∀ page, getNowPlayingMovies apiKey net page = configurationFailure) ∧
    (∀ page, getPopularTV apiKey net page = configurationFailure) ∧
    (∀ page, getTopRatedTV apiKey net page = configurationFailure) ∧
    (∀ id, getMovieDetails apiKey net id = configurationFailure) ∧
    (∀ id, getTVDetails apiKey net id = configurationFailure) ∧
    (∀ id, getMovieCredits apiKey net id = configurationFailure) ∧
    (∀ id, getTVCredits apiKey net id = configurationFailure) ∧
    getGenres apiKey net = configurationFailure ∧
    (∀ options, discoverMovies apiKey net options = configurationFailure) ∧
    (∀ query page, jsTrim query ≠ "" →
      search apiKey net (some query) page = configurationFailure) ∧
    (∀ query page, jsTrim query = "" →
      search apiKey net (some query) page = ([], .ok (.obj [("results", .arr [])]))) ∧
    (∀ page, search apiKey net none page = ([], .ok (.obj [("results", .arr [])]))) ∧
    (∀ id, getContentDetails apiKey net id (some (.str "movie")) = configurationFailure) ∧
    (∀ id, getContentDetails apiKey net id (some (.str "tv")) = configurationFailure) ∧
    (∀ id mediaType, mediaType ≠ some (.str "movie") → mediaType ≠ some (.str "tv") →
      getContentDetails apiKey net id mediaType
        = ([], .error (.error "Invalid media type"))) := by
  have hf := fun endpoint params => fetchFromAPI_unconfigured hkey net endpoint params
  refine ⟨rfl, fun _ => hf _ _, fun _ => hf _ _, fun _ => hf _ _, fun _ => hf _ _,
    fun _ => hf _ _, fun _ => hf _ _, fun _ => hf _ _, fun _ => hf _ _, fun _ => hf _ _,
    fun _ => hf _ _, fun _ => hf _ _, hf _ _, fun _ => hf _ _, ?_, ?_, fun _ => rfl,
    fun _ => ?_, fun _ => ?_, ?_⟩
  · intro query page hq
    unfold search
    simp only [jsTrim_ne_empty hq, Bool.false_eq_true, if_false]
    exact hf _ _
  · intro query page hq
    unfold search
    simp only [jsTrim_eq_empty hq, if_true]
  · unfold getContentDetails
    simp only [if_true]
    exact hf _ _
  · unfold getContentDetails
    have hne : ¬ (some (Prim.str "tv") = some (Prim.str "movie")) := by decide
    simp only [hne, if_false, if_true]
    exact hf _ _
  · intro id mediaType h1 h2
    unfold getContentDetails
    simp only [h1, h2, if_false]

/-- Witness for C10 (amended): the placeholder credential. -/
theorem fetch_without_credential_witness :
    getTrending PLACEHOLDER_API_KEY sampleNetwork none = configurationFailure ∧
    search PLACEHOLDER_API_KEY sampleNetwork (some "dune") none = configurationFailure ∧
    getContentDetails PLACEHOLDER_API_KEY sampleNetwork (some (.num 550)) (some (.str "movie"))
      = configurationFailure :=
  ⟨(fetch_without_credential PLACEHOLDER_API_KEY sampleNetwork (Or.inr rfl)).2.1 none,
   (fetch_without_credential PLACEHOLDER_API_KEY sampleNetwork
      (Or.inr rfl)).2.2.2.2.2.2.2.2.2.2.2.2.2.2.1 "dune" none (by decide),
   (fetch_without_credential PLACEHOLDER_API_KEY sampleNetwork
      (Or.inr rfl)).2.2.2.2.2.2.2.2.2.2.2.2.2.2.2.2.2.1 (some (.num 550))⟩

/-- C10 as stated fails for two of the listed functions: with the placeholder
credential, search with an empty query does not fail at all (it resolves to an
empty result list), and getContentDetails with the media type person fails
with Invalid media type instead of the configuration error. -/
theorem fetch_without_credential_counterexample :
    search "YOUR_TMDB_API_KEY_HERE" sampleNetwork (some "") none
      = ([], .ok (.obj [("results", .arr [])])) ∧
    search "YOUR_TMDB_API_KEY_HERE" sampleNetwork (some "") none ≠ configurationFailure ∧
    getContentDetails "YOUR_TMDB_API_KEY_HERE" sampleNetwork (some (.num 550))
      (some (.str "person")) = ([], .error (.error "Invalid media type")) ∧
    getContentDetails "YOUR_TMDB_API_KEY_HERE" sampleNetwork (some (.num 550))
      (some (.str "person")) ≠ configurationFailure := by
  refine ⟨rfl, ?_, rfl, ?_⟩
  · intro h
    have h' : (([], .ok (.obj [("results", .arr [])])) : Fetched)
        = ([], .error (.error API_KEY_ERROR)) := h
    simp at h'
  · intro h
    have h' : (([], .error (.error "Invalid media type")) : Fetched)
        = ([], .error (.error API_KEY_ERROR)) := h
    simp [API_KEY_ERROR] at h'

/-- C11: with a configured credential, a call of fetchFromAPI sends exactly one
request (the base URL followed by the endpoint, with api_key and the given
parameters); when the response has a non-success status the call fails with the
message API Error: followed by the status and the status text, and when the
status is a success the call returns what parsing the body as JSON gives.  Every
fetch function is fetchFromAPI at its endpoint, so the same holds for each. -/
theorem fetchFromAPI_http_outcome (apiKey : String) (net : Network) (endpoint : String)
    (params : List (String × Arg)) (response : Response)
    (hkey : apiKey ≠ "" ∧ apiKey ≠ "YOUR_TMDB_API_KEY_HERE")
    (hnet : net { url := "https://api.themoviedb.org/3" ++ endpoint,
                  query := ("api_key", apiKey) :: appendedParams params } = .ok response) :
    (fetchFromAPI apiKey net endpoint params).1
      = [{ url := "https://api.themoviedb.org/3" ++ endpoint,
           query := ("api_key", apiKey) :: appendedParams params }] ∧
    (response.ok = false →
      (fetchFromAPI apiKey net endpoint params).2 = .error (.error
        ("API Error: " ++ toString response.status ++ " " ++ response.statusText))) ∧
    (response.ok = true →
      (fetchFromAPI apiKey net endpoint params).2 = response.json ∧
      ∀ body, response.json = .ok body →
        (fetchFromAPI apiKey net endpoint params).2 = .ok body) ∧
    (∀ page, getTrending apiKey net page
      = fetchFromAPI apiKey net "/trending/all/week" [("page", pageOrDefault page)]) ∧
    (∀ page, getPopularMovies apiKey net page
      = fetchFromAPI apiKey net "/movie/popular" [("page", pageOrDefault page)]) ∧
    (∀ page, getTopRatedMovies apiKey net page
      = fetchFromAPI apiKey net "/movie/top_rated" [("page", pageOrDefault page)]) ∧
    (∀ page, getUpcomingMovies apiKey net page
      = fetchFromAPI apiKey net "/movie/upcoming" [("page", pageOrDefault page)]) ∧
    (∀ page, getNowPlayingMovies apiKey net page
      = fetchFromAPI apiKey net "/movie/now_playing" [("page", pageOrDefault page)]) ∧
    (∀ page, getPopularTV apiKey net page
      = fetchFromAPI apiKey net "/tv/popular" [("page", pageOrDefault page)]) ∧
    (∀ page, getTopRatedTV apiKey net page
      = fetchFromAPI apiKey net "/tv/top_rated" [("page", pageOrDefault page)]) ∧
    (∀ id, getMovieDetails apiKey net id
      = fetchFromAPI apiKey net ("/movie/" ++ jsToString id)
          [("append_to_response", some (.str "videos,credits,similar"))]) ∧
    (∀ id, getTVDetails apiKey net id
      = fetchFromAPI apiKey net ("/tv/" ++ jsToString id)
          [("append_to_response", some (.str "videos,credits,similar"))]) ∧
    (∀ id, getMovieCredits apiKey net id
      = fetchFromAPI apiKey net ("/movie/" ++ jsToString id ++ "/credits") []) ∧
    (∀ id, getTVCredits apiKey net id
      = fetchFromAPI apiKey net ("/tv/" ++ jsToString id ++ "/credits") []) ∧
    getGenres apiKey net = fetchFromAPI apiKey net "/genre/movie/list" [] ∧
    (∀ query page, jsTrim query ≠ "" →
      search apiKey net (some query) page
        = fetchFromAPI apiKey net "/search/multi"
            [("query", some (.str (jsTrim query))), ("page", pageOrDefault page)]) := by
  have hk : (apiKey = "" || apiKey = PLACEHOLDER_API_KEY) = false := by
    have h2 : ¬ apiKey = PLACEHOLDER_API_KEY := hkey.2
    simp [hkey.1, h2]
  have hnet' : net (Request.mk (BASE_URL ++ endpoint)
      (("api_key", apiKey) :: appendedParams params)) = .ok response := hnet
  have hreq : (fetchFromAPI apiKey net endpoint params).1
      = [Request.mk (BASE_URL ++ endpoint)
          (("api_key", apiKey) :: appendedParams params)] := by
    unfold fetchFromAPI
    simp only [hk, Bool.false_eq_true, if_false, hnet']
    cases response.ok <;> simp
  refine ⟨hreq, ?_, ?_, fun _ => rfl, fun _ => rfl, fun _ => rfl, fun _ => rfl,
    fun _ => rfl, fun _ => rfl, fun _ => rfl, fun _ => rfl, fun _ => rfl, fun _ => rfl,
    fun _ => rfl, rfl, ?_⟩
  · intro hok
    unfold fetchFromAPI
    simp only [hk, Bool.false_eq_true, if_false, hnet', hok, Bool.not_false, if_true]
  · intro hok
    have h : (fetchFromAPI apiKey net endpoint params).2 = response.json := by
      unfold fetchFromAPI
      simp only [hk, Bool.false_eq_true, if_false, hnet', hok, Bool.not_true]
    exact ⟨h, fun body hb => by rw [h, hb]⟩
  · intro query page hq
    unfold search
    simp only [jsTrim_ne_empty hq, Bool.false_eq_true, if_false]
    rfl

/-- Witness for C11: the trending endpoint on a network that answers 404. -/
theorem fetchFromAPI_http_outcome_witness :
    (fetchFromAPI "k" notFoundNetwork "/trending/all/week" [("page", some (.num 1))]).1
      = [{ url := "https://api.themoviedb.org/3" ++ "/trending/all/week",
           query := ("api_key", "k") :: appendedParams [("page", some (.num 1))] }] ∧
    (fetchFromAPI "k" notFoundNetwork "/trending/all/week" [("page", some (.num 1))]).2
      = .error (.error ("API Error: " ++ toString 404 ++ " " ++ "Not Found")) :=
  ⟨(fetchFromAPI_http_outcome "k" notFoundNetwork "/trending/all/week"
      [("page", some (.num 1))] _ (by decide) rfl).1,
   (fetchFromAPI_http_outcome "k" notFoundNetwork "/trending/all/week"
      [("page", some (.num 1))] _ (by decide) rfl).2.1 rfl⟩

/-- C19: getContentDetails is getMovieDetails (the request to /movie/ followed by
the id) when the media type is the string movie and getTVDetails (the request to
/tv/ followed by the id) when it is the string tv; for every other media type,
a missing one included, it fails with Invalid media type and sends no request. -/
theorem getContentDetails_dispatch (apiKey : String) (net : Network) (id mediaType : Arg) :
    (mediaType = some (.str "movie") →
      getContentDetails apiKey net id mediaType = getMovieDetails apiKey net id ∧
      getContentDetails apiKey net id mediaType
        = fetchFromAPI apiKey net ("/movie/" ++ jsToString id)
            [("append_to_response", some (.str "videos,credits,similar"))]) ∧
    (mediaType = some (.str "tv") →
      getContentDetails apiKey net id mediaType = getTVDetails apiKey net id ∧
      getContentDetails apiKey net id mediaType
        = fetchFromAPI apiKey net ("/tv/" ++ jsToString id)
            [("append_to_response", some (.str "videos,credits,similar"))]) ∧
    (mediaType ≠ some (.str "movie") → mediaType ≠ some (.str "tv") →
      getContentDetails apiKey net id mediaType
        = ([], .error (.error "Invalid media type"))) ∧
    getContentDetails apiKey net id none = ([], .error (.error "Invalid media type")) := by
  refine ⟨?_, ?_, ?_, rfl⟩
  · intro h
    subst h
    exact ⟨rfl, rfl⟩
  · intro h
    subst h
    have hne : ¬ (some (Prim.str "tv") = some (Prim.str "movie")) := by decide
    have h1 : getContentDetails apiKey net id (some (.str "tv")) = getTVDetails apiKey net id := by
      unfold getContentDetails
      simp only [hne, if_false, if_true]
    exact ⟨h1, h1.trans rfl⟩
  · intro h1 h2
    unfold getContentDetails
    simp only [h1, h2, if_false]

/-- Witness for C19: the three branches on the sample network. -/
theorem getContentDetails_dispatch_witness :
    getContentDetails "k" sampleNetwork (some (.num 550)) (some (.str "movie"))
      = getMovieDetails "k" sampleNetwork (some (.num 550)) ∧
    getContentDetails "k" sampleNetwork (some (.num 1399)) (some (.str "tv"))
      = getTVDetails "k" sampleNetwork (some (.num 1399)) ∧
    getContentDetails "k" sampleNetwork (some (.num 550)) (some (.str "person"))
      = ([], .error (.error "Invalid media type")) :=
  ⟨((getContentDetails_dispatch "k" sampleNetwork (some (.num 550))
      (some (.str "movie"))).1 rfl).1,
   ((getContentDetails_dispatch "k" sampleNetwork (some (.num 1399))
      (some (.str "tv"))).2.1 rfl).1,
   (getContentDetails_dispatch "k" sampleNetwork (some (.num 550))
      (some (.str "person"))).2.2.1 (by decide) (by decide)⟩

/-- C20: on a store that holds the watchlist es, addToWatchlist of a media item
returns false and leaves the store untouched when an entry with the same
(id, media_type) pair exists; otherwise, when the writes of the store succeed, it
returns true and getWatchlist() becomes the new entry followed by the entries
of es unchanged and in order, where the new entry has the properties of the
item and addedAt set to the timestamp. -/
theorem addToWatchlist_prepends_snapshot (st : Store) (es : List Obj) (item : Obj)
    (now : String) (hst : HoldsWatchlist st es) (hitem : isMediaItem item = true) :
    ((∃ e ∈ es, entryKey e = entryKey item) →
      addToWatchlist st item now = .ok (false, st)) ∧
    ((¬ ∃ e ∈ es, entryKey e = entryKey item) → WritesSucceed st →
      ∃ st', addToWatchlist st item now = .ok (true, st') ∧
        getWatchlist st'
          = .arr (.obj (setProp item "addedAt" (.prim (.str now))) :: es.map .obj) ∧
        getField (setProp item "addedAt" (.prim (.str now))) "addedAt"
          = some (.prim (.str now)) ∧
        ∀ key, key ≠ "addedAt" →
          getField (setProp item "addedAt" (.prim (.str now))) key = getField item key) := by
  constructor
  · intro hex
    rw [addToWatchlist_eq hst, (any_entryMatches_iff hitem es).mpr hex]
    rfl
  · intro hex hw
    have hany : es.any (entryMatches (getField item "id") (getField item "media_type")) = false := by
      cases h : es.any (entryMatches (getField item "id") (getField item "media_type")) with
      | false => rfl
      | true => exact absurd ((any_entryMatches_iff hitem es).mp h) hex
    have hacc := hw STORAGE_KEYS.WATCHLIST (.json (.arr
      ((setProp item "addedAt" (.prim (.str now)) :: es).map .obj)))
    have hs := holdsWatchlist_saveJSON st _ hacc
    refine ⟨(saveJSON st STORAGE_KEYS.WATCHLIST (.arr
      ((setProp item "addedAt" (.prim (.str now)) :: es).map .obj))).2, ?_, ?_,
      getField_setProp_eq _ _ _, fun key hk => getField_setProp_ne _ _ _ _ hk⟩
    · rw [addToWatchlist_eq hst, hany]
      simp only [Bool.false_eq_true, if_false]
      rw [← hs.1]
    · exact hs.2

/-- Witness for C20: adding the sample item to the empty store. -/
theorem addToWatchlist_prepends_snapshot_witness :
    ∃ st', addToWatchlist emptyStore sampleItem sampleNow = .ok (true, st') ∧
      getWatchlist st'
        = .arr (.obj (setProp sampleItem "addedAt" (.prim (.str sampleNow)))
            :: ([] : List Obj).map .obj) ∧
      getField (setProp sampleItem "addedAt" (.prim (.str sampleNow))) "addedAt"
        = some (.prim (.str sampleNow)) ∧
      ∀ key, key ≠ "addedAt" →
        getField (setProp sampleItem "addedAt" (.prim (.str sampleNow))) key
          = getField sampleItem key :=
  (addToWatchlist_prepends_snapshot emptyStore [] sampleItem sampleNow rfl
    (by decide)).2 (by simp) (fun _ _ => rfl)

/-! ## Cards and rows -/

theorem createCards_ok {st : Store} (h : ReadsEntries st) (items : List CatalogItem) :
    ∃ cards, createCards st items = .ok cards ∧ cards.length = items.length ∧
      cards.map Card.item? = items.map some := by
  induction items with
  | nil => exact ⟨[], rfl, rfl, rfl⟩
  | cons item items ih =>
    obtain ⟨b, hb⟩ := isInWatchlist_ok h (getField item.1 "id") (getField item.1 "media_type")
    obtain ⟨cards, hc, hl, hm⟩ := ih
    refine ⟨.movie item b :: cards, ?_, ?_, ?_⟩
    · simp [createCards, createMovieCard, hb, hc]
    · simp [hl]
    · simp [Card.item?, hm]

/-- C14 (amended): for every count M below 2^32, createSkeletonCards(M) returns
exactly M cards, all of them skeleton cards (and 10 when the count is omitted);
and for every list of N catalog items, when the stored watchlist text is absent,
empty, not valid JSON, or an array without a null element, createMovieRow places
exactly N cards in its track, the i-th built from the i-th item. -/
theorem card_counts (st : Store) (title : String) (items : List CatalogItem)
    (showViewAll : Bool) (m : Nat) (hm : m < 2 ^ 32)
    (hst : st.getItem STORAGE_KEYS.WATCHLIST = none ∨
      st.getItem STORAGE_KEYS.WATCHLIST = some .empty ∨
      st.getItem STORAGE_KEYS.WATCHLIST = some .malformed ∨
      ∃ xs, st.getItem STORAGE_KEYS.WATCHLIST = some (.json (.arr xs)) ∧
        ∀ x ∈ xs, x ≠ .prim .null) :
    (∃ cards, createSkeletonCards (some m) = .ok cards ∧ cards.length = m ∧
      ∀ c ∈ cards, c = Card.skeleton) ∧
    (∃ cards, createSkeletonCards none = .ok cards ∧ cards.length = 10) ∧
    (∃ row, createMovieRow st title items showViewAll = .ok row ∧
      row.title = title ∧ row.track.length = items.length ∧
      row.track.map Card.item? = items.map some) := by
  refine ⟨⟨List.replicate m .skeleton, ?_, by simp, ?_⟩, ⟨List.replicate 10 .skeleton, rfl, rfl⟩,
    ?_⟩
  · have hm' : m < 4294967296 := by
      have h232 : (2 : Nat) ^ 32 = 4294967296 := by norm_num
      omega
    simp [createSkeletonCards, hm', createSkeletonCard]
  · intro c hc
    exact (List.mem_replicate.mp hc).2
  · obtain ⟨cards, hc, hl, hmap⟩ := createCards_ok (readsEntries_of_text hst) items
    exact ⟨{ title := title, showViewAll := showViewAll, track := cards },
      by simp [createMovieRow, hc], rfl, hl, hmap⟩

/-- Witness for C14 (amended): three skeleton cards, and a row of two items on the
empty store. -/
theorem card_counts_witness :
    (∃ cards, createSkeletonCards (some 3) = .ok cards ∧ cards.length = 3 ∧
      ∀ c ∈ cards, c = Card.skeleton) ∧
    (∃ cards, createSkeletonCards none = .ok cards ∧ cards.length = 10) ∧
    (∃ row, createMovieRow emptyStore "Popular Movies" [sampleCatalogItem, otherCatalogItem]
        true = .ok row ∧
      row.title = "Popular Movies" ∧
      row.track.length = [sampleCatalogItem, otherCatalogItem].length ∧
      row.track.map Card.item? = [sampleCatalogItem, otherCatalogItem].map some) :=
  card_counts emptyStore "Popular Movies" [sampleCatalogItem, otherCatalogItem] true 3
    (by decide) (Or.inl rfl)

/-- C14 as stated fails.  With the text null stored under the watchlist key,
createMovieRow on a one-item list raises a TypeError (createMovieCard asks
isInWatchlist, which calls a method of null), so no card is placed; and
createSkeletonCards(4294967296) raises a RangeError instead of returning cards. -/
theorem card_counts_counterexample :
    createMovieRow (storeWithWatchlist (.prim .null)) "Popular Movies" [sampleCatalogItem] true
      = .error .typeError ∧
    createSkeletonCards (some 4294967296) = .error .rangeError :=
  ⟨rfl, by simp [createSkeletonCards]⟩

/-! ## Year of a release date -/

/-- The sentinel of C13: for a missing date (null, undefined or the empty string)
getYear returns N/A, whatever the parser and the time zone. -/
theorem getYear_missing (parseDate : String → Option Int) (localOffset : Int → Int) :
    getYear parseDate localOffset none = .notAvailable ∧
    getYear parseDate localOffset (some "") = .notAvailable :=
  ⟨rfl, rfl⟩

/-- C13, evaluated at the failing input: the release date 2024-01-01 is read as
midnight UTC and getFullYear gives the year in local time, so in a zone five
hours behind UTC getYear returns 2023, not 2024; in UTC it returns 2024. -/
theorem getYear_first_of_january_behind_utc :
    parseDateOnly "2024-01-01" = some 1704067200000 ∧
    getYear parseDateOnly fiveHoursBehind (some "2024-01-01") = .year 2023 ∧
    getYear parseDateOnly utcZone (some "2024-01-01") = .year 2024 := by
  decide

/-! ## Router -/

theorem stopRotation_route (a : App) :
    (stopRotation a).currentRoute = a.currentRoute ∧ (stopRotation a).rendered = a.rendered := by
  unfold stopRotation
  cases a.rotationTimer with
  | none => exact ⟨rfl, rfl⟩
  | some id => by_cases h : id = 0 <;> simp [h]

theorem renderPage_route (apiKey : String) (net : Network) (handler : Handler) (a : App) :
    getCurrentRoute (renderPage apiKey net handler a) = a.currentRoute ∧
    (renderPage apiKey net handler a).rendered = a.rendered ++ [handler] := by
  unfold renderPage getCurrentRoute
  cases hp : a.appPresent with
  | false => simp
  | true =>
    cases handler with
    | renderHome =>
      simp only [if_true, renderHome.start, issue, destroyHero]
      exact ⟨(stopRotation_route _).1, (stopRotation_route _).2⟩
    | renderMovies => simp [renderMovies.start, issue]
    | renderSeries => simp [renderSeries.start, issue]
    | renderWatchlist => simp
    | inherited name => by_cases h : name = "constructor" ∨ name = "toString" <;> simp [h]

/-- The part of C12 that holds: for a path that is neither a registered route nor
the name of a property of Object.prototype (the empty path counts as the home
route), navigateTo ends with getCurrentRoute() equal to the home route, and the
one call of renderPage it makes is with renderHome. -/
theorem navigateTo_unknown_redirects (apiKey : String) (net : Network) (path : String)
    (addToHistory : Bool) (a : App) (hpath : routes path = none) :
    ∃ a', navigateTo apiKey net 2 path addToHistory a = some a' ∧
      getCurrentRoute a' = "/" ∧ a'.rendered = a.rendered ++ [.renderHome] := by
  by_cases hne : path = ""
  · have h1 : navigateTo apiKey net 2 path addToHistory a
        = some (renderPage apiKey net .renderHome
            { a with currentRoute := "/",
                     locationHash := if addToHistory then "/" else a.locationHash }) := by
      simp only [navigateTo, hne, if_true]
      rfl
    exact ⟨_, h1, (renderPage_route apiKey net _ _).1, (renderPage_route apiKey net _ _).2⟩
  · have h1 : navigateTo apiKey net 2 path addToHistory a
        = some (renderPage apiKey net .renderHome
            { a with currentRoute := "/", locationHash := "/" }) := by
      simp only [navigateTo, hne, if_false, hpath]
      rfl
    exact ⟨_, h1, (renderPage_route apiKey net _ _).1, (renderPage_route apiKey net _ _).2⟩

/-- C12, evaluated at the failing input: for the path constructor, which is not a
registered route, the read routes[path] finds the property that every object
inherits, so navigateTo does not redirect: getCurrentRoute() is constructor, not
the home route, and renderPage is called with that inherited function, not with
renderHome. -/
theorem navigateTo_inherited_name :
    routes "constructor" = some (.inherited "constructor") ∧
    ∃ a', navigateTo "k" catalogNetwork 2 "constructor" true (initialApp emptyStore) = some a' ∧
      getCurrentRoute a' = "constructor" ∧
      a'.rendered = [.inherited "constructor"] :=
  ⟨by decide, _, rfl, rfl, rfl⟩

/-! ## Hero timer and navigation -/

/-- C17, evaluated at the failing input: the home page is rendered with a hero (its
fetches settle), then the router navigates to the movies page.  Only renderHome
calls destroyHero, so the interval that createHero started is still active and
rotationTimer still holds its handle, also after the movies page has finished
rendering; a firing of the timer still moves the slide index. -/
theorem hero_timer_survives_navigation :
    ∃ a', run "k" catalogNetwork (initialApp emptyStore)
        [.navigate "/" true, .settle 0 [], .navigate "/movies" true, .settle 0 []] = some a' ∧
      getCurrentRoute a' = "/movies" ∧
      a'.rotationTimer = some 1 ∧ a'.intervals = [1] ∧
      a'.currentIndex = some 0 ∧ (rotationTick a').currentIndex = some 1 :=
  ⟨_, rfl, rfl, rfl, rfl, rfl, rfl⟩

/-- C18: there is an execution in which a second navigation is issued before the
fetches of the first page resolve and the render of the first page still writes
into the container afterwards.  The movies page is requested, then the series
page, so that both renders are suspended and the container holds the header of
the series page; then the fetches of the movies page settle and renderMovies
appends its four rows to that container, while getCurrentRoute() names the
series page; the rows of the series page follow when its own fetches settle.
Run alone, the series page leaves only its header and its two rows. -/
theorem late_render_writes_into_other_page :
    (∃ a', run "k" catalogNetwork (initialApp emptyStore)
        [.navigate "/movies" true, .navigate "/series" true] = some a' ∧
      getCurrentRoute a' = "/series" ∧
      a'.pending.map Pending.handler = [.renderMovies, .renderSeries] ∧
      a'.container.map Node.label = ["header: TV Series"]) ∧
    (∃ a', run "k" catalogNetwork (initialApp emptyStore)
        [.navigate "/movies" true, .navigate "/series" true, .settle 0 []] = some a' ∧
      getCurrentRoute a' = "/series" ∧
      a'.pending.map Pending.handler = [.renderSeries] ∧
      a'.container.map Node.label
        = ["header: TV Series", "row: Now Playing in Theaters", "row: Popular Movies",
           "row: Top Rated Movies", "row: Coming Soon"]) ∧
    (∃ a', run "k" catalogNetwork (initialApp emptyStore)
        [.navigate "/movies" true, .navigate "/series" true, .settle 0 [], .settle 0 []]
          = some a' ∧
      getCurrentRoute a' = "/series" ∧
      a'.pending.map Pending.handler = [] ∧
      a'.container.map Node.label
        = ["header: TV Series", "row: Now Playing in Theaters", "row: Popular Movies",
           "row: Top Rated Movies", "row: Coming Soon", "row: Popular TV Shows",
           "row: Top Rated TV Shows"]) ∧
    (∃ a', run "k" catalogNetwork (initialApp emptyStore)
        [.navigate "/series" true, .settle 0 []] = some a' ∧
      getCurrentRoute a' = "/series" ∧
      a'.container.map Node.label
        = ["header: TV Series", "row: Popular TV Shows", "row: Top Rated TV Shows"]) :=
  ⟨⟨_, rfl, rfl, by decide, by decide⟩, ⟨_, rfl, rfl, by decide, by decide⟩,
   ⟨_, rfl, rfl, by decide, by decide⟩, ⟨_, rfl, rfl, by decide⟩⟩

/-! ## Page modules: a failed fetch -/

theorem findSome_mem {α β : Type} (f : α → Option β) (l : List α) (b : β)
    (h : l.findSome? f = some b) : ∃ x ∈ l, f x = some b := by
  induction l with
  | nil => simp [List.findSome?] at h
  | cons x xs ih =>
    cases hx : f x with
    | some c =>
      simp only [List.findSome?, hx] at h
      exact ⟨x, List.mem_cons_self x xs, by rw [hx, h]⟩
    | none =>
      simp only [List.findSome?, hx] at h
      obtain ⟨y, hy, hfy⟩ := ih h
      exact ⟨y, List.mem_cons_of_mem x hy, hfy⟩

theorem findSome_isSome {α β : Type} (f : α → Option β) (l : List α) (x : α) (b : β)
    (hx : x ∈ l) (hf : f x = some b) : ∃ c, l.findSome? f = some c := by
  induction l with
  | nil => cases hx
  | cons y ys ih =>
    cases hy : f y with
    | some c => exact ⟨c, by simp [List.findSome?, hy]⟩
    | none =>
      have hx' : x ∈ ys := by
        rcases List.mem_cons.mp hx with h | h
        · rw [h, hy] at hf
          cases hf
        · exact h
      obtain ⟨c, hc⟩ := ih hx'
      exact ⟨c, by simp [List.findSome?, hy, hc]⟩

/-- The rejection that Promise.all reports is the error of one of the fetches that
failed, and there is one as soon as a fetch failed. -/
theorem firstRejection_spec (order : List Nat) (outcomes : List (Except JsError Json))
    (e : JsError) (hfail : Except.error e ∈ outcomes) :
    ∃ e', firstRejection order outcomes = some e' ∧ Except.error e' ∈ outcomes := by
  unfold firstRejection
  cases h1 : order.findSome? (fun i =>
      match outcomes.get? i with
      | some (.error e) => some e
      | _ => none) with
  | some e' =>
    refine ⟨e', rfl, ?_⟩
    obtain ⟨i, _, hi⟩ := findSome_mem _ _ _ h1
    have hi' : (match outcomes.get? i with
      | some (.error e) => some e
      | _ => none) = some e' := hi
    cases hg : outcomes.get? i with
    | none =>
      rw [hg] at hi'
      simp at hi'
    | some o =>
      cases o with
      | ok v =>
        rw [hg] at hi'
        simp at hi'
      | error e2 =>
        rw [hg] at hi'
        simp only [Option.some.injEq] at hi'
        rw [← hi']
        exact List.get?_mem hg
  | none =>
    obtain ⟨c, hc⟩ := findSome_isSome (fun o : Except JsError Json =>
      match o with
      | .error e => some e
      | .ok _ => none) outcomes (.error e) e hfail rfl
    refine ⟨c, hc, ?_⟩
    obtain ⟨o, ho, hfo⟩ := findSome_mem _ _ _ hc
    cases o with
    | ok v => simp at hfo
    | error e2 =>
      simp only [Option.some.injEq] at hfo
      rw [← hfo]
      exact ho

theorem promiseAll_rejects (order : List Nat) (outcomes : List (Except JsError Json))
    (e : JsError) (hfail : Except.error e ∈ outcomes)
    (hsame : ∀ e', Except.error e' ∈ outcomes → e' = e) :
    promiseAll order outcomes = .error e := by
  obtain ⟨e', h1, h2⟩ := firstRejection_spec order outcomes e hfail
  unfold promiseAll
  rw [h1, hsame e' h2]

theorem mem_outcomes {fetches : List Fetched} {e : JsError} :
    Except.error e ∈ fetches.map Prod.snd ↔ ∃ f ∈ fetches, f.2 = .error e := by
  simp [List.mem_map]

theorem stopRotation_container (a : App) : (stopRotation a).container = a.container := by
  unfold stopRotation
  cases a.rotationTimer with
  | none => rfl
  | some id => by_cases h : id = 0 <;> simp [h]

/-- C15: for each page module that fetches, when one of its parallel fetches fails
with an error e (and every fetch that fails fails with e, as when exactly one
fails), the whole render rejects with e and nothing but the page header that
renderMovies and renderSeries append before fetching has been added to the
container: no hero and no movie row, whatever the other fetches returned.  The
exception is renderHome when the message of e contains API key: it replaces the
content of the container by the instructional panel and resolves. -/
theorem page_rejects_on_failed_fetch (apiKey : String) (net : Network) (order : List Nat)
    (a : App) (e : JsError) :
    ((∃ f ∈ renderMovies.fetches apiKey net, f.2 = .error e) →
      (∀ f ∈ renderMovies.fetches apiKey net, ∀ e', f.2 = .error e' → e' = e) →
      ∃ a', renderMovies apiKey net order a = some (a', .error e) ∧
        a'.container = a.container ++ [.pageHeader "Movies"]) ∧
    ((∃ f ∈ renderSeries.fetches apiKey net, f.2 = .error e) →
      (∀ f ∈ renderSeries.fetches apiKey net, ∀ e', f.2 = .error e' → e' = e) →
      ∃ a', renderSeries apiKey net order a = some (a', .error e) ∧
        a'.container = a.container ++ [.pageHeader "TV Series"]) ∧
    ((∃ f ∈ renderHome.fetches apiKey net, f.2 = .error e) →
      (∀ f ∈ renderHome.fetches apiKey net, ∀ e', f.2 = .error e' → e' = e) →
      (mentionsApiKey e = false →
        ∃ a', renderHome apiKey net order a = some (a', .error e) ∧
          a'.container = a.container) ∧
      (mentionsApiKey e = true →
        ∃ a', renderHome apiKey net order a = some (a', .ok ()) ∧
          a'.container = [.apiKeyPanel])) := by
  refine ⟨?_, ?_, ?_⟩
  · intro hfail hsame
    have hp := promiseAll_rejects order ((renderMovies.fetches apiKey net).map Prod.snd) e
      (mem_outcomes.mpr hfail)
      (fun e' he' => by
        obtain ⟨f, hf, hfe⟩ := mem_outcomes.mp he'
        exact hsame f hf e' hfe)
    refine ⟨(renderMovies.start apiKey net a).1, ?_, rfl⟩
    simp only [renderMovies, renderMovies.resume, renderMovies.start, issue, hp]
  · intro hfail hsame
    have hp := promiseAll_rejects order ((renderSeries.fetches apiKey net).map Prod.snd) e
      (mem_outcomes.mpr hfail)
      (fun e' he' => by
        obtain ⟨f, hf, hfe⟩ := mem_outcomes.mp he'
        exact hsame f hf e' hfe)
    refine ⟨(renderSeries.start apiKey net a).1, ?_, rfl⟩
    simp only [renderSeries, renderSeries.resume, renderSeries.start, issue, hp]
  · intro hfail hsame
    have hp := promiseAll_rejects order ((renderHome.fetches apiKey net).map Prod.snd) e
      (mem_outcomes.mpr hfail)
      (fun e' he' => by
        obtain ⟨f, hf, hfe⟩ := mem_outcomes.mp he'
        exact hsame f hf e' hfe)
    constructor
    · intro hm
      refine ⟨(renderHome.start apiKey net a).1, ?_, ?_⟩
      · simp only [renderHome, renderHome.resume, renderHome.start, issue, hp,
          renderHome.onError, hm, Bool.false_eq_true, if_false]
      · simp only [renderHome.start, issue, destroyHero]
        exact stopRotation_container a
    · intro hm
      refine ⟨{ (renderHome.start apiKey net a).1 with container := [.apiKeyPanel] }, ?_, rfl⟩
      simp only [renderHome, renderHome.resume, renderHome.start, issue, hp,
        renderHome.onError, hm, if_true]

/-- Witness for C15: with the placeholder credential every fetch fails with the
configuration error; renderMovies rejects with it after its header, and
renderHome shows the instructional panel and resolves. -/
theorem page_rejects_on_failed_fetch_witness :
    (∃ a', renderMovies PLACEHOLDER_API_KEY sampleNetwork [] (initialApp emptyStore)
        = some (a', .error (.error API_KEY_ERROR)) ∧
      a'.container = (initialApp emptyStore).container ++ [.pageHeader "Movies"]) ∧
    (∃ a', renderHome PLACEHOLDER_API_KEY sampleNetwork [] (initialApp emptyStore)
        = some (a', .ok ()) ∧
      a'.container = [.apiKeyPanel]) :=
  ⟨(page_rejects_on_failed_fetch PLACEHOLDER_API_KEY sampleNetwork [] (initialApp emptyStore)
      (.error API_KEY_ERROR)).1
      ⟨_, List.mem_cons_self _ _, rfl⟩
      (fun f hf e' he' => by
        simp only [renderMovies.fetches, List.mem_cons, List.mem_singleton, List.mem_nil_iff,
          or_false] at hf
        rcases hf with h | h | h | h <;> subst h <;> cases he' <;> rfl),
   ((page_rejects_on_failed_fetch PLACEHOLDER_API_KEY sampleNetwork [] (initialApp emptyStore)
      (.error API_KEY_ERROR)).2.2
      ⟨_, List.mem_cons_self _ _, rfl⟩
      (fun f hf e' he' => by
        simp only [renderHome.fetches, List.mem_cons, List.mem_singleton, List.mem_nil_iff,
          or_false] at hf
        rcases hf with h | h | h | h | h | h <;> subst h <;> cases he' <;> rfl)).2
      (by decide)⟩

/-! ## Hero rotation -/

theorem stopRotation_hero (a : App) :
    (stopRotation a).heroItems = a.heroItems ∧ (stopRotation a).currentIndex = a.currentIndex := by
  unfold stopRotation
  cases a.rotationTimer with
  | none => exact ⟨rfl, rfl⟩
  | some id => by_cases h : id = 0 <;> simp [h]

theorem startRotation_hero (a : App) :
    (startRotation a).heroItems = a.heroItems ∧
    (startRotation a).currentIndex = a.currentIndex ∧
    ∃ id, id ≠ 0 ∧ (startRotation a).rotationTimer = some id ∧
      id ∈ (startRotation a).intervals := by
  refine ⟨(stopRotation_hero a).1, (stopRotation_hero a).2,
    (stopRotation a).lastTimer + 1, Nat.succ_ne_zero _, rfl, ?_⟩
  simp [startRotation]

theorem goToSlide_skip (b : App) (j : Nat) (h : b.currentIndex = some j) :
    goToSlide (some j) b = (b, .ok ()) := by
  have hs : (b.currentIndex == some j || decide (j ≥ b.heroItems.length)) = true := by
    rw [h]
    simp
  simp only [goToSlide, hs, if_true]

theorem goToSlide_move (b : App) (j : Nat) (hne : b.currentIndex ≠ some j)
    (hlt : j < b.heroItems.length) (id : Nat) (hid : id ≠ 0)
    (htimer : b.rotationTimer = some id) (hmem : id ∈ b.intervals) :
    (goToSlide (some j) b).1.heroItems = b.heroItems ∧
    (goToSlide (some j) b).1.currentIndex = some j ∧
    ∃ id', id' ≠ 0 ∧ (goToSlide (some j) b).1.rotationTimer = some id' ∧
      id' ∈ (goToSlide (some j) b).1.intervals := by
  have h1 : (b.currentIndex == some j) = false := beq_eq_false_iff_ne.mpr hne
  have h2 : decide (j ≥ b.heroItems.length) = false := decide_eq_false (by omega)
  have hs : (b.currentIndex == some j || decide (j ≥ b.heroItems.length)) = false := by
    rw [h1, h2]
    rfl
  cases b with
  | mk store currentRoute locationHash appPresent container currentIndex rotationTimer
      heroItems lastTimer intervals pending requests rendered =>
    simp only at htimer hmem hs
    subst htimer
    simp only [goToSlide, hs, Bool.false_eq_true, if_false]
    cases updateHeroContent _ (some j) with
    | error e => exact ⟨rfl, rfl, id, hid, rfl, hmem⟩
    | ok u =>
      simp only [hid, if_false]
      obtain ⟨k1, k2, k3⟩ := startRotation_hero (stopRotation
        { store := store, currentRoute := currentRoute, locationHash := locationHash,
          appPresent := appPresent, container := container, currentIndex := some j,
          rotationTimer := some id, heroItems := heroItems, lastTimer := lastTimer,
          intervals := intervals, pending := pending, requests := requests,
          rendered := rendered })
      exact ⟨k1.trans (stopRotation_hero _).1, k2.trans (stopRotation_hero _).2, k3⟩

theorem heroRotating_tick {items : List CatalogItem} {b : App} {c : Nat}
    (h : HeroRotating items b c) :
    HeroRotating items (rotationTick b) ((c + 1) % (items.take 5).length) := by
  obtain ⟨hitems, hidx, hc, id, hid, htimer, hmem⟩ := h
  have hlen : b.heroItems.length = (items.take 5).length := by rw [hitems]
  have hn : (items.take 5).length ≠ 0 := by omega
  have hj : (c + 1) % (items.take 5).length < (items.take 5).length :=
    Nat.mod_lt _ (Nat.pos_of_ne_zero hn)
  have hcontains : b.intervals.contains id = true := by simpa using hmem
  have htick : rotationTick b = (goToSlide (some ((c + 1) % (items.take 5).length)) b).1 := by
    simp only [rotationTick, htimer, hcontains, if_true, nextSlide, hidx, hlen, hn, if_false]
  rw [htick]
  by_cases hsame : c = (c + 1) % (items.take 5).length
  · rw [goToSlide_skip b _ (hidx.trans (congrArg some hsame)), ← hsame]
    exact ⟨hitems, hidx, hc, id, hid, htimer, hmem⟩
  · have hne : b.currentIndex ≠ some ((c + 1) % (items.take 5).length) := by
      rw [hidx]
      intro he
      exact hsame (Option.some.inj he)
    obtain ⟨k1, k2, k3⟩ := goToSlide_move b ((c + 1) % (items.take 5).length) hne
      (by omega) id hid htimer hmem
    exact ⟨k1.trans hitems, k2, hj, k3⟩

theorem heroRotating_ticks {items : List CatalogItem} (k : Nat) :
    ∀ {b : App} {c : Nat}, HeroRotating items b c →
      HeroRotating items (rotationTicks k b) ((c + k) % (items.take 5).length) := by
  induction k with
  | zero =>
    intro b c h
    have hc : (c + 0) % (items.take 5).length = c := Nat.mod_eq_of_lt h.2.2.1
    rw [hc]
    exact h
  | succ k ih =>
    intro b c h
    have h1 := ih (heroRotating_tick h)
    have he : ((c + 1) % (items.take 5).length + k) % (items.take 5).length
        = (c + (k + 1)) % (items.take 5).length := by
      rw [Nat.mod_add_mod]
      congr 1
      omega
    rw [he] at h1
    exact h1

/-- C16: a hero built by createHero from a non-empty list keeps the first five items
of the list, n = min(5, length) of them, starts at slide 0 with the rotation
timer running, and after k firings of the rotation timer (and no other event)
the current slide index is k mod n; the index is below n throughout, and from
the last slide the next firing leads to the first. -/
theorem hero_rotation_cycles (items : List CatalogItem) (a a1 : App) (hero : Node)
    (hne : items ≠ []) (hbuilt : createHero items a = (a1, .ok hero)) :
    a1.heroItems = items.take 5 ∧ hero = .hero (items.take 5) ∧
    a1.heroItems.length = min 5 items.length ∧
    a1.currentIndex = some 0 ∧
    (∃ id, a1.rotationTimer = some id ∧ id ∈ a1.intervals) ∧
    ∀ k, (rotationTicks k a1).currentIndex = some (k % min 5 items.length) ∧
      k % min 5 items.length < min 5 items.length ∧
      (rotationTicks k a1).heroItems = items.take 5 ∧
      ((rotationTicks k a1).currentIndex = some (min 5 items.length - 1) →
        (rotationTicks (k + 1) a1).currentIndex = some 0) := by
  have hlen : (items.take 5).length = min 5 items.length := List.length_take 5 items
  have hpos : 0 < min 5 items.length := by
    cases items with
    | nil => exact absurd rfl hne
    | cons x xs => simp
  have hstate : a1 = startRotation { a with heroItems := items.take 5, currentIndex := some 0 } ∧
      hero = .hero (items.take 5) := by
    unfold createHero at hbuilt
    cases hu : updateHeroContent { a with heroItems := items.take 5, currentIndex := some 0 }
        (some 0) with
    | error e => simp [hu] at hbuilt
    | ok u =>
      simp only [hu, Prod.mk.injEq, Except.ok.injEq] at hbuilt
      exact ⟨hbuilt.1.symm, hbuilt.2.symm⟩
  obtain ⟨h1, h2, h3⟩ := startRotation_hero
    { a with heroItems := items.take 5, currentIndex := some 0 }
  have hinv : HeroRotating items a1 0 := by
    rw [hstate.1]
    exact ⟨h1, h2, by omega, h3⟩
  have hticks : ∀ k, (rotationTicks k a1).currentIndex = some (k % min 5 items.length) ∧
      (rotationTicks k a1).heroItems = items.take 5 := by
    intro k
    have hk := heroRotating_ticks k hinv
    rw [Nat.zero_add, hlen] at hk
    exact ⟨hk.2.1, hk.1⟩
  refine ⟨hinv.1, hstate.2, by rw [hinv.1, hlen], hinv.2.1, ?_, ?_⟩
  · obtain ⟨id, _, ht, hm⟩ := hinv.2.2.2
    exact ⟨id, ht, hm⟩
  · intro k
    refine ⟨(hticks k).1, Nat.mod_lt _ hpos, (hticks k).2, ?_⟩
    intro hlast
    rw [(hticks k).1] at hlast
    have hk : k % min 5 items.length = min 5 items.length - 1 := Option.some.inj hlast
    rw [(hticks (k + 1)).1, Nat.add_mod, hk]
    have h1le : 1 % min 5 items.length ≤ 1 := Nat.mod_le _ _
    by_cases hone : min 5 items.length = 1
    · simp [hone]
    · have h1 : 1 % min 5 items.length = 1 := Nat.mod_eq_of_lt (by omega)
      rw [h1]
      have : min 5 items.length - 1 + 1 = min 5 items.length := by omega
      rw [this, Nat.mod_self]

/-- Witness for C16: a hero built from seven items on the empty store. -/
theorem hero_rotation_cycles_witness :
    (rotationTicks 7 (createHero [sampleCatalogItem, otherCatalogItem, sampleCatalogItem,
        otherCatalogItem, sampleCatalogItem, otherCatalogItem, sampleCatalogItem]
        (initialApp emptyStore)).1).currentIndex
      = some (7 % min 5 [sampleCatalogItem, otherCatalogItem, sampleCatalogItem,
        otherCatalogItem, sampleCatalogItem, otherCatalogItem, sampleCatalogItem].length) :=
  ((hero_rotation_cycles [sampleCatalogItem, otherCatalogItem, sampleCatalogItem,
      otherCatalogItem, sampleCatalogItem, otherCatalogItem, sampleCatalogItem]
      (initialApp emptyStore) _ _ (by simp) rfl).2.2.2.2.2 7).1

/-! ## Router: termination -/

/-- C28: for every path, navigateTo terminates and calls itself at most once.  The
fuel of the model counts the nested activations of navigateTo: with fuel 2 (the
call and one call by itself) every call returns, and more fuel changes nothing.
A call that needs the second activation is one whose path is not found in the
table; that activation is the call with the home route, which is registered.  A
call with a path found in the table, such as the four registered ones, returns
with fuel 1, that is without calling navigateTo again; afterwards
getCurrentRoute() is that path and renderPage has been called exactly once more,
with the handler of that path.  The empty path is taken for the home route
without another call. -/
theorem navigateTo_terminates (apiKey : String) (net : Network) (path : String)
    (addToHistory : Bool) (a : App) :
    (∃ a', navigateTo apiKey net 2 path addToHistory a = some a') ∧
    (∀ fuel, navigateTo apiKey net (fuel + 2) path addToHistory a
      = navigateTo apiKey net 2 path addToHistory a) ∧
    (path ≠ "" → routes path = none →
      navigateTo apiKey net 1 path addToHistory a = none ∧
      navigateTo apiKey net 2 path addToHistory a = navigateTo apiKey net 1 "/" true a) ∧
    (∀ handler, routes path = some handler →
      ∃ a', navigateTo apiKey net 1 path addToHistory a = some a' ∧
        getCurrentRoute a' = path ∧ a'.rendered = a.rendered ++ [handler]) ∧
    (routes "/" = some .renderHome ∧ routes "/movies" = some .renderMovies ∧
      routes "/series" = some .renderSeries ∧ routes "/watchlist" = some .renderWatchlist) ∧
    (path = "" → navigateTo apiKey net 1 path addToHistory a
      = navigateTo apiKey net 1 "/" addToHistory a) := by
  have hhome : routes "/" = some .renderHome := by decide
  refine ⟨?_, ?_, ?_, ?_, ⟨hhome, by decide, by decide, by decide⟩, ?_⟩
  · by_cases hne : path = ""
    · exact ⟨_, by simp only [navigateTo, hne, if_true, hhome]; rfl⟩
    · cases hr : routes path with
      | none => exact ⟨_, by simp only [navigateTo, hne, if_false, hr, if_true, hhome]; rfl⟩
      | some handler => exact ⟨_, by simp only [navigateTo, hne, if_false, hr]; rfl⟩
  · intro fuel
    by_cases hne : path = ""
    · simp only [navigateTo, hne, if_true, hhome]
    · cases hr : routes path with
      | none => simp only [navigateTo, hne, if_false, hr, if_true, hhome]; rfl
      | some handler => simp only [navigateTo, hne, if_false, hr]
  · intro hne hr
    constructor
    · simp only [navigateTo, hne, if_false, hr]
    · simp only [navigateTo, hne, if_false, hr]
  · intro handler hr
    have hne : path ≠ "" := by
      intro h
      have h0 : routes "" = none := by decide
      rw [h, h0] at hr
      cases hr
    have h1 : navigateTo apiKey net 1 path addToHistory a
        = some (renderPage apiKey net handler
            { a with currentRoute := path,
                     locationHash := if addToHistory then path else a.locationHash }) := by
      simp only [navigateTo, hne, if_false, hr]
    exact ⟨_, h1, (renderPage_route apiKey net _ _).1, (renderPage_route apiKey net _ _).2⟩
  · intro hne
    rw [hne]
    simp only [navigateTo]
    rfl

/-- Witness for C28: the call with the registered path of the series page, and a
call with a path that is not in the table. -/
theorem navigateTo_terminates_witness :
    routes "/series" = some .renderSeries ∧
    (∃ a', navigateTo "k" catalogNetwork 1 "/series" true (initialApp emptyStore) = some a' ∧
      getCurrentRoute a' = "/series" ∧
      a'.rendered = (initialApp emptyStore).rendered ++ [.renderSeries]) ∧
    routes "/nowhere" = none ∧
    navigateTo "k" catalogNetwork 1 "/nowhere" true (initialApp emptyStore) = none ∧
    navigateTo "k" catalogNetwork 2 "/nowhere" true (initialApp emptyStore)
      = navigateTo "k" catalogNetwork 1 "/" true (initialApp emptyStore) :=
  ⟨by decide,
   (navigateTo_terminates "k" catalogNetwork "/series" true (initialApp emptyStore)).2.2.2.1
     .renderSeries (by decide),
   by decide,
   (navigateTo_terminates "k" catalogNetwork "/nowhere" true (initialApp emptyStore)).2.2.1
     (by decide) (by decide)⟩

/-! ## Watchlist: the count after a toggle -/

theorem filter_not_eq_self_of_none {p : Obj → Bool} {es : List Obj}
    (h : ∀ e ∈ es, p e = false) : es.filter (fun e => !p e) = es := by
  rw [List.filter_eq_self]
  intro e he
  simp [h e he]

theorem strictEq_eq_of_true {a b : JsVal} (h : strictEq a b = true) : a = b := by
  cases a with
  | none => cases b with
    | none => rfl
    | some y => simp [strictEq] at h
  | some x =>
    cases x with
    | prim p =>
      cases b with
      | none => simp [strictEq] at h
      | some y =>
        cases y with
        | prim q =>
          simp only [strictEq, decide_eq_true_eq] at h
          rw [h]
        | arr _ => simp [strictEq] at h
        | obj _ => simp [strictEq] at h
    | arr _ => simp [strictEq] at h
    | obj _ => simp [strictEq] at h

/-- An entry that the callback matches carries the pair that was asked for. -/
theorem entryKey_of_entryMatches {id mt : JsVal} {e : Obj}
    (h : entryMatches id mt e = true) : entryKey e = (id, mt) := by
  simp only [entryMatches, Bool.and_eq_true] at h
  simp only [entryKey, strictEq_eq_of_true h.1, strictEq_eq_of_true h.2]

/-- In a duplicate-free list exactly one entry goes when the entries that match a
pair that is present are filtered out. -/
theorem length_filter_not_of_duplicateFree (id mt : JsVal)
    {es : List Obj} (hdup : DuplicateFree es)
    (hany : es.any (entryMatches id mt) = true) :
    (es.filter (fun e => !entryMatches id mt e)).length + 1 = es.length := by
  induction es with
  | nil => simp at hany
  | cons e es ih =>
    have hpw := List.pairwise_cons.mp hdup
    cases hm : entryMatches id mt e with
    | true =>
      have hkey : entryKey e = (id, mt) := entryKey_of_entryMatches hm
      have hrest : ∀ x ∈ es, entryMatches id mt x = false := by
        intro x hx
        cases hx' : entryMatches id mt x with
        | false => rfl
        | true => exact absurd (hkey.trans (entryKey_of_entryMatches hx').symm) (hpw.1 x hx)
      rw [List.filter_cons]
      simp only [hm, Bool.not_true, Bool.false_eq_true, if_false, List.length_cons]
      rw [filter_not_eq_self_of_none hrest]
    | false =>
      have hany' : es.any (entryMatches id mt) = true := by
        simpa [List.any_cons, hm] using hany
      rw [List.filter_cons]
      simp only [hm, Bool.not_false, if_true, List.length_cons]
      rw [ih hpw.2 hany']

theorem getWatchlistCount_eq {st : Store} {es : List Obj} (hst : HoldsWatchlist st es) :
    getWatchlistCount st = .ok (some (.prim (.num es.length))) := by
  unfold getWatchlistCount
  rw [hst]
  simp

/-- C27: on a store that holds a duplicate-free watchlist and whose writes succeed,
toggleWatchlist of any item changes getWatchlistCount() by exactly one: the
count afterwards is one more when toggleWatchlist returns true and one less when
it returns false.  In the first case the stored list is the old one with one
entry put in front; in the second it is the old one without the entries the
callback matches.  An entry whose (id, media_type) pair differs from that of
the item is not matched, so every such entry is kept, unchanged and in the same
relative order. -/
theorem toggleWatchlist_changes_count_by_one (st : Store) (es : List Obj) (item : Obj)
    (now : String) (hst : HoldsWatchlist st es) (hdup : DuplicateFree es)
    (hw : WritesSucceed st) :
    ∃ added st' es',
      toggleWatchlist st item now = .ok (added, st') ∧
      HoldsWatchlist st' es' ∧
      getWatchlistCount st = .ok (some (.prim (.num es.length))) ∧
      getWatchlistCount st' = .ok (some (.prim (.num es'.length))) ∧
      (added = true →
        es' = setProp item "addedAt" (.prim (.str now)) :: es ∧
        es'.length = es.length + 1) ∧
      (added = false →
        es' = es.filter (fun e =>
          !entryMatches (getField item "id") (getField item "media_type") e) ∧
        es'.length + 1 = es.length) ∧
      (∀ e, entryKey e ≠ entryKey item →
        entryMatches (getField item "id") (getField item "media_type") e = false) := by
  have hother : ∀ e, entryKey e ≠ entryKey item →
      entryMatches (getField item "id") (getField item "media_type") e = false := by
    intro e hne
    cases hm : entryMatches (getField item "id") (getField item "media_type") e with
    | false => rfl
    | true => exact absurd (entryKey_of_entryMatches hm) hne
  cases hany : es.any (entryMatches (getField item "id") (getField item "media_type")) with
  | true =>
    have hacc := hw STORAGE_KEYS.WATCHLIST (.json (.arr ((es.filter (fun e =>
      !entryMatches (getField item "id") (getField item "media_type") e)).map .obj)))
    have hheld := (holdsWatchlist_saveJSON st _ hacc).2
    refine ⟨false, (saveJSON st STORAGE_KEYS.WATCHLIST (.arr ((es.filter (fun e =>
      !entryMatches (getField item "id") (getField item "media_type") e)).map .obj))).2,
      es.filter (fun e =>
        !entryMatches (getField item "id") (getField item "media_type") e),
      ?_, hheld, getWatchlistCount_eq hst, getWatchlistCount_eq hheld, ?_, ?_, hother⟩
    · simp only [toggleWatchlist, isInWatchlist_eq hst, hany, removeFromWatchlist_eq hst]
    · intro h
      cases h
    · intro _
      exact ⟨rfl, length_filter_not_of_duplicateFree _ _ hdup hany⟩
  | false =>
    have hacc := hw STORAGE_KEYS.WATCHLIST (.json (.arr
      ((setProp item "addedAt" (.prim (.str now)) :: es).map .obj)))
    have hheld := (holdsWatchlist_saveJSON st _ hacc).2
    refine ⟨true, (saveJSON st STORAGE_KEYS.WATCHLIST (.arr
      ((setProp item "addedAt" (.prim (.str now)) :: es).map .obj))).2,
      setProp item "addedAt" (.prim (.str now)) :: es,
      ?_, hheld, getWatchlistCount_eq hst, getWatchlistCount_eq hheld, ?_, ?_, hother⟩
    · simp only [toggleWatchlist, isInWatchlist_eq hst, hany, addToWatchlist_eq hst]
      simp
    · intro _
      exact ⟨rfl, rfl⟩
    · intro h
      cases h

/-- Witness for C27: toggling the sample item on a store that holds another entry. -/
theorem toggleWatchlist_changes_count_by_one_witness :
    ∃ added st' es',
      toggleWatchlist (storeWithWatchlist (.arr [.obj otherCatalogItem.1])) sampleItem sampleNow
        = .ok (added, st') ∧
      HoldsWatchlist st' es' ∧
      getWatchlistCount (storeWithWatchlist (.arr [.obj otherCatalogItem.1]))
        = .ok (some (.prim (.num ([otherCatalogItem.1] : List Obj).length))) ∧
      getWatchlistCount st' = .ok (some (.prim (.num es'.length))) ∧
      (added = true →
        es' = setProp sampleItem "addedAt" (.prim (.str sampleNow)) :: [otherCatalogItem.1] ∧
        es'.length = ([otherCatalogItem.1] : List Obj).length + 1) ∧
      (added = false →
        es' = ([otherCatalogItem.1] : List Obj).filter (fun e =>
          !entryMatches (getField sampleItem "id") (getField sampleItem "media_type") e) ∧
        es'.length + 1 = ([otherCatalogItem.1] : List Obj).length) ∧
      (∀ e, entryKey e ≠ entryKey sampleItem →
        entryMatches (getField sampleItem "id") (getField sampleItem "media_type") e = false) :=
  toggleWatchlist_changes_count_by_one (storeWithWatchlist (.arr [.obj otherCatalogItem.1]))
    [otherCatalogItem.1] sampleItem sampleNow rfl (List.pairwise_singleton _ _)
    (fun _ _ => rfl)

/-! ## Search panel -/

/-- C21: when the search is answered with a body whose result list holds the items
items and is not empty, handleSearch leaves the panel active with exactly the
result elements of the first 8 items of the list whose media_type is not person,
in the order of the list (all of them when there are fewer than 8): never more
than 8 elements, and never one of a person.  Whatever the search settles to, a
panel that shows result elements shows at most 8 and none of a person. -/
theorem search_panel_renders_first_eight (apiKey : String) (net : Network) (query : String)
    (panel : SearchPanel) (data : Json) (items : List CatalogItem)
    (hfetch : (search apiKey net (some query) (some (.num 1))).2 = .ok data)
    (hdata : listPayload data = some items) (hne : items ≠ []) :
    (∃ shown,
      handleSearch apiKey net query (some panel)
        = some (some { active := true,
                       content := .results (shown.map createSearchResultItem) },
                (search apiKey net (some query) (some (.num 1))).1) ∧
      shown = (items.filter (fun item => !isPerson item)).take 8 ∧
      shown.length ≤ 8 ∧
      (∀ item ∈ shown, isPerson item = false) ∧
      shown.Sublist items ∧
      ((items.filter (fun item => !isPerson item)).length ≤ 8 →
        shown = items.filter (fun item => !isPerson item))) ∧
    (∀ (outcome : Except JsError Json) (p p' : SearchPanel) (elements : List SearchResult),
      handleSearch.resume outcome p = some (some p') → p'.content = .results elements →
      elements.length ≤ 8 ∧ ∀ r ∈ elements, isPerson r.item = false) := by
  have hnoperson : ∀ (l : List CatalogItem),
      ∀ item ∈ (l.filter (fun item => !isPerson item)).take 8, isPerson item = false := by
    intro l item hitem
    have hmem := List.mem_of_mem_take hitem
    simpa using (List.mem_filter.mp hmem).2
  have hlen : items.length ≠ 0 := by
    intro h
    exact hne (List.length_eq_zero.mp h)
  refine ⟨⟨(items.filter (fun item => !isPerson item)).take 8, ?_, rfl, ?_, hnoperson items,
    ?_, ?_⟩, ?_⟩
  · simp only [handleSearch, handleSearch.start, handleSearch.resume, hfetch, hdata, hlen,
      if_false, renderSearchResults]
  · exact (List.length_take_le 8 _)
  · exact (List.take_sublist 8 _).trans (List.filter_sublist _)
  · intro h
    exact List.take_of_length_le h
  · intro outcome p p' elements hres hcontent
    cases outcome with
    | error e =>
      simp only [handleSearch.resume, Option.some.injEq] at hres
      rw [← hres] at hcontent
      cases hcontent
    | ok body =>
      simp only [handleSearch.resume] at hres
      cases hl : listPayload body with
      | none => simp [hl] at hres
      | some results =>
        by_cases h0 : results.length = 0
        · simp only [hl, h0, if_true, Option.some.injEq] at hres
          rw [← hres] at hcontent
          cases hcontent
        · simp only [hl, h0, if_false, renderSearchResults, Option.some.injEq] at hres
          rw [← hres] at hcontent
          simp only [PanelContent.results.injEq] at hcontent
          rw [← hcontent]
          constructor
          · rw [List.length_map]
            exact List.length_take_le 8 _
          · intro r hr
            obtain ⟨item, hitem, hri⟩ := List.mem_map.mp hr
            rw [← hri]
            exact hnoperson results item hitem

/-- Witness for C21: a search answered with a person between two catalog items. -/
theorem search_panel_renders_first_eight_witness :
    (search "k" searchNetwork (some "fight") (some (.num 1))).2
      = .ok (.obj [("page", .prim (.num 1)),
          ("results", .arr [.obj sampleItem, .obj samplePerson.1, .obj otherCatalogItem.1])]) ∧
    (∃ shown,
      handleSearch "k" searchNetwork "fight" (some hiddenPanel)
        = some (some { active := true,
                       content := .results (shown.map createSearchResultItem) },
                (search "k" searchNetwork (some "fight") (some (.num 1))).1) ∧
      shown = ([sampleCatalogItem, samplePerson, otherCatalogItem].filter
        (fun item => !isPerson item)).take 8 ∧
      shown.length ≤ 8 ∧
      (∀ item ∈ shown, isPerson item = false) ∧
      shown.Sublist [sampleCatalogItem, samplePerson, otherCatalogItem] ∧
      (([sampleCatalogItem, samplePerson, otherCatalogItem].filter
          (fun item => !isPerson item)).length ≤ 8 →
        shown = [sampleCatalogItem, samplePerson, otherCatalogItem].filter
          (fun item => !isPerson item))) :=
  ⟨rfl,
   (search_panel_renders_first_eight "k" searchNetwork "fight" hiddenPanel
      (.obj [("page", .prim (.num 1)),
        ("results", .arr [.obj sampleItem, .obj samplePerson.1, .obj otherCatalogItem.1])])
      [sampleCatalogItem, samplePerson, otherCatalogItem] rfl rfl (by simp)).1⟩

/-! ## Utility functions: chunk -/

theorem ceilDiv_step (n size : Nat) (hs : 1 ≤ size) (hn : 1 ≤ n) :
    (n + size - 1) / size = (n - size + size - 1) / size + 1 := by
  have h1 : n + size - 1 = (n - 1) + size := by omega
  rw [h1, Nat.add_div_right _ (by omega : 0 < size)]
  by_cases hlt : n < size
  · have h2 : n - size + size - 1 = size - 1 := by omega
    rw [h2, Nat.div_eq_of_lt (by omega : n - 1 < size),
      Nat.div_eq_of_lt (by omega : size - 1 < size)]
  · have h2 : n - size + size - 1 = n - 1 := by omega
    rw [h2]

theorem slice_length {α : Type} (array : List α) (i size : Nat) :
    (slice array i (i + size)).length = min size (array.length - i) := by
  simp [slice]

/-- What the loop of chunk adds to the chunks built so far, started at index i with
enough fuel: lists that together make up the rest of the array. -/
theorem chunkLoop_spec {α : Type} (array : List α) (size : Nat) (hs : 1 ≤ size) :
    ∀ (fuel i : Nat) (chunks : List (List α)), array.length - i < fuel →
      ∃ cs, chunkLoop array size fuel i chunks = some (chunks ++ cs) ∧
        cs.flatten = array.drop i ∧
        cs.length = (array.length - i + size - 1) / size ∧
        (∀ c ∈ cs, 1 ≤ c.length ∧ c.length ≤ size) ∧
        (∀ c ∈ cs.dropLast, c.length = size) := by
  intro fuel
  induction fuel with
  | zero =>
    intro i chunks h
    omega
  | succ fuel ih =>
    intro i chunks hfuel
    by_cases hi : i < array.length
    · obtain ⟨cs, hrun, hflat, hlen, hbound, hfull⟩ :=
        ih (i + size) (chunks ++ [slice array i (i + size)]) (by omega)
      have hc := slice_length array i size
      refine ⟨slice array i (i + size) :: cs, ?_, ?_, ?_, ?_, ?_⟩
      · simp only [chunkLoop, hi, if_true, hrun, List.append_assoc, List.singleton_append]
      · rw [List.flatten_cons, hflat]
        simp only [slice, Nat.add_sub_cancel_left]
        rw [← List.drop_drop]
        exact List.take_append_drop size (array.drop i)
      · rw [List.length_cons, hlen]
        have h1 := ceilDiv_step (array.length - i) size hs (by omega)
        have h2 : array.length - (i + size) = array.length - i - size := by omega
        rw [h1, h2]
      · intro c hmem
        rcases List.mem_cons.mp hmem with h | h
        · rw [h, hc]
          omega
        · exact hbound c h
      · intro c hmem
        cases hcs : cs with
        | nil =>
          rw [hcs] at hmem
          simp at hmem
        | cons d ds =>
          rw [hcs, List.dropLast_cons₂] at hmem
          rcases List.mem_cons.mp hmem with h | h
          · have hpos : 0 < cs.length := by
              rw [hcs]
              simp
            rw [hlen] at hpos
            have hmore : i + size < array.length := by
              by_contra hcon
              have hz : array.length - (i + size) + size - 1 = size - 1 := by omega
              rw [hz, Nat.div_eq_of_lt (by omega : size - 1 < size)] at hpos
              omega
            rw [h, hc]
            omega
          · apply hfull
            rw [hcs]
            exact h
    · refine ⟨[], ?_, ?_, ?_, ?_, ?_⟩
      · simp only [chunkLoop, hi, if_false, List.append_nil]
      · rw [List.drop_eq_nil_of_le (by omega)]
        rfl
      · have hz : array.length - i + size - 1 = size - 1 := by omega
        rw [hz, Nat.div_eq_of_lt (by omega : size - 1 < size)]
        rfl
      · intro c hmem
        cases hmem
      · intro c hmem
        simp at hmem

/-- With size 0 the index never moves, so on an array that is not empty the loop
of chunk exhausts every fuel. -/
theorem chunkLoop_size_zero {α : Type} (array : List α) (hne : 0 < array.length) :
    ∀ (fuel : Nat) (chunks : List (List α)), chunkLoop array 0 fuel 0 chunks = none := by
  intro fuel
  induction fuel with
  | zero =>
    intro chunks
    rfl
  | succ fuel ih =>
    intro chunks
    simp only [chunkLoop, hne, if_true, Nat.add_zero]
    exact ih _

/-- More fuel does not change what the loop of chunk returns. -/
theorem chunkLoop_more_fuel {α : Type} (array : List α) (size : Nat) :
    ∀ (fuel i : Nat) (chunks r : List (List α)),
      chunkLoop array size fuel i chunks = some r →
      chunkLoop array size (fuel + 1) i chunks = some r := by
  intro fuel
  induction fuel with
  | zero =>
    intro i chunks r h
    simp [chunkLoop] at h
  | succ fuel ih =>
    intro i chunks r h
    by_cases hi : i < array.length
    · simp only [chunkLoop, hi, if_true] at h
      have h' := ih _ _ _ h
      rw [chunkLoop]
      simp only [hi, if_true]
      exact h'
    · simp only [chunkLoop, hi, if_false] at h
      rw [chunkLoop]
      simp only [hi, if_false]
      exact h

theorem chunkLoop_fuel_le {α : Type} (array : List α) (size : Nat) (fuel i : Nat)
    (chunks r : List (List α)) (h : chunkLoop array size fuel i chunks = some r) :
    ∀ k, chunkLoop array size (fuel + k) i chunks = some r := by
  intro k
  induction k with
  | zero => exact h
  | succ k ih => exact chunkLoop_more_fuel array size (fuel + k) i chunks r ih

/-- C24: for every array and every integer size that is at least 1, chunk(array,
size) terminates (any fuel above the length of the array is enough for the loop
to return, and the result is the same for all of them) and returns
ceil(length / size) chunks whose concatenation, in order, is the array; every
chunk but the last has exactly size elements, and every chunk, the last
included, has between 1 and size elements.  The array is the same after the
call. -/
theorem chunk_partitions {α : Type} (array : List α) (size : Nat) (hsize : 1 ≤ size) :
    ∃ chunks, (∀ fuel, array.length < fuel → chunk fuel array size = some (array, chunks)) ∧
      chunks.length = (array.length + size - 1) / size ∧
      chunks.flatten = array ∧
      (∀ c ∈ chunks.dropLast, c.length = size) ∧
      (∀ c ∈ chunks, 1 ≤ c.length ∧ c.length ≤ size) := by
  obtain ⟨cs, hrun, hflat, hlen, hbound, hfull⟩ :=
    chunkLoop_spec array size hsize (array.length + 1) 0 [] (by omega)
  refine ⟨cs, ?_, ?_, ?_, hfull, hbound⟩
  · intro fuel hfuel
    obtain ⟨k, hk⟩ : ∃ k, fuel = array.length + 1 + k := ⟨fuel - (array.length + 1), by omega⟩
    have h := chunkLoop_fuel_le array size (array.length + 1) 0 [] _ hrun k
    rw [← hk] at h
    simp only [chunk, h, List.nil_append]
  · rw [hlen, Nat.sub_zero]
  · rw [hflat, List.drop_zero]

/-- Witness for C24: seven elements in chunks of three. -/
theorem chunk_partitions_witness :
    chunk 8 [1, 2, 3, 4, 5, 6, 7] 3 = some ([1, 2, 3, 4, 5, 6, 7], [[1, 2, 3], [4, 5, 6], [7]]) ∧
    ∃ chunks,
      (∀ fuel, ([1, 2, 3, 4, 5, 6, 7] : List Nat).length < fuel →
        chunk fuel [1, 2, 3, 4, 5, 6, 7] 3 = some ([1, 2, 3, 4, 5, 6, 7], chunks)) ∧
      chunks.length = (([1, 2, 3, 4, 5, 6, 7] : List Nat).length + 3 - 1) / 3 ∧
      chunks.flatten = [1, 2, 3, 4, 5, 6, 7] ∧
      (∀ c ∈ chunks.dropLast, c.length = 3) ∧
      (∀ c ∈ chunks, 1 ≤ c.length ∧ c.length ≤ 3) :=
  ⟨by decide, chunk_partitions [1, 2, 3, 4, 5, 6, 7] 3 (by decide)⟩

/-! ## Utility functions: truncate -/

theorem substring_zero (s : CodeUnits) (n : Nat) : substring s 0 n = s.take n := by
  simp [substring]

theorem trimUnits_initial (s : CodeUnits) : trimUnits s <+: s.dropWhile isWhiteSpaceUnit := by
  have h := List.rdropWhile_prefix isWhiteSpaceUnit (s.dropWhile isWhiteSpaceUnit)
  simpa [trimUnits, List.rdropWhile] using h

theorem trimUnits_within (s : CodeUnits) : trimUnits s <:+: s :=
  (trimUnits_initial s).isInfix.trans (List.dropWhile_suffix isWhiteSpaceUnit).isInfix

theorem trimUnits_length_le (s : CodeUnits) : (trimUnits s).length ≤ s.length :=
  (trimUnits_within s).length_le

/-- C23, as it holds: truncate returns a missing text as it came and a text of at
most maxLength code units unchanged; a longer text gives the first maxLength
code units, trimmed of the whitespace at both ends, followed by the suffix.  The
length of that result is at most maxLength plus the length of the suffix, and
the result minus the suffix is a contiguous part of the first maxLength code
units of the text; it is a prefix of the text when the text does not begin with
whitespace. -/
theorem truncate_spec (t : CodeUnits) (maxLength : Nat) (suffix : CodeUnits) :
    truncate none (some maxLength) (some suffix) = none ∧
    (t.length ≤ maxLength → truncate (some t) (some maxLength) (some suffix) = some t) ∧
    (maxLength < t.length →
      ∃ body, truncate (some t) (some maxLength) (some suffix) = some (body ++ suffix) ∧
        body = trimUnits (t.take maxLength) ∧
        (body ++ suffix).length ≤ maxLength + suffix.length ∧
        body <:+: t.take maxLength ∧
        ((∀ u, t.head? = some u → isWhiteSpaceUnit u = false) → body <+: t)) := by
  refine ⟨rfl, ?_, ?_⟩
  · intro h
    simp [truncate, h]
  · intro h
    have hne : t ≠ [] := by
      intro h0
      rw [h0] at h
      simp at h
    refine ⟨trimUnits (t.take maxLength), ?_, rfl, ?_, trimUnits_within _, ?_⟩
    · simp only [truncate, Option.getD_some, hne, false_or, Nat.not_le.mpr h, if_false,
        substring_zero]
    · rw [List.length_append]
      have h1 := trimUnits_length_le (t.take maxLength)
      have h2 : (t.take maxLength).length ≤ maxLength := List.length_take_le _ _
      omega
    · intro hhead
      have hdrop : (t.take maxLength).dropWhile isWhiteSpaceUnit = t.take maxLength := by
        cases ht : t with
        | nil => simp
        | cons u rest =>
          cases maxLength with
          | zero => simp
          | succ n =>
            have hu : isWhiteSpaceUnit u = false := hhead u (by rw [ht]; rfl)
            simp [List.take_succ_cons, List.dropWhile_cons, hu]
      have h1 := trimUnits_initial (t.take maxLength)
      rw [hdrop] at h1
      exact h1.trans (List.take_prefix _ _)

/-- Witness for C23: a title cut after its fifth code unit, and a title that is
short enough. -/
theorem truncate_spec_witness :
    truncate (some (toCodeUnits "Hello world")) (some 5) (some (toCodeUnits "..."))
      = some (toCodeUnits "Hello...") ∧
    truncate (some (toCodeUnits "Up")) (some 5) (some (toCodeUnits "..."))
      = some (toCodeUnits "Up") ∧
    ∃ body, truncate (some (toCodeUnits "Hello world")) (some 5) (some (toCodeUnits "..."))
        = some (body ++ toCodeUnits "...") ∧
      body = trimUnits ((toCodeUnits "Hello world").take 5) ∧
      (body ++ toCodeUnits "...").length ≤ 5 + (toCodeUnits "...").length ∧
      body <:+: (toCodeUnits "Hello world").take 5 ∧
      ((∀ u, (toCodeUnits "Hello world").head? = some u → isWhiteSpaceUnit u = false) →
        body <+: toCodeUnits "Hello world") :=
  ⟨by decide,
   (truncate_spec (toCodeUnits "Up") 5 (toCodeUnits "...")).2.1 (by decide),
   (truncate_spec (toCodeUnits "Hello world") 5 (toCodeUnits "...")).2.2 (by decide)⟩

/-- C23, the counterexample: truncate('  hello world', 5) is hel followed by the
suffix, and hel is not a prefix of the text, which begins with two spaces: trim
removes whitespace at the front of the cut as well. -/
theorem truncate_counterexample :
    truncate (some (toCodeUnits "  hello world")) (some 5) none = some (toCodeUnits "hel...") ∧
    toCodeUnits "hel..." = toCodeUnits "hel" ++ toCodeUnits "..." ∧
    ¬ (toCodeUnits "hel" <+: toCodeUnits "  hello world") := by
  refine ⟨by decide, by decide, ?_⟩
  decide

/-! ## Utility functions: unique -/

theorem setHas_iff (seen : List Value) (value : Value) :
    setHas seen value = true ↔ value ∈ seen := by
  simp only [setHas, sameValueZero, List.any_eq_true, decide_eq_true_eq]
  constructor
  · rintro ⟨x, hx, hvx⟩
    rw [hvx]
    exact hx
  · intro h
    exact ⟨value, h, rfl⟩

theorem setHas_eq_false_iff (seen : List Value) (value : Value) :
    setHas seen value = false ↔ value ∉ seen := by
  rw [← setHas_iff, Bool.not_eq_true]

/-- What the filter of unique keeps of the elements that remain, when the reads
succeed and `f` names what they give. -/
theorem uniqueFilter_spec (read : Value → String → Except JsError Value) (name : String)
    (f : Value → Value) :
    ∀ (rest seen : List Value), (∀ item ∈ rest, read item name = .ok (f item)) →
      ∃ r, uniqueFilter read name seen rest = .ok r ∧
        r.Sublist rest ∧
        (∀ x ∈ r, f x ∉ seen) ∧
        (r.map f).Nodup ∧
        (∀ x ∈ rest, f x ∈ seen ∨ f x ∈ r.map f) ∧
        (∀ x ∈ r, rest.find? (fun y => decide (f y = f x)) = some x) ∧
        uniqueFilter read name seen r = .ok r := by
  intro rest
  induction rest with
  | nil =>
    intro seen _
    exact ⟨[], rfl, List.Sublist.slnil, by simp, by simp, by simp, by simp, rfl⟩
  | cons item rest ih =>
    intro seen hread
    have hitem : read item name = .ok (f item) := hread item (List.mem_cons_self _ _)
    have hrest : ∀ x ∈ rest, read x name = .ok (f x) :=
      fun x hx => hread x (List.mem_cons_of_mem _ hx)
    cases hhas : setHas seen (f item) with
    | true =>
      have hin : f item ∈ seen := (setHas_iff _ _).mp hhas
      obtain ⟨r, hrun, hsub, hnot, hnodup, hcover, hfirst, hidem⟩ := ih seen hrest
      refine ⟨r, ?_, hsub.trans (List.sublist_cons_self _ _), hnot, hnodup, ?_, ?_, hidem⟩
      · simp only [uniqueFilter, hitem, hhas, if_true, hrun]
      · intro x hx
        rcases List.mem_cons.mp hx with h | h
        · rw [h]
          exact Or.inl hin
        · exact hcover x h
      · intro x hx
        have hne : f item ≠ f x := by
          intro h
          rw [h] at hin
          exact hnot x hx hin
        rw [List.find?_cons]
        simp only [hne, decide_False]
        exact hfirst x hx
    | false =>
      have hout : f item ∉ seen := (setHas_eq_false_iff _ _).mp hhas
      have hadd : setAdd seen (f item) = seen ++ [f item] := by
        simp only [setAdd, hhas, Bool.false_eq_true, if_false]
      obtain ⟨r, hrun, hsub, hnot, hnodup, hcover, hfirst, hidem⟩ :=
        ih (seen ++ [f item]) hrest
      have hnot' : ∀ x ∈ r, f x ∉ seen ∧ f x ≠ f item := by
        intro x hx
        have h := hnot x hx
        simp only [List.mem_append, List.mem_singleton, not_or] at h
        exact h
      refine ⟨item :: r, ?_, hsub.cons₂ _, ?_, ?_, ?_, ?_, ?_⟩
      · simp only [uniqueFilter, hitem, hhas, Bool.false_eq_true, if_false, hadd, hrun]
      · intro x hx
        rcases List.mem_cons.mp hx with h | h
        · rw [h]
          exact hout
        · exact (hnot' x h).1
      · rw [List.map_cons, List.nodup_cons]
        refine ⟨?_, hnodup⟩
        intro hmem
        obtain ⟨x, hx, hfx⟩ := List.mem_map.mp hmem
        exact (hnot' x hx).2 hfx
      · intro x hx
        rcases List.mem_cons.mp hx with h | h
        · rw [h]
          exact Or.inr (List.mem_cons_self _ _)
        · rcases hcover x h with h1 | h1
          · rcases List.mem_append.mp h1 with h2 | h2
            · exact Or.inl h2
            · rw [List.mem_singleton.mp h2]
              exact Or.inr (List.mem_cons_self _ _)
          · exact Or.inr (List.mem_cons_of_mem _ h1)
      · intro x hx
        rcases List.mem_cons.mp hx with h | h
        · rw [h, List.find?_cons]
          simp
        · have hne : f item ≠ f x := fun hh => (hnot' x h).2 hh.symm
          rw [List.find?_cons]
          simp only [hne, decide_False]
          exact hfirst x h
      · simp only [uniqueFilter, hitem, hhas, Bool.false_eq_true, if_false, hadd, hidem]

/-- The set built from an array lists what the filter of unique keeps when every
element is its own key. -/
theorem foldl_setAdd (name : String) :
    ∀ (rest seen r : List Value),
      uniqueFilter (fun item _ => .ok item) name seen rest = .ok r →
      rest.foldl setAdd seen = seen ++ r := by
  intro rest
  induction rest with
  | nil =>
    intro seen r h
    simp only [uniqueFilter, Except.ok.injEq] at h
    rw [← h]
    simp
  | cons item rest ih =>
    intro seen r h
    cases hhas : setHas seen item with
    | true =>
      simp only [uniqueFilter, hhas, if_true] at h
      rw [List.foldl_cons]
      have hadd : setAdd seen item = seen := by simp only [setAdd, hhas, if_true]
      rw [hadd]
      exact ih seen r h
    | false =>
      have hadd : setAdd seen item = seen ++ [item] := by
        simp only [setAdd, hhas, Bool.false_eq_true, if_false]
      simp only [uniqueFilter, hhas, Bool.false_eq_true, if_false, hadd] at h
      cases hrec : uniqueFilter (fun item _ => .ok item) name (seen ++ [item]) rest with
      | error e => simp [hrec] at h
      | ok kept =>
        simp only [hrec, Except.ok.injEq] at h
        rw [List.foldl_cons, hadd, ih (seen ++ [item]) kept hrec, ← h]
        simp

/-- C25, as it holds.  With a truthy key (a non-empty string, a number other than
0) whose read succeeds on every element, unique(array, key) returns a sub-list of
the array, in the original order, in which no two elements have the same value of
item[key], in which every value of item[key] of the array occurs, and each of
whose elements is the first element of the array with its value of item[key];
applying unique again changes nothing.  With a key that is omitted or falsy (null,
the empty string, 0) the same holds with the element itself in the place of
item[key]. -/
theorem unique_keeps_first (read : Value → String → Except JsError Value)
    (array : List Value) (key : Arg) (f : Value → Value) :
    (truthy key = true → (∀ item ∈ array, read item (jsToString key) = .ok (f item)) →
      ∃ r, unique read array key = .ok r ∧
        r.Sublist array ∧
        (r.map f).Nodup ∧
        (∀ x ∈ array, f x ∈ r.map f) ∧
        (∀ x ∈ r, array.find? (fun y => decide (f y = f x)) = some x) ∧
        unique read r key = .ok r) ∧
    (truthy key = false →
      ∃ r, unique read array key = .ok r ∧
        r.Sublist array ∧
        r.Nodup ∧
        (∀ x ∈ array, x ∈ r) ∧
        (∀ x ∈ r, array.find? (fun y => decide (y = x)) = some x) ∧
        unique read r key = .ok r) := by
  constructor
  · intro hkey hread
    obtain ⟨r, hrun, hsub, _, hnodup, hcover, hfirst, hidem⟩ :=
      uniqueFilter_spec read (jsToString key) f array [] hread
    refine ⟨r, ?_, hsub, hnodup, ?_, hfirst, ?_⟩
    · simp only [unique, hkey, Bool.not_true, Bool.false_eq_true, if_false, hrun]
    · intro x hx
      rcases hcover x hx with h | h
      · cases h
      · exact h
    · simp only [unique, hkey, Bool.not_true, Bool.false_eq_true, if_false, hidem]
  · intro hkey
    obtain ⟨r, hrun, hsub, _, hnodup, hcover, hfirst, hidem⟩ :=
      uniqueFilter_spec (fun item _ => .ok item) "" (fun x => x) array []
        (fun _ _ => rfl)
    have h1 : newSet array = r := by
      have := foldl_setAdd "" array [] r hrun
      simpa [newSet] using this
    have h2 : newSet r = r := by
      have := foldl_setAdd "" r [] r hidem
      simpa [newSet] using this
    refine ⟨r, ?_, hsub, ?_, ?_, hfirst, ?_⟩
    · simp only [unique, hkey, Bool.not_false, if_true, h1]
    · simpa using hnodup
    · intro x hx
      rcases hcover x hx with h | h
      · cases h
      · simpa using h
    · simp only [unique, hkey, Bool.not_false, if_true, h2]

/-- Witness for C25: three pairs, the first and the last with the same second
component, made unique by the key 1; and three strings, the first and the last
equal, made unique without a key. -/
theorem unique_keeps_first_witness :
    unique pairRead [.object 7, .object 8, .object 7] (some (.str "1"))
      = .ok [.object 7, .object 8] ∧
    (∃ r, unique pairRead [.object 7, .object 8, .object 7] (some (.str "1")) = .ok r ∧
      r.Sublist [.object 7, .object 8, .object 7] ∧
      (r.map pairSecond).Nodup ∧
      (∀ x ∈ [Value.object 7, .object 8, .object 7], pairSecond x ∈ r.map pairSecond) ∧
      (∀ x ∈ r, [Value.object 7, .object 8, .object 7].find?
        (fun y => decide (pairSecond y = pairSecond x)) = some x) ∧
      unique pairRead r (some (.str "1")) = .ok r) ∧
    unique pairRead [.prim (.str "a"), .prim (.str "b"), .prim (.str "a")] none
      = .ok [.prim (.str "a"), .prim (.str "b")] ∧
    (∃ r, unique pairRead [.prim (.str "a"), .prim (.str "b"), .prim (.str "a")] none = .ok r ∧
      r.Sublist [.prim (.str "a"), .prim (.str "b"), .prim (.str "a")] ∧
      r.Nodup ∧
      (∀ x ∈ [Value.prim (.str "a"), .prim (.str "b"), .prim (.str "a")], x ∈ r) ∧
      (∀ x ∈ r, [Value.prim (.str "a"), .prim (.str "b"), .prim (.str "a")].find?
        (fun y => decide (y = x)) = some x) ∧
      unique pairRead r none = .ok r) :=
  ⟨rfl,
   (unique_keeps_first pairRead [.object 7, .object 8, .object 7] (some (.str "1"))
      pairSecond).1 rfl (by
        intro item hitem
        simp only [List.mem_cons, List.mem_singleton, List.not_mem_nil, or_false] at hitem
        rcases hitem with h | h | h <;> rw [h] <;> rfl),
   rfl,
   (unique_keeps_first pairRead [.prim (.str "a"), .prim (.str "b"), .prim (.str "a")] none
      pairSecond).2 rfl⟩

/-- C25, the counterexample: with the key 0, which is given but falsy, unique takes
the branch without key.  The two pairs have the same first component, item[0],
and both are returned, because they are two objects; with the key '0', the same
property name, only the first is returned. -/
theorem unique_counterexample :
    unique pairRead [.object 7, .object 8] (some (.num 0)) = .ok [.object 7, .object 8] ∧
    pairRead (.object 7) (jsToString (some (.num 0))) = .ok (.prim (.num 1)) ∧
    pairRead (.object 8) (jsToString (some (.num 0))) = .ok (.prim (.num 1)) ∧
    unique pairRead [.object 7, .object 8] (some (.str "0")) = .ok [.object 7] :=
  ⟨rfl, rfl, rfl, rfl⟩

/-! ## Utility functions: retry -/

theorem cast_lt_maxRetries (i n : Nat) : ((i : ℚ) < (n : ℚ)) ↔ i < n := Nat.cast_lt

theorem cast_eq_maxRetries_sub_one (i n : Nat) : ((i : ℚ) = (n : ℚ) - 1) ↔ i + 1 = n := by
  constructor
  · intro h
    have h1 : ((i + 1 : Nat) : ℚ) = (n : ℚ) := by
      push_cast
      linarith
    exact_mod_cast h1
  · intro h
    rw [← h]
    push_cast
    ring

theorem flatMap_range_succ (g : Nat → List RetryEvent) (k : Nat) :
    (List.range (k + 1)).flatMap g = g 0 ++ (List.range k).flatMap (fun j => g (j + 1)) := by
  rw [List.range_succ_eq_map, List.flatMap_cons, List.flatMap_map]

theorem flatMap_range_congr (g g' : Nat → List RetryEvent) (k : Nat)
    (h : ∀ j, j < k → g j = g' j) :
    (List.range k).flatMap g = (List.range k).flatMap g' := by
  induction k with
  | zero => rfl
  | succ k ih =>
    rw [List.range_succ, List.flatMap_append, List.flatMap_append,
      ih (fun j hj => h j (by omega))]
    simp only [List.flatMap_singleton]
    rw [h k (by omega)]

/-- The product that is passed to sleep is the exact one as long as it is a finite
Number. -/
theorem backoffDelay_finite {delay : ℚ} {i : Nat} (hi : i ≤ 1023)
    (h : |delay| * 2 ^ i < 2 ^ 1024) : backoffDelay delay i = .finite (delay * 2 ^ i) := by
  simp only [backoffDelay, hi, h, if_true]

/-- The loop of retry with an integer bound n, entered at index i: when the next k
calls of fn fail and the call after them either succeeds or is the call number
n - 1, the loop makes exactly these k + 1 calls, waits after each of the k
failures, and settles to the outcome of the last call. -/
theorem retryLoop_run {σ ε α : Type} (fn : σ → σ × Except ε α) (n : Nat) (delay : ℚ) :
    ∀ (k i fuel : Nat) (s : σ) (trace : List RetryEvent) (outcome : Except ε α),
      k < fuel → i + k < n →
      (∀ j, j < k → ∃ e, (nthCall fn j s).2 = .error e) →
      (nthCall fn k s).2 = outcome →
      ((∃ value, outcome = .ok value) ∨ i + k + 1 = n) →
      retryLoop fn (n : ℚ) delay fuel i s trace
        = some ((nthCall fn k s).1,
            trace ++ (List.range k).flatMap
                (fun j => [.call, .sleep (backoffDelay delay (i + j))])
              ++ [.call],
            match outcome with
            | .ok value => .ok (some value)
            | .error error => .error error) := by
  intro k
  induction k with
  | zero =>
    intro i fuel s trace outcome hfuel hi _ hlast hend
    obtain ⟨fuel, rfl⟩ : ∃ m, fuel = m + 1 := ⟨fuel - 1, by omega⟩
    have hlt : (i : ℚ) < (n : ℚ) := (cast_lt_maxRetries i n).mpr (by omega)
    simp only [nthCall] at hlast
    cases hfn : fn s with
    | mk s' result =>
      rw [hfn] at hlast
      simp only at hlast
      subst hlast
      cases result with
      | ok value =>
        simp only [retryLoop, if_pos hlt, hfn, nthCall, List.range_zero, List.flatMap_nil,
          List.append_nil]
      | error error =>
        have hlast' : i + 1 = n := by
          rcases hend with ⟨value, hv⟩ | h
          · cases hv
          · omega
        have heq : (i : ℚ) = (n : ℚ) - 1 := (cast_eq_maxRetries_sub_one i n).mpr hlast'
        simp only [retryLoop, if_pos hlt, hfn, if_pos heq, nthCall, List.range_zero,
          List.flatMap_nil, List.append_nil]
  | succ k ih =>
    intro i fuel s trace outcome hfuel hi hfail hlast hend
    obtain ⟨fuel, rfl⟩ : ∃ m, fuel = m + 1 := ⟨fuel - 1, by omega⟩
    have hlt : (i : ℚ) < (n : ℚ) := (cast_lt_maxRetries i n).mpr (by omega)
    have hne : ¬ ((i : ℚ) = (n : ℚ) - 1) := by
      rw [cast_eq_maxRetries_sub_one]
      omega
    obtain ⟨e, he⟩ := hfail 0 (by omega)
    simp only [nthCall] at he
    cases hfn : fn s with
    | mk s' result =>
      rw [hfn] at he
      simp only at he
      subst he
      have hs' : (fn s).1 = s' := by rw [hfn]
      have hrec := ih (i + 1) fuel s' (trace ++ [.call, .sleep (backoffDelay delay i)]) outcome
        (by omega) (by omega)
        (fun j hj => by
          have := hfail (j + 1) (by omega)
          simpa only [nthCall, hs'] using this)
        (by simpa only [nthCall, hs'] using hlast)
        (by
          rcases hend with h | h
          · exact Or.inl h
          · exact Or.inr (by omega))
      simp only [retryLoop, if_pos hlt, hfn, if_neg hne, hrec, nthCall]
      rw [flatMap_range_succ]
      simp only [Nat.add_zero, List.append_assoc, List.cons_append, List.nil_append,
        Nat.add_assoc, Nat.add_comm 1]

/-- What retry does with an integer maxRetries n between 1 and 2^53 when the first k
calls of fn fail and the next one ends the loop: the calls and waits of
`retryTrace`, and the outcome of the last call. -/
theorem retry_run {σ ε α : Type} (fn : σ → σ × Except ε α) (n : Nat) (delay : ℚ) (s : σ)
    (fuel k : Nat) (outcome : Except ε α) :
    n ≤ 2 ^ 53 → k < fuel → k < n →
    (∀ j, j < k → ∃ e, (nthCall fn j s).2 = .error e) →
    (nthCall fn k s).2 = outcome →
    ((∃ value, outcome = .ok value) ∨ k + 1 = n) →
    retry fuel fn (some (n : ℚ)) (some delay) s
      = some ((nthCall fn k s).1, retryTrace delay k,
          match outcome with
          | .ok value => .ok (some value)
          | .error error => .error error) := by
  intro hmax hfuel hk hfail hlast hend
  have hcast : ((n : Nat) : ℚ) ≤ 2 ^ 53 := by exact_mod_cast hmax
  have h := retryLoop_run fn n delay k 0 fuel s [] outcome hfuel (by omega) hfail hlast
    (by
      rcases hend with h | h
      · exact Or.inl h
      · exact Or.inr (by omega))
  simpa only [retry, Option.getD_some, if_pos hcast, retryTrace, List.nil_append,
    Nat.zero_add] using h

/-- As long as the products are finite Numbers, the waits of retry are those of
exponential backoff. -/
theorem retryTrace_eq_backoffTrace (delay : ℚ) (k : Nat) (hk : k ≤ 1024)
    (hfinite : |delay| * 2 ^ (k - 1) < 2 ^ 1024) :
    retryTrace delay k = backoffTrace delay k := by
  unfold retryTrace backoffTrace
  congr 1
  apply flatMap_range_congr
  intro j hj
  have hj' : j ≤ 1023 := by omega
  have hle : |delay| * 2 ^ j ≤ |delay| * 2 ^ (k - 1) := by
    apply mul_le_mul_of_nonneg_left _ (abs_nonneg delay)
    exact pow_le_pow_right₀ (by norm_num) (by omega)
  rw [backoffDelay_finite hj' (lt_of_le_of_lt hle hfinite)]

theorem countCalls_backoffTrace (delay : ℚ) (k : Nat) :
    countCalls (backoffTrace delay k) = k + 1 := by
  induction k with
  | zero => simp [countCalls, backoffTrace]
  | succ k ih =>
    simp only [countCalls, backoffTrace] at ih ⊢
    rw [List.range_succ, List.flatMap_append]
    simp only [List.flatMap_singleton, List.count_append] at ih ⊢
    simp only [List.count_cons, List.count_nil] at ih ⊢
    simp at ih ⊢
    omega

/-- Among the first m calls of fn either there is a first one that succeeds, or
all of them fail. -/
theorem first_success_or_all_fail {σ ε α : Type} (fn : σ → σ × Except ε α) (s : σ) :
    ∀ m : Nat,
      (∃ k value, k < m ∧ (∀ j, j < k → ∃ e, (nthCall fn j s).2 = .error e) ∧
        (nthCall fn k s).2 = .ok value) ∨
      (∀ j, j < m → ∃ e, (nthCall fn j s).2 = .error e) := by
  intro m
  induction m with
  | zero =>
    right
    intro j hj
    omega
  | succ m ih =>
    rcases ih with ⟨k, value, hk, hfail, hok⟩ | hall
    · exact Or.inl ⟨k, value, by omega, hfail, hok⟩
    · cases hm : (nthCall fn m s).2 with
      | ok value => exact Or.inl ⟨m, value, by omega, hall, hm⟩
      | error e =>
        right
        intro j hj
        by_cases hjm : j = m
        · rw [hjm]
          exact ⟨e, hm⟩
        · exact hall j (by omega)

theorem retryWaits_length (delay : ℚ) (k : Nat) :
    ((List.range k).flatMap
      (fun i => [RetryEvent.call, RetryEvent.sleep (backoffDelay delay i)])).length = 2 * k := by
  induction k with
  | zero => rfl
  | succ k ih =>
    rw [List.range_succ, List.flatMap_append, List.length_append, ih]
    simp only [List.flatMap_singleton, List.length_cons, List.length_nil]
    omega

/-- The wait after the failed attempt number i is the element number 2 * i + 1 of
the calls and waits of retry. -/
theorem retryTrace_wait (delay : ℚ) (k i : Nat) (hi : i < k) :
    (retryTrace delay k)[2 * i + 1]? = some (.sleep (backoffDelay delay i)) := by
  unfold retryTrace
  induction k with
  | zero => omega
  | succ k ih =>
    rw [List.range_succ, List.flatMap_append, List.append_assoc]
    by_cases hik : i < k
    · have h := ih hik
      have hlen := retryWaits_length delay k
      rw [List.getElem?_append_left (by omega)] at h ⊢
      exact h
    · have hik' : i = k := by omega
      subst hik'
      have hlen := retryWaits_length delay i
      rw [List.getElem?_append_right (by omega), hlen]
      simp only [List.flatMap_singleton, List.cons_append, List.nil_append]
      rw [show 2 * i + 1 - 2 * i = 1 by omega]
      rfl

theorem nthCall_alwaysFails (k s : Nat) :
    nthCall alwaysFails k s = (s + k + 1, .error "unreachable") := by
  induction k generalizing s with
  | zero => rfl
  | succ k ih =>
    simp only [nthCall]
    rw [show (alwaysFails s).1 = s + 1 from rfl, ih]
    congr 1
    omega

/-- C26, as it holds: for an integer maxRetries n from 1 to 1025 and a delay whose
product with 2^(n - 2) is below 2^1024 in magnitude, retry calls fn until the
first success and resolves with its result: when the first k calls fail (k below
n) and the next one succeeds, retry makes these k + 1 calls of fn and, after the
failed call number i (counted from 0), waits delay * 2^i milliseconds.  When all
n calls fail, retry makes the n calls of fn with the same waits after the first
n - 1 of them, none after the last, and rejects with the error of the last call.
In every case retry returns (with fuel n) having called fn at least once and at
most n times. -/
theorem retry_backoff {σ ε α : Type} (fn : σ → σ × Except ε α) (n : Nat) (delay : ℚ) (s : σ)
    (fuel : Nat) (hn : 1 ≤ n) (hmax : n ≤ 1025) (hdelay : |delay| * 2 ^ (n - 2) < 2 ^ 1024)
    (hfuel : n ≤ fuel) :
    (∀ k value, k < n → (∀ j, j < k → ∃ e, (nthCall fn j s).2 = .error e) →
      (nthCall fn k s).2 = .ok value →
      retry fuel fn (some (n : ℚ)) (some delay) s
        = some ((nthCall fn k s).1, backoffTrace delay k, .ok (some value))) ∧
    (∀ error, (∀ j, j < n - 1 → ∃ e, (nthCall fn j s).2 = .error e) →
      (nthCall fn (n - 1) s).2 = .error error →
      retry fuel fn (some (n : ℚ)) (some delay) s
        = some ((nthCall fn (n - 1) s).1, backoffTrace delay (n - 1), .error error)) ∧
    (∃ result, retry fuel fn (some (n : ℚ)) (some delay) s = some result ∧
      1 ≤ countCalls result.2.1 ∧ countCalls result.2.1 ≤ n) := by
  have hbig : n ≤ 2 ^ 53 := le_trans hmax (by norm_num)
  have htrace : ∀ k, k < n → retryTrace delay k = backoffTrace delay k := by
    intro k hk
    apply retryTrace_eq_backoffTrace delay k (by omega)
    refine lt_of_le_of_lt ?_ hdelay
    apply mul_le_mul_of_nonneg_left _ (abs_nonneg delay)
    exact pow_le_pow_right₀ (by norm_num) (by omega)
  have hsuccess : ∀ k value, k < n → (∀ j, j < k → ∃ e, (nthCall fn j s).2 = .error e) →
      (nthCall fn k s).2 = .ok value →
      retry fuel fn (some (n : ℚ)) (some delay) s
        = some ((nthCall fn k s).1, backoffTrace delay k, .ok (some value)) := by
    intro k value hk hfail hok
    rw [← htrace k hk]
    exact retry_run fn n delay s fuel k (.ok value) hbig (by omega) hk hfail hok
      (Or.inl ⟨value, rfl⟩)
  have hfailure : ∀ error, (∀ j, j < n - 1 → ∃ e, (nthCall fn j s).2 = .error e) →
      (nthCall fn (n - 1) s).2 = .error error →
      retry fuel fn (some (n : ℚ)) (some delay) s
        = some ((nthCall fn (n - 1) s).1, backoffTrace delay (n - 1), .error error) := by
    intro error hfail hlast
    rw [← htrace (n - 1) (by omega)]
    exact retry_run fn n delay s fuel (n - 1) (.error error) hbig (by omega) (by omega)
      hfail hlast (Or.inr (by omega))
  refine ⟨hsuccess, hfailure, ?_⟩
  rcases first_success_or_all_fail fn s n with ⟨k, value, hk, hfail, hok⟩ | hall
  · refine ⟨_, hsuccess k value hk hfail hok, ?_, ?_⟩
    · simp only [countCalls_backoffTrace]
      omega
    · simp only [countCalls_backoffTrace]
      omega
  · obtain ⟨error, herror⟩ := hall (n - 1) (by omega)
    refine ⟨_, hfailure error (fun j hj => hall j (by omega)) herror, ?_, ?_⟩
    · simp only [countCalls_backoffTrace]
      omega
    · simp only [countCalls_backoffTrace]
      omega

/-- Witness for C26: a function that succeeds at its third call, retried at most
three times with the delay 1000; and a function that always fails, retried at
most twice. -/
theorem retry_backoff_witness :
    (∀ j, j < 2 → ∃ e, (nthCall succeedsThird j 0).2 = .error e) ∧
    (nthCall succeedsThird 2 0).2 = .ok "done" ∧
    backoffTrace 1000 2
      = [.call, .sleep (.finite 1000), .call, .sleep (.finite 2000), .call] ∧
    retry 3 succeedsThird (some ((3 : Nat) : ℚ)) (some 1000) 0
      = some ((nthCall succeedsThird 2 0).1, backoffTrace 1000 2, .ok (some "done")) ∧
    (nthCall succeedsThird 2 0).1 = 3 ∧
    (nthCall alwaysFails 1 0).2 = .error "unreachable" ∧
    backoffTrace 1000 1 = [.call, .sleep (.finite 1000), .call] ∧
    retry 2 alwaysFails (some ((2 : Nat) : ℚ)) (some 1000) 0
      = some ((nthCall alwaysFails (2 - 1) 0).1, backoffTrace 1000 (2 - 1),
          .error "unreachable") :=
  have hfail : ∀ j, j < 2 → ∃ e, (nthCall succeedsThird j 0).2 = .error e := by
    intro j hj
    interval_cases j
    · exact ⟨_, rfl⟩
    · exact ⟨_, rfl⟩
  have hfail' : ∀ j, j < 2 - 1 → ∃ e, (nthCall alwaysFails j 0).2 = .error e := by
    intro j hj
    interval_cases j
    exact ⟨_, rfl⟩
  ⟨hfail, rfl, by simp [backoffTrace, List.range_succ]; norm_num,
   (retry_backoff succeedsThird 3 1000 0 3 (by decide) (by decide) (by norm_num)
     (by decide)).1 2 "done" (by decide) hfail rfl,
   rfl, rfl, by simp [backoffTrace, List.range_succ],
   (retry_backoff alwaysFails 2 1000 0 2 (by decide) (by decide) (by norm_num)
     (by decide)).2.1 "unreachable" hfail' rfl⟩

/-- C26, the counterexamples, all with a function that always fails.  With
maxRetries 2.5, which is at least 1, retry calls fn three times, more than
maxRetries; no index equals maxRetries - 1, so after the third failure it waits
once more and then resolves with undefined instead of rejecting.  With
maxRetries 3 and the delay 2^1023 the second wait is Infinity, not the
delay * 2^1 = 2^1024 milliseconds of the claim, which is not a Number.  With
maxRetries 1026 and the delay 0 the wait after the failed attempt number 1024
is NaN, not 0 * 2^1024 = 0 milliseconds: Math.pow(2, 1024) is Infinity. -/
theorem retry_counterexample :
    ((1 : ℚ) ≤ 5 / 2 ∧
      retry 4 alwaysFails (some (5 / 2)) (some 1000) 0
        = some (3, [.call, .sleep (.finite 1000), .call, .sleep (.finite 2000), .call,
            .sleep (.finite 4000)], .ok none) ∧
      ((5 / 2 : ℚ) < countCalls [.call, .sleep (.finite 1000), .call, .sleep (.finite 2000),
        .call, .sleep (.finite 4000)])) ∧
    (retry 3 alwaysFails (some ((3 : Nat) : ℚ)) (some (2 ^ 1023)) 0
        = some (3, [.call, .sleep (.finite (2 ^ 1023)), .call, .sleep .infinity, .call],
            .error "unreachable") ∧
      Duration.infinity ≠ .finite (2 ^ 1023 * 2 ^ 1)) ∧
    (∃ state events,
      retry 1026 alwaysFails (some ((1026 : Nat) : ℚ)) (some 0) 0
        = some (state, events, .error "unreachable") ∧
      events[2049]? = some (.sleep .notANumber) ∧
      Duration.notANumber ≠ .finite (0 * 2 ^ 1024)) := by
  refine ⟨⟨by norm_num, ?_, ?_⟩, ⟨?_, by simp⟩, ?_⟩
  · simp [retry, retryLoop, alwaysFails, backoffDelay]
    norm_num
  · simp [countCalls]
    norm_num
  · simp [retry, retryLoop, alwaysFails, backoffDelay]
    norm_num
  · have hrun := retry_run alwaysFails 1026 0 0 1026 1025 (.error "unreachable")
      (by norm_num) (by decide) (by decide)
      (fun j _ => ⟨"unreachable", by rw [nthCall_alwaysFails]⟩)
      (by rw [nthCall_alwaysFails]) (Or.inr rfl)
    refine ⟨_, _, hrun, ?_, by simp⟩
    have hwait := retryTrace_wait 0 1025 1024 (by decide)
    rw [show backoffDelay 0 1024 = .notANumber by simp [backoffDelay]] at hwait
    exact hwait

/-! ## API client: formatting a runtime -/

theorem bitLengthAux_le : ∀ (fuel n b : Nat), n < 2 ^ b → bitLengthAux fuel n ≤ b := by
  intro fuel
  induction fuel with
  | zero =>
    intro n b _
    simp [bitLengthAux]
  | succ fuel ih =>
    intro n b h
    by_cases hn : n = 0
    · simp [bitLengthAux, hn]
    · cases b with
      | zero =>
        simp at h
        exact absurd h hn
      | succ b =>
        have h2 : n / 2 < 2 ^ b := by
          rw [Nat.pow_succ] at h
          omega
        have := ih (n / 2) b h2
        simp only [bitLengthAux, hn, if_false]
        omega

theorem bitLength_le {n b : Nat} (h : n < 2 ^ b) : bitLength n ≤ b :=
  bitLengthAux_le n n b h

theorem bitLengthAux_spec : ∀ (fuel n : Nat), n ≤ fuel →
    n < 2 ^ bitLengthAux fuel n ∧ (n ≠ 0 → 2 ^ (bitLengthAux fuel n - 1) ≤ n) := by
  intro fuel
  induction fuel with
  | zero =>
    intro n h
    have h0 : n = 0 := by omega
    subst h0
    simp [bitLengthAux]
  | succ fuel ih =>
    intro n h
    by_cases hn : n = 0
    · subst hn
      simp [bitLengthAux]
    · obtain ⟨hup, hlow⟩ := ih (n / 2) (by omega)
      simp only [bitLengthAux, hn, if_false, Nat.add_sub_cancel]
      constructor
      · rw [Nat.pow_succ]
        omega
      · intro _
        by_cases h2 : n / 2 = 0
        · have h1 : n = 1 := by omega
          have hb : bitLengthAux fuel (n / 2) = 0 := by
            rw [h2]
            cases fuel <;> simp [bitLengthAux]
          rw [hb, h1]
          simp
        · have hl := hlow h2
          have hpos : 1 ≤ bitLengthAux fuel (n / 2) := by
            by_contra hc
            have hz : bitLengthAux fuel (n / 2) = 0 := by omega
            rw [hz] at hup
            simp at hup
            exact h2 hup
          have hsplit : bitLengthAux fuel (n / 2) = (bitLengthAux fuel (n / 2) - 1) + 1 := by
            omega
          rw [hsplit, Nat.pow_succ]
          omega

/-- The number of binary digits is what `bitLength` computes: a positive `n` lies
between `2 ^ (bitLength n - 1)` and `2 ^ bitLength n`. -/
theorem bitLength_spec (n : Nat) :
    n < 2 ^ bitLength n ∧ (n ≠ 0 → 2 ^ (bitLength n - 1) ≤ n) :=
  bitLengthAux_spec n n (Nat.le_refl n)

/-- The integer `roundHalfEven` gives is a nearest one: it is at most one half
away from the exact quotient. -/
theorem roundHalfEven_nearest (n d : Nat) (hd : 0 < d) :
    2 * (n - d * roundHalfEven n d) ≤ d ∧ 2 * (d * roundHalfEven n d - n) ≤ d := by
  have h := Nat.div_add_mod n d
  have hr := Nat.mod_lt n hd
  obtain ⟨A, hA⟩ : ∃ A, A = d * (n / d) := ⟨_, rfl⟩
  rw [← hA] at h
  unfold roundHalfEven
  split_ifs
  · rw [← hA]
    omega
  · rw [Nat.mul_add, ← hA, Nat.mul_one]
    omega
  · rw [← hA]
    omega
  · rw [Nat.mul_add, ← hA, Nat.mul_one]
    omega

/-- A quotient between 2^52 and 2^53 rounds to a mantissa of 53 binary digits (or to
2^53, the first mantissa of the next exponent). -/
theorem roundHalfEven_mantissa (n b : Nat) (hb : 0 < b) (hlo : 2 ^ 52 * b ≤ n)
    (hhi : n < 2 ^ 53 * b) :
    2 ^ 52 ≤ roundHalfEven n b ∧ roundHalfEven n b ≤ 2 ^ 53 := by
  have h1 : 2 ^ 52 ≤ n / b := (Nat.le_div_iff_mul_le hb).mpr hlo
  have h2 : n / b < 2 ^ 53 := (Nat.div_lt_iff_lt_mul hb).mpr hhi
  unfold roundHalfEven
  split_ifs <;> omega

/-- In the first branch of `floorOfQuotient` the exact quotient is scaled so that it
lies between 2^52 and 2^53: the exponent taken from the integer part of the
quotient is the exponent of the quotient. -/
theorem scaled_quotient_bounds (a b : Nat) (hb : 0 < b) (hab : b ≤ a)
    (he : bitLength (a / b) - 1 ≤ 52) :
    2 ^ 52 * b ≤ a * 2 ^ (52 - (bitLength (a / b) - 1)) ∧
    a * 2 ^ (52 - (bitLength (a / b) - 1)) < 2 ^ 53 * b := by
  have hq : a / b ≠ 0 := Nat.pos_iff_ne_zero.mp (Nat.div_pos hab hb)
  obtain ⟨hup, hlow⟩ := bitLength_spec (a / b)
  have hlow' := hlow hq
  have hL : 1 ≤ bitLength (a / b) := by
    by_contra hc
    have hz : bitLength (a / b) = 0 := by omega
    rw [hz] at hup
    simp at hup
    exact hq hup
  obtain ⟨e, hedef⟩ : ∃ e, e = bitLength (a / b) - 1 := ⟨_, rfl⟩
  have hLe : bitLength (a / b) = e + 1 := by omega
  rw [← hedef] at he hlow' ⊢
  rw [hLe] at hup
  have h1 : 2 ^ e * b ≤ a := (Nat.le_div_iff_mul_le hb).mp hlow'
  have h2 : a < 2 ^ (e + 1) * b := (Nat.div_lt_iff_lt_mul hb).mp hup
  have hpos : 0 < 2 ^ (52 - e) := by positivity
  have hsplit1 : (2 : Nat) ^ 52 = 2 ^ e * 2 ^ (52 - e) := by
    rw [← Nat.pow_add]
    congr 1
    omega
  have hsplit2 : (2 : Nat) ^ 53 = 2 ^ (e + 1) * 2 ^ (52 - e) := by
    rw [← Nat.pow_add]
    congr 1
    omega
  constructor
  · calc 2 ^ 52 * b = (2 ^ e * b) * 2 ^ (52 - e) := by rw [hsplit1]; ring
      _ ≤ a * 2 ^ (52 - e) := Nat.mul_le_mul_right _ h1
  · calc a * 2 ^ (52 - e) < (2 ^ (e + 1) * b) * 2 ^ (52 - e) :=
          Nat.mul_lt_mul_of_pos_right h2 hpos
      _ = 2 ^ 53 * b := by rw [hsplit2]; ring

/-- With at least five binary digits after the point, the quotient by 60 of an
integer rounds to a Number with the same integer part. -/
theorem roundHalfEven_div (m P : Nat) (hP : 32 ≤ P) :
    roundHalfEven (m * P) 60 / P = m / 60 := by
  obtain ⟨A, hAdef⟩ : ∃ A, A = (m / 60) * P := ⟨_, rfl⟩
  obtain ⟨X, hXdef⟩ : ∃ X, X = (m % 60) * P := ⟨_, rfl⟩
  have hA : m * P = 60 * A + X := by
    have h := Nat.div_add_mod m 60
    calc m * P = (60 * (m / 60) + m % 60) * P := by rw [h]
      _ = 60 * ((m / 60) * P) + (m % 60) * P := by ring
      _ = 60 * A + X := by rw [hAdef, hXdef]
  have hX : X ≤ 59 * P := by
    rw [hXdef]
    exact Nat.mul_le_mul_right P (by omega)
  have hbounds : A ≤ roundHalfEven (m * P) 60 ∧ roundHalfEven (m * P) 60 < A + P := by
    rw [hA]
    unfold roundHalfEven
    split_ifs <;> omega
  apply Nat.div_eq_of_lt_le
  · rw [← hAdef]
    exact hbounds.1
  · have h1 : (m / 60 + 1) * P = A + P := by
      rw [hAdef]
      ring
    rw [h1]
    exact hbounds.2

/-- Below 2^53 the division by 60 loses nothing that Math.floor keeps. -/
theorem floorOfQuotient_sixty (m : Nat) (hm : m < 2 ^ 53) : floorOfQuotient m 60 = m / 60 := by
  unfold floorOfQuotient
  by_cases h60 : 60 ≤ m
  · have hq : m / 60 < 2 ^ 48 := by
      have h253 : (2 : Nat) ^ 53 = 9007199254740992 := by norm_num
      have h248 : (2 : Nat) ^ 48 = 281474976710656 := by norm_num
      omega
    have hb := bitLength_le hq
    have he : bitLength (m / 60) - 1 ≤ 52 := by omega
    simp only [h60, if_true, he]
    apply roundHalfEven_div
    have h5 : 5 ≤ 52 - (bitLength (m / 60) - 1) := by omega
    calc 32 = 2 ^ 5 := by norm_num
      _ ≤ 2 ^ (52 - (bitLength (m / 60) - 1)) := Nat.pow_le_pow_right (by norm_num) h5
  · simp only [h60, if_false]
    apply roundHalfEven_div
    calc 32 = 2 ^ 5 := by norm_num
      _ ≤ 2 ^ (52 + bitLength ((60 - 1) / m)) := Nat.pow_le_pow_right (by norm_num) (by omega)

theorem isNumberValue_of_lt (m : Nat) (hm : m < 2 ^ 53) : isNumberValue m = true := by
  have hb := bitLength_le hm
  have h0 : bitLength m - 53 = 0 := by omega
  simp only [isNumberValue, h0, Nat.pow_zero, Nat.mod_one, beq_self_eq_true, Bool.and_true,
    decide_eq_true_eq]
  omega

/-- C22, as it holds: for every positive integer number of minutes m below 2^53,
formatRuntime(m) is the text of h, the letter h, a space, the text of r and the
letter m, with h = floor(m / 60) and r = m mod 60 (so that 60 * h + r = m and
r < 60), when m is at least 60, and the text of m followed by the letter m when m
is below 60; for a missing runtime and for the runtime 0 it is N/A. -/
theorem formatRuntime_hours_minutes (m : Nat) (hpos : 0 < m) (hm : m < 2 ^ 53) :
    (60 ≤ m → formatRuntime (some m)
      = some (toString (m / 60) ++ "h " ++ toString (m % 60) ++ "m")) ∧
    (m < 60 → formatRuntime (some m) = some (toString m ++ "m")) ∧
    60 * (m / 60) + m % 60 = m ∧ m % 60 < 60 ∧
    formatRuntime none = some "N/A" ∧ formatRuntime (some 0) = some "N/A" := by
  have hne : m ≠ 0 := by omega
  have hnum := isNumberValue_of_lt m hm
  have hfloor := floorOfQuotient_sixty m hm
  have h253 : (2 : Nat) ^ 53 = 9007199254740992 := by norm_num
  have hh : m / 60 < 2 ^ 53 := by omega
  have hr : m % 60 < 2 ^ 53 := by omega
  refine ⟨?_, ?_, Nat.div_add_mod m 60, Nat.mod_lt m (by norm_num), rfl, rfl⟩
  · intro h60
    have hpos' : m / 60 > 0 := by omega
    simp only [formatRuntime, hne, if_false, hnum, Bool.not_true, Bool.false_eq_true, hfloor,
      hpos', if_true, integerToString, hh, hr]
  · intro h60
    have hzero : ¬ (m / 60 > 0) := by omega
    have hmod : m % 60 = m := Nat.mod_eq_of_lt h60
    simp only [formatRuntime, hne, if_false, hnum, Bool.not_true, Bool.false_eq_true, hfloor,
      hzero, integerToString, hmod, hm, if_true]

/-- Witness for C22: a runtime of two hours and five minutes, and one of 45
minutes. -/
theorem formatRuntime_hours_minutes_witness :
    formatRuntime (some 125) = some "2h 5m" ∧
    formatRuntime (some 125)
      = some (toString (125 / 60) ++ "h " ++ toString (125 % 60) ++ "m") ∧
    formatRuntime (some 45) = some "45m" ∧
    formatRuntime (some 45) = some (toString 45 ++ "m") :=
  ⟨by decide,
   (formatRuntime_hours_minutes 125 (by decide) (by norm_num)).1 (by decide),
   by decide,
   (formatRuntime_hours_minutes 45 (by decide) (by norm_num)).2.1 (by decide)⟩

/-- C22, the counterexample: 70000000000000016 is a positive integer and a Number
value (it has 56 binary digits and is a multiple of 8).  Its exact quotient by
60 is 1166666666666666 + 14/15, a number with 51 binary digits before the point,
so a Number near it has 2 binary digits after the point: in quarters the
quotient is 4666666666666667 + 44/60, which rounds up to 4666666666666668
quarters, that is to 1166666666666667 exactly.  formatRuntime prints
1166666666666667 hours and 56 minutes, which are 60 minutes more than the
runtime. -/
theorem formatRuntime_counterexample :
    isNumberValue 70000000000000016 = true ∧
    bitLength 70000000000000016 = 56 ∧ 70000000000000016 % 8 = 0 ∧
    70000000000000016 / 60 = 1166666666666666 ∧ 70000000000000016 % 60 = 56 ∧
    bitLength (70000000000000016 / 60) = 51 ∧
    (70000000000000016 * 4) / 60 = 4666666666666667 ∧
    (70000000000000016 * 4) % 60 = 44 ∧
    roundHalfEven (70000000000000016 * 4) 60 = 4666666666666668 ∧
    floorOfQuotient 70000000000000016 60 = 1166666666666667 ∧
    formatRuntime (some 70000000000000016) = some "1166666666666667h 56m" ∧
    60 * 1166666666666667 + 56 = 70000000000000016 + 60 := by
  decide

end Streamflix
